import Mathlib

/-!
# PCAN back end (src/windows/pcan.c): a shallow embedding

The C functions of `pcan.c` are embedded as Lean functions over an explicit
program state.  Everything outside the translation unit (the PEAK driver, the
seat, the log, the C library) is an environment `Env` that answers the k-th call
of each entry point; every call made by the program is appended to a trace.
Machine integers are `Nat` with explicit reduction modulo `2 ^ 32` where the C
arithmetic can wrap.
-/

namespace PCan

/-! ## Constants of canapi2.h -/

def CAN_ERR_OK : Nat := 0x0000
def CAN_ERR_BUSOFF : Nat := 0x0010
def CAN_ERR_QRCVEMPTY : Nat := 0x0020
def CAN_ERR_ILLHW : Nat := 0x1400
def CAN_ERR_ILLNET : Nat := 0x1800
def CAN_ERR_ILLPARAMVAL : Nat := 0x8000

def CAN_MAX_STANDARD_ID : Nat := 0x7ff
def CAN_MAX_EXTENDED_ID : Nat := 0x1fffffff

def CAN_PARAM_NAME : Nat := 3
def CAN_PARAM_XMTQUEUEFILL : Nat := 11
def CAN_PARAM_RCVQUEUEFILL : Nat := 12
def CAN_PARAM_BUSON : Nat := 90
def CAN_PARAM_BAUDRATE : Nat := 7
def CAN_PARAM_NETHW : Nat := 19
def CAN_PARAM_XMTBUFFSIZE : Nat := 23
def CAN_PARAM_XMTQUEUESIZE : Nat := CAN_PARAM_XMTBUFFSIZE
def CAN_PARAM_EXACT_11BIT_FILTER : Nat := 56
def CAN_PARAM_TIMERFIX : Nat := 65

def CAN_BAUD_1M : Nat := 0x0014
def CAN_BAUD_500K : Nat := 0x001C
def CAN_BAUD_250K : Nat := 0x011C
def CAN_BAUD_125K : Nat := 0x031C
def CAN_BAUD_100K : Nat := 0x432F
def CAN_BAUD_50K : Nat := 0x472F
def CAN_BAUD_20K : Nat := 0x532F
def CAN_BAUD_10K : Nat := 0x672F
def CAN_BAUD_5K : Nat := 0x7F7F

/-- The Windows constant `INFINITE` of `WaitForSingleObject`. -/
def INFINITE : Nat := 0xFFFFFFFF

def MAX_HCANNET : Nat := 32

def MSGTYPE_STANDARD : Nat := 0x00
def MSGTYPE_RTR : Nat := 0x01
def MSGTYPE_EXTENDED : Nat := 0x02
def MSGTYPE_PARAMETER : Nat := 0x20
def MSGTYPE_ERRFRAME : Nat := 0x40
def MSGTYPE_STATUS : Nat := 0x80

/-! ## Data model -/

/-- The struct `TCANMsg` of canapi2.h: `DWORD ID; BYTE MSGTYPE; BYTE LEN; BYTE DATA[8]`. -/
structure TCANMsg where
  ID : Nat
  MSGTYPE : Nat
  LEN : Nat
  DATA : List Nat
deriving DecidableEq, Repr, Inhabited

/-- A frame as the driver hands it out: the fields fit their C types. -/
def TCANMsg.wf (m : TCANMsg) : Prop :=
  m.ID < 2 ^ 32 ∧ m.MSGTYPE < 256 ∧ m.LEN ≤ 8 ∧ m.DATA.length = 8

instance (m : TCANMsg) : Decidable m.wf := by
  unfold TCANMsg.wf; infer_instance

/-- The import table `dll` of canapi2.c 31-53: the nineteen function pointers
and the library handle; `0` is `NULL`. -/
structure Dll where
  PEAK_RegisterClient : Nat := 0
  PEAK_ConnectToNet : Nat := 0
  PEAK_DisconnectFromNet : Nat := 0
  PEAK_GetNetParam : Nat := 0
  PEAK_ResetHardware : Nat := 0
  PEAK_RegisterMsg : Nat := 0
  PEAK_RegisterNet : Nat := 0
  PEAK_GetClientParam : Nat := 0
  PEAK_SetClientParam : Nat := 0
  PEAK_SetHwParam : Nat := 0
  PEAK_RemoveClient : Nat := 0
  PEAK_Read : Nat := 0
  PEAK_Write : Nat := 0
  PEAK_GetSystemTime : Nat := 0
  PEAK_Status : Nat := 0
  PEAK_GetErrText : Nat := 0
  PEAK_GetHwParam : Nat := 0
  PEAK_GetDeviceName : Nat := 0
  PEAK_SetDeviceName : Nat := 0
  handle : Nat := 0
deriving DecidableEq, Repr, Inhabited

/-- The struct `PCAN` of pcan.c (the seat, log context and vtable pointers are
left out: the program only passes them on). Handles are numbers, `0` is `NULL`. -/
structure PCAN where
  client : Nat
  net : Nat
  hw : Nat
  netname : List Char
  bitrate : Int
  rxid : Nat
  txid : Nat
  rxthread : Nat
  rxevent : Nat
  rxthread_running : Bool
  xmtqueue_size : Nat
deriving DecidableEq, Repr, Inhabited

/-- One call the program makes to the outside, with the arguments it passes. -/
inductive Event where
  | CAN_SetHwParam (hw param value : Nat)
  | CAN_ResetHardware (hw : Nat)
  | Sleep (ms : Nat)
  | CAN_Read (client : Nat)
  | CAN_Write (client net : Nat) (msg : TCANMsg)
  | CAN_Status (hw : Nat)
  | CAN_GetClientParam (client param : Nat)
  | CAN_GetNetParam (net param : Nat)
  | seat_stdout (data : List Nat) (len : Nat)
  | logeventf (fmt : String) (args : List Nat)
  | logeventf_s (fmt : String) (arg : List Char)
  | seat_set_trust_status (trusted : Bool)
  | seat_update_specials_menu
  | LoadLibraryA (name : String)
  | GetProcAddress (handle : Nat) (name : String)
  | FreeLibrary (handle : Nat)
  | GetModuleFileNameA
  | CAN_RegisterClient (name : List Char) (hWnd : Nat)
  | CAN_ConnectToNet (client : Nat) (name : List Char)
  | CAN_SetClientParam (client param value : Nat)
  | CAN_RegisterMsg (client net : Nat) (msg1 msg2 : TCANMsg)
  | store_rxthread_running (value : Bool)
  | CreateEvent
  | add_handle_wait (handle : Nat)
  | CreateThread
  | WaitForSingleObject (handle ms : Nat)
  | CloseHandle (handle : Nat)
  | CAN_DisconnectFromNet (client net : Nat)
  | CAN_RemoveClient (client : Nat)
  | load_rxthread_running (value : Bool)
  | SetEvent (handle : Nat)
deriving DecidableEq, Repr

/-- What the outside answers.  Each field gives the answer to the k-th call of
that entry point (k counts from 0 over the whole run).  For calls with an out
parameter the answer holds the result code and the content of the out
parameter after the call (on failure: whatever the callee or the uninitialised
local left there).  The `uninit_` fields give the indeterminate initial value
of locals that the C code reads without initialising them. -/
structure Env where
  CAN_SetHwParam : Nat → Nat
  CAN_ResetHardware : Nat → Nat
  CAN_Read : Nat → Nat × TCANMsg
  CAN_Write : Nat → Nat
  CAN_Status : Nat → Nat
  CAN_GetClientParam : Nat → Nat × Nat
  seat_stdout : Nat → Nat
  LoadLibraryA : Nat → Nat
  GetProcAddress : Nat → Nat
  GetModuleFileNameA : Nat → List Char
  CAN_RegisterClient : Nat → Nat × Nat
  /-- Answer of `CAN_GetNetParam(net, CAN_PARAM_NAME, ..)` by net handle. -/
  netnames : Nat → Nat × List Char
  CAN_ConnectToNet : Nat → Nat × Nat
  CAN_GetNetParam_NETHW : Nat → Nat × Nat
  CAN_SetClientParam : Nat → Nat
  CAN_RegisterMsg : Nat → Nat
  CreateEvent : Nat → Nat
  CreateThread : Nat → Nat
  WaitForSingleObject : Nat → Nat
  CloseHandle : Nat → Nat
  CAN_DisconnectFromNet : Nat → Nat
  CAN_RemoveClient : Nat → Nat
  /-- What the poller thread reads in `pcan->rxthread_running` at its k-th load
  (the main thread stores to the flag meanwhile). -/
  rxthread_running : Nat → Bool
  /-- Stack content of `msg.DATA` in the k-th `pcan_send_msg`. -/
  uninit_DATA : Nat → List Nat
  /-- Stack content of `err` on entry to `pcan_send`. -/
  uninit_err : Int

/-- Program state: the session struct, how often each entry point has been
called so far, and the trace of all calls. -/
structure State where
  pcan : PCAN
  nSetHwParam : Nat
  nResetHardware : Nat
  nRead : Nat
  nWrite : Nat
  nStatus : Nat
  nGetClientParam : Nat
  nStdout : Nat
  trace : List Event
  nLoadLibraryA : Nat := 0
  nGetProcAddress : Nat := 0
  nGetModuleFileNameA : Nat := 0
  nRegisterClient : Nat := 0
  nConnectToNet : Nat := 0
  nGetNetParam_NETHW : Nat := 0
  nSetClientParam : Nat := 0
  nRegisterMsg : Nat := 0
  nCreateEvent : Nat := 0
  nCreateThread : Nat := 0
  nWaitForSingleObject : Nat := 0
  nCloseHandle : Nat := 0
  nDisconnectFromNet : Nat := 0
  nRemoveClient : Nat := 0
  nFlagLoad : Nat := 0
  /-- The import table of canapi2.c (a file-scope static). -/
  dll : Dll := {}
deriving DecidableEq, Repr, Inhabited

/-- Ways an embedded function can fail to return a value. -/
inductive Fault where
  | assert_failed
  | out_of_fuel
deriving DecidableEq, Repr

/-! ## Calls to the outside -/

def call_CAN_SetHwParam (e : Env) (s : State) (hw param value : Nat) : Nat × State :=
  (e.CAN_SetHwParam s.nSetHwParam,
   { s with nSetHwParam := s.nSetHwParam + 1,
            trace := s.trace ++ [Event.CAN_SetHwParam hw param value] })

def call_CAN_ResetHardware (e : Env) (s : State) (hw : Nat) : Nat × State :=
  (e.CAN_ResetHardware s.nResetHardware,
   { s with nResetHardware := s.nResetHardware + 1,
            trace := s.trace ++ [Event.CAN_ResetHardware hw] })

def call_Sleep (s : State) (ms : Nat) : State :=
  { s with trace := s.trace ++ [Event.Sleep ms] }

def call_CAN_Read (e : Env) (s : State) (client : Nat) : Nat × TCANMsg × State :=
  ((e.CAN_Read s.nRead).1, (e.CAN_Read s.nRead).2,
   { s with nRead := s.nRead + 1, trace := s.trace ++ [Event.CAN_Read client] })

def call_CAN_Write (e : Env) (s : State) (client net : Nat) (msg : TCANMsg) : Nat × State :=
  (e.CAN_Write s.nWrite,
   { s with nWrite := s.nWrite + 1, trace := s.trace ++ [Event.CAN_Write client net msg] })

def call_CAN_Status (e : Env) (s : State) (hw : Nat) : Nat × State :=
  (e.CAN_Status s.nStatus,
   { s with nStatus := s.nStatus + 1, trace := s.trace ++ [Event.CAN_Status hw] })

def call_CAN_GetClientParam (e : Env) (s : State) (client param : Nat) : Nat × Nat × State :=
  ((e.CAN_GetClientParam s.nGetClientParam).1, (e.CAN_GetClientParam s.nGetClientParam).2,
   { s with nGetClientParam := s.nGetClientParam + 1,
            trace := s.trace ++ [Event.CAN_GetClientParam client param] })

def call_seat_stdout (e : Env) (s : State) (data : List Nat) (len : Nat) : Nat × State :=
  (e.seat_stdout s.nStdout,
   { s with nStdout := s.nStdout + 1, trace := s.trace ++ [Event.seat_stdout data len] })

def call_logeventf (s : State) (fmt : String) (args : List Nat) : State :=
  { s with trace := s.trace ++ [Event.logeventf fmt args] }

/-- The C library `memcpy(dst, src, n)` on arrays as lists: the first `n`
bytes of `dst` are replaced by the first `n` bytes of `src`. -/
def memcpy (dst src : List Nat) (n : Nat) : List Nat :=
  src.take n ++ dst.drop n

/-! ## pcan.c -/

/-- pcan.c 35-51: clear the CAN bus-off condition. -/
def pcan_clear_busoff (e : Env) (s : State) : State :=
  let r := call_CAN_SetHwParam e s s.pcan.hw CAN_PARAM_BUSON 1
  let err := r.1
  let s := r.2
  let s := if err ≠ CAN_ERR_OK then (call_CAN_ResetHardware e s s.pcan.hw).2 else s
  call_Sleep s 100

/-- pcan.c 448-451: the frame `pcan_send_msg` fills in before the write.
`uninit` is the stack content of `msg.DATA` before the `memcpy`. `~0x80000000u`
is `0x7FFFFFFF` in 32 bits; `LEN` is a `BYTE`. -/
def pcan_send_msg_frame (txid : Nat) (buf : List Nat) (len : Nat) (uninit : List Nat) : TCANMsg :=
  { MSGTYPE := if txid &&& 0x80000000 ≠ 0 then MSGTYPE_EXTENDED else MSGTYPE_STANDARD
    ID := txid &&& 0x7FFFFFFF
    LEN := len % 256
    DATA := memcpy uninit buf len }

/-- pcan.c 440-456: send one CAN message of up to 8 bytes; `0` on success, `-1` otherwise. -/
def pcan_send_msg (e : Env) (s : State) (buf : List Nat) (len : Nat) : Except Fault (Int × State) :=
  if len ≤ 8 then
    let msg := pcan_send_msg_frame s.pcan.txid buf len (e.uninit_DATA s.nWrite)
    let r := call_CAN_Write e s s.pcan.client s.pcan.net msg
    Except.ok (if r.1 = CAN_ERR_OK then 0 else -1, r.2)
  else
    Except.error Fault.assert_failed

/-- The result of the `while (rest > 0u)` loop of `pcan_send`: the locals and the state. -/
structure SendLoop where
  err : Int
  sent : Nat
  rest : Nat
  state : State
deriving DecidableEq, Repr

/-- pcan.c 469-477: the loop of `pcan_send`; each turn takes one unit of fuel. -/
def pcan_send_loop (e : Env) (buf : List Nat) :
    Nat → State → Int → Nat → Nat → Except Fault SendLoop
  | 0, s, err, sent, rest =>
    if rest > 0 then Except.error Fault.out_of_fuel else Except.ok ⟨err, sent, rest, s⟩
  | fuel + 1, s, err, sent, rest =>
    if rest > 0 then
      let now := if rest > 8 then 8 else rest
      match pcan_send_msg e s (buf.drop sent) now with
      | Except.error f => Except.error f
      | Except.ok (err1, s1) =>
        if err1 ≠ 0 then Except.ok ⟨err1, sent, rest, s1⟩
        else pcan_send_loop e buf fuel s1 err1 (sent + now) (rest - now)
    else Except.ok ⟨err, sent, rest, s⟩

def fmt_tx_overflow : String := "Uuups, transmit buffer overflow (only sent %u from %u bytes)"

/-- pcan.c 461-485: send data down the connection.  `len` is the length of `buf`;
the loop gets `len` units of fuel, one per byte. -/
def pcan_send (e : Env) (s : State) (buf : List Nat) : Except Fault State :=
  let len := buf.length
  match pcan_send_loop e buf len s e.uninit_err 0 len with
  | Except.error f => Except.error f
  | Except.ok r =>
    if r.err ≠ 0 then Except.ok (call_logeventf r.state fmt_tx_overflow [r.sent, len])
    else Except.ok r.state

/-- The frames of the `CAN_Write` calls in a trace, in order. -/
def written : List Event → List TCANMsg
  | [] => []
  | Event.CAN_Write _ _ m :: t => m :: written t
  | _ :: t => written t

/-- Test environment: every call succeeds, queues are empty. -/
def env0 : Env :=
  { CAN_SetHwParam := fun _ => 0
    CAN_ResetHardware := fun _ => 0
    CAN_Read := fun _ => (CAN_ERR_QRCVEMPTY, ⟨0, 0, 0, [0, 0, 0, 0, 0, 0, 0, 0]⟩)
    CAN_Write := fun _ => 0
    CAN_Status := fun _ => 0
    CAN_GetClientParam := fun _ => (0, 0)
    seat_stdout := fun _ => 0
    LoadLibraryA := fun _ => 0x10000
    GetProcAddress := fun k => 0x11000 + 16 * k
    GetModuleFileNameA := fun _ =>
      ['C', ':', Char.ofNat 92, 'b', 'i', 'n', Char.ofNat 92, 'p', 'u', 't', 't', 'y', '.', 'e', 'x', 'e']
    CAN_RegisterClient := fun _ => (0, 1)
    netnames := fun i => if i = 7 then (0, ['C', 'A', 'N', '1']) else (0x1800, [])
    CAN_ConnectToNet := fun _ => (0, 7)
    CAN_GetNetParam_NETHW := fun _ => (0, 2)
    CAN_SetClientParam := fun _ => 0
    CAN_RegisterMsg := fun _ => 0
    CreateEvent := fun _ => 0x200
    CreateThread := fun _ => 0x300
    WaitForSingleObject := fun _ => 0
    CloseHandle := fun _ => 1
    CAN_DisconnectFromNet := fun _ => 0
    CAN_RemoveClient := fun _ => 0
    rxthread_running := fun _ => false
    uninit_DATA := fun _ => [0xCC, 0xCC, 0xCC, 0xCC, 0xCC, 0xCC, 0xCC, 0xCC]
    uninit_err := 0 }

def pcan0 : PCAN :=
  { client := 1, net := 7, hw := 2, netname := "CAN1".toList, bitrate := 0,
    rxid := 0x123, txid := 0x80000456, rxthread := 1, rxevent := 1,
    rxthread_running := true, xmtqueue_size := 32 }

def state0 : State :=
  { pcan := pcan0, nSetHwParam := 0, nResetHardware := 0, nRead := 0, nWrite := 0,
    nStatus := 0, nGetClientParam := 0, nStdout := 0, trace := [] }


/-! ### Receive path -/

def fmt_busoff : String := "CAN bus-off, trying to restart..."

def fmt_rejected : String := "Uuups, frontend rejected received data (len=%u, rest=%u)."

/-- pcan.c 71: `msg->ID | ((msg->MSGTYPE == MSGTYPE_EXTENDED) ? 0x80000000u : 0u)`.
Both operands are below `2 ^ 32` for a `DWORD ID`, so nothing wraps. -/
def effective_id (msg : TCANMsg) : Nat :=
  msg.ID ||| (if msg.MSGTYPE = MSGTYPE_EXTENDED then 0x80000000 else 0)

/-- pcan.c 81: `*((DWORD *)&msg->DATA[0])`, the first four payload bytes read
as one little-endian 32-bit word (x86). -/
def status_of_DATA (d : List Nat) : Nat :=
  d.getD 0 0 + 256 * d.getD 1 0 + 65536 * d.getD 2 0 + 16777216 * d.getD 3 0

/-- pcan.c 57-100: read CAN messages until one is for us (`true`) or the read
fails (`false`).  Returns `gotmsg`, the content of `*msg` and the state; each
turn of the `while (!abort)` loop takes one unit of fuel. -/
def pcan_read_message (e : Env) : Nat → State → TCANMsg → Except Fault (Bool × TCANMsg × State)
  | 0, _, _ => Except.error Fault.out_of_fuel
  | fuel + 1, s, _ =>
    let r := call_CAN_Read e s s.pcan.client
    let cerr := r.1
    let msg := r.2.1
    let s := r.2.2
    if cerr = CAN_ERR_OK then
      if msg.MSGTYPE = MSGTYPE_STANDARD ∨ msg.MSGTYPE = MSGTYPE_EXTENDED then
        if effective_id msg = s.pcan.rxid then Except.ok (true, msg, s)
        else pcan_read_message e fuel s msg
      else if msg.MSGTYPE = MSGTYPE_STATUS then
        let status := status_of_DATA msg.DATA
        if status &&& CAN_ERR_BUSOFF ≠ 0 then
          pcan_read_message e fuel (pcan_clear_busoff e (call_logeventf s fmt_busoff [])) msg
        else pcan_read_message e fuel s msg
      else pcan_read_message e fuel s msg
    else if cerr = CAN_ERR_QRCVEMPTY then Except.ok (false, msg, s)
    else Except.ok (false, msg, s)

/-- pcan.c 112-118: the loop of `pcan_rxevent_callback`.  The first argument
is the fuel handed to every `pcan_read_message`, the second the fuel of this
loop. -/
def pcan_rxevent_loop (e : Env) (fuel : Nat) : Nat → State → TCANMsg → Except Fault State
  | 0, _, _ => Except.error Fault.out_of_fuel
  | n + 1, s, msg =>
    match pcan_read_message e fuel s msg with
    | Except.error f => Except.error f
    | Except.ok (false, _, s1) => Except.ok s1
    | Except.ok (true, msg1, s1) =>
      let r := call_seat_stdout e s1 msg1.DATA msg1.LEN
      let rest := r.1
      let s2 := if rest > 0 then call_logeventf r.2 fmt_rejected [msg1.LEN, rest] else r.2
      pcan_rxevent_loop e fuel n s2 msg1

/-- pcan.c 106-119: read all available CAN messages and forward the data to
the frontend.  `msg` is the uninitialised local. -/
def pcan_rxevent_callback (e : Env) (fuel : Nat) (s : State) (msg : TCANMsg) : Except Fault State :=
  pcan_rxevent_loop e fuel fuel s msg

/-- The `seat_stdout` calls in a trace, in order: buffer and length. -/
def stdout_calls : List Event → List (List Nat × Nat)
  | [] => []
  | Event.seat_stdout d n :: t => (d, n) :: stdout_calls t
  | _ :: t => stdout_calls t

/-- The bytes handed to the upstream consumer by the `seat_stdout` calls of a
trace: the first `len` bytes of each buffer (`len` stays inside the 8-byte
`DATA` for well-formed frames). -/
def upstream : List Event → List Nat
  | [] => []
  | Event.seat_stdout d n :: t => d.take n ++ upstream t
  | _ :: t => upstream t

/-- The driver receive queue, seen from the `n`-th `CAN_Read` on, holds the
frames `q` and is empty after them. -/
def QueueAt (e : Env) : Nat → List TCANMsg → Prop
  | n, [] => (e.CAN_Read n).1 = CAN_ERR_QRCVEMPTY
  | n, f :: q => e.CAN_Read n = (CAN_ERR_OK, f) ∧ QueueAt e (n + 1) q

/-- Spec side of the receive filter: a data frame (standard or extended kind)
whose identifier, with `0x80000000` or-ed in for the extended kind, is `rxid`. -/
def accepted (rxid : Nat) (f : TCANMsg) : Bool :=
  (f.MSGTYPE = MSGTYPE_STANDARD ∧ f.ID = rxid) ∨
  (f.MSGTYPE = MSGTYPE_EXTENDED ∧ f.ID ||| 0x80000000 = rxid)

/-! ### Send readiness -/

/-- pcan.c 490-517: query the current sendability status.  `DWORD` arithmetic
is modulo `2 ^ 32`. -/
def pcan_sendbuffer (e : Env) (s : State) : Nat × State :=
  let r := call_CAN_Status e s s.pcan.hw
  let err := if r.1 = CAN_ERR_ILLHW then CAN_ERR_OK else r.1
  let s := r.2
  if err &&& CAN_ERR_BUSOFF ≠ 0 then
    (0, pcan_clear_busoff e (call_logeventf s fmt_busoff []))
  else if err ≠ CAN_ERR_OK then
    (0, s)
  else
    let g := call_CAN_GetClientParam e s s.pcan.client CAN_PARAM_XMTQUEUEFILL
    let xmtqueue_fill := g.2.1 % 2 ^ 32
    (((s.pcan.xmtqueue_size + 2 ^ 32 - xmtqueue_fill) % 2 ^ 32 * 8) % 2 ^ 32, g.2.2)

/-- Spec side of the headroom formula: `(C - F) * 8` in 32-bit unsigned arithmetic. -/
def headroom32 (C F : Nat) : Int :=
  (((C : Int) - (F : Int)) * 8) % 2 ^ 32

/-- Number of fast bus-on attempts in a trace; `pcan_clear_busoff` is the only
function that makes one, once per invocation. -/
def recoveries : List Event → Nat
  | [] => 0
  | Event.CAN_SetHwParam _ p _ :: t => (if p = CAN_PARAM_BUSON then 1 else 0) + recoveries t
  | _ :: t => recoveries t


/-! ### Configuration -/

/-- The part of the PuTTY configuration the back end reads: `CONF_pcan` and
`CONF_pcanbitrate`. -/
structure Conf where
  pcan : List Char
  pcanbitrate : Int
deriving DecidableEq, Repr

/-- The delimiter set `" ,;:"` of the `strtok` calls in `pcan_get_config`. -/
def delims : List Char := [' ', ',', ';', ':']

/-- C library `strtok` (ISO C 7.24.5.8) on a string without its terminating
NUL: skip leading delimiters; if nothing is left there is no token; else the
token runs to the next delimiter or the end.  The second component is the
saved pointer for the next call (just after the delimiter that ended the token). -/
def strtok (delim : List Char) (s : List Char) : Option (List Char) × List Char :=
  match s.dropWhile (fun c => delim.contains c) with
  | [] => (none, [])
  | c :: t =>
    (some ((c :: t).takeWhile (fun c => !delim.contains c)),
     ((c :: t).dropWhile (fun c => !delim.contains c)).drop 1)

/-- C library `isspace` in the "C" locale: space, `\t`, `\n`, `\v`, `\f`, `\r`. -/
def isspace (c : Char) : Bool :=
  c.toNat = 32 ∨ (9 ≤ c.toNat ∧ c.toNat ≤ 13)

/-- Value of a character as a digit in bases up to 36, as `strtoul` reads it. -/
def digitVal (c : Char) : Option Nat :=
  if 48 ≤ c.toNat ∧ c.toNat ≤ 57 then some (c.toNat - 48)
  else if 97 ≤ c.toNat ∧ c.toNat ≤ 122 then some (c.toNat - 87)
  else if 65 ≤ c.toNat ∧ c.toNat ≤ 90 then some (c.toNat - 55)
  else none

/-- `ULONG_MAX` of the Windows ABI: `unsigned long` has 32 bits. -/
def ULONG_MAX : Nat := 2 ^ 32 - 1

/-- The digit loop of `strtoul`: the exact value of the longest run of digits
valid in `base`, starting from the accumulator `acc`. -/
def strtoul_digits (base : Nat) : List Char → Nat → Nat
  | [], acc => acc
  | c :: t, acc =>
    match digitVal c with
    | some d => if d < base then strtoul_digits base t (acc * base + d) else acc
    | none => acc

/-- The subject sequence of `strtoul` with base 0, after white space and sign:
`0x` or `0X` before a hexadecimal digit selects base 16, another leading `0`
base 8, anything else base 10. -/
def strtoul_base0 (s : List Char) : Nat :=
  match s with
  | '0' :: x :: h :: t =>
    if (x = 'x' ∨ x = 'X') ∧ (digitVal h).any (fun d => d < 16) then
      strtoul_digits 16 (h :: t) 0
    else strtoul_digits 8 (x :: h :: t) 0
  | '0' :: t => strtoul_digits 8 t 0
  | _ => strtoul_digits 10 s 0

/-- C library `strtoul(s, NULL, 0)` (ISO C 7.22.1.4) for a 32-bit
`unsigned long`: skip white space, read an optional sign, convert; a value out
of range gives `ULONG_MAX`, a minus sign negates in the return type; no digits
give `0`. -/
def strtoul (s : List Char) : Nat :=
  let s1 := s.dropWhile isspace
  let neg := s1.head? = some '-'
  let s2 := if s1.head? = some '-' ∨ s1.head? = some '+' then s1.drop 1 else s1
  let v := strtoul_base0 s2
  if v > ULONG_MAX then ULONG_MAX
  else if neg then (2 ^ 32 - v) % 2 ^ 32 else v

/-- pcan.c 147-168: split the configuration string into netname, rxid, txid.
Returns the result code and the session struct.  `(DWORD32)` keeps the low 32 bits. -/
def pcan_get_config (pcan : PCAN) (conf : Conf) : Int × PCAN :=
  let scfg := conf.pcan
  let r1 := strtok delims scfg
  let r2 := strtok delims r1.2
  let r3 := strtok delims r2.2
  match r1.1, r2.1, r3.1 with
  | some snet, some srxid, some stxid =>
    (0, { pcan with netname := snet
                    rxid := strtoul srxid % 2 ^ 32
                    txid := strtoul stxid % 2 ^ 32
                    bitrate := conf.pcanbitrate })
  | _, _, _ => (-1, pcan)

/-- Spec side: the tokens of a string, split on any of the given separators. -/
def tokens (delim : List Char) (s : List Char) : List (List Char) :=
  (s.splitOnP (fun c => delim.contains c)).filter (fun t => t ≠ [])

/-- Spec side: `s2` is `s1` with some separators replaced by other separators. -/
def SepEquiv (delim : List Char) (s1 s2 : List Char) : Prop :=
  List.Forall₂ (fun a b => a = b ∨ (a ∈ delim ∧ b ∈ delim)) s1 s2

/-- Spec side: the value of a string of digits in positional notation. -/
def positional (base : Nat) (ds : List Char) : Nat :=
  Nat.ofDigits base (ds.reverse.map (fun c => (digitVal c).getD 0))

/-- Spec side: a decimal C integer literal (no leading zero, or just `0`). -/
def IsDecimalLiteral (t : List Char) : Prop :=
  t ≠ [] ∧ (∀ c ∈ t, 48 ≤ c.toNat ∧ c.toNat ≤ 57) ∧ (t.head? ≠ some '0' ∨ t = ['0'])

/-- Spec side: the characters `0`-`9`, `a`-`f`, `A`-`F`. -/
def IsHexDigit (c : Char) : Prop :=
  (48 ≤ c.toNat ∧ c.toNat ≤ 57) ∨ (97 ≤ c.toNat ∧ c.toNat ≤ 102) ∨ (65 ≤ c.toNat ∧ c.toNat ≤ 70)

instance (c : Char) : Decidable (IsHexDigit c) := by
  unfold IsHexDigit; infer_instance

/-! ### Network scan -/

/-- C library `strcmp` on strings without their NUL: negative, zero or positive. -/
def strcmp : List Char → List Char → Int
  | [], [] => 0
  | [], _ :: _ => -1
  | _ :: _, [] => 1
  | a :: s, b :: t => if a = b then strcmp s t else if a.toNat < b.toNat then -1 else 1

/-- The answer of `CAN_GetNetParam(net, CAN_PARAM_NAME, buf, sizeof(buf))` for
each net handle: result code and the string left in `buf`.  One scan asks each
handle once, so answers by handle are as general as answers by call. -/
abbrev NetNames := Nat → Nat × List Char

def call_CAN_GetNetParam_NAME (names : NetNames) (s : State) (net : Nat) : Nat × List Char × State :=
  ((names net).1, (names net).2,
   { s with trace := s.trace ++ [Event.CAN_GetNetParam net CAN_PARAM_NAME] })

/-- pcan.c 206-215: the loop of `pcan_find_net`; the first argument counts the
turns left of `for (i = 1; i <= MAX_HCANNET; i++)`, the second is `i`. -/
def pcan_find_net_loop (names : NetNames) (netname : List Char) : Nat → Nat → State → Bool × State
  | 0, _, s => (false, s)
  | n + 1, i, s =>
    let r := call_CAN_GetNetParam_NAME names s i
    if r.1 = CAN_ERR_OK then
      if strcmp r.2.1 netname = 0 then (true, r.2.2)
      else pcan_find_net_loop names netname n (i + 1) r.2.2
    else pcan_find_net_loop names netname n (i + 1) r.2.2

/-- pcan.c 201-218: is there a net with this name among the handles 1..MAX_HCANNET? -/
def pcan_find_net (names : NetNames) (s : State) (netname : List Char) : Bool × State :=
  pcan_find_net_loop names netname MAX_HCANNET 1 s

/-- The bytes a receiver gets from a list of frames: the first `LEN` payload
bytes of each, in order. -/
def reassemble : List TCANMsg → List Nat
  | [] => []
  | f :: t => f.DATA.take f.LEN ++ reassemble t

/-- Number of transmit-queue fill queries in a trace. -/
def fill_queries : List Event → Nat
  | [] => 0
  | Event.CAN_GetClientParam _ p :: t =>
    (if p = CAN_PARAM_XMTQUEUEFILL then 1 else 0) + fill_queries t
  | _ :: t => fill_queries t

/-- Test environment: the hardware reports bus-off, the fast bus-on is not available. -/
def env_busoff : Env :=
  { env0 with CAN_Status := fun _ => CAN_ERR_BUSOFF ||| 0x0008
              CAN_SetHwParam := fun _ => CAN_ERR_ILLPARAMVAL
              CAN_GetClientParam := fun _ => (0, 5) }

/-- Test environment: status OK, five frames waiting in the transmit queue. -/
def env_fill : Env :=
  { env0 with CAN_GetClientParam := fun _ => (0, 5) }

/-- Test environment of a virtual net: the status query reports an illegal hardware handle. -/
def env_vcan : Env :=
  { env0 with CAN_Status := fun _ => CAN_ERR_ILLHW
              CAN_GetClientParam := fun _ => (0, 5) }

/-- Test queue: a matching standard frame, an extended frame with the same
numeric identifier, a bus-off status frame, a remote request, a second matching frame. -/
def queue1 : List TCANMsg :=
  [⟨0x123, MSGTYPE_STANDARD, 3, [1, 2, 3, 0, 0, 0, 0, 0]⟩,
   ⟨0x123, MSGTYPE_EXTENDED, 2, [9, 9, 0, 0, 0, 0, 0, 0]⟩,
   ⟨0, MSGTYPE_STATUS, 4, [0x10, 0, 0, 0, 0, 0, 0, 0]⟩,
   ⟨0x123, MSGTYPE_RTR, 0, [0, 0, 0, 0, 0, 0, 0, 0]⟩,
   ⟨0x123, MSGTYPE_STANDARD, 1, [4, 0, 0, 0, 0, 0, 0, 0]⟩]

/-- Test environment whose receive queue holds `queue1`. -/
def env1 : Env :=
  { env0 with
    CAN_Read := fun k =>
      match queue1.get? k with
      | some f => (CAN_ERR_OK, f)
      | none => (CAN_ERR_QRCVEMPTY, default) }

/-- Spec side: `t` is a C integer literal, decimal or hexadecimal with a `0x`
(or `0X`) prefix, and `v` is its value. -/
def IsIntLiteral (t : List Char) (v : Nat) : Prop :=
  (IsDecimalLiteral t ∧ v = positional 10 t) ∨
  (∃ x ds, t = '0' :: x :: ds ∧ (x = 'x' ∨ x = 'X') ∧ ds ≠ [] ∧ (∀ c ∈ ds, IsHexDigit c) ∧
    v = positional 16 ds)

/-- Test configuration: the three fields with mixed separators, an extended txid. -/
def conf1 : Conf :=
  { pcan := ['C', 'A', 'N', '1', ';', ' ', '2', '9', '1', ',', '0', 'x', '8', '0', '0', '0',
             '0', '4', '5', '6'],
    pcanbitrate := 500 }

/-! ### canapi2.c: loading the driver library -/

def call_LoadLibraryA (e : Env) (s : State) (name : String) : Nat × State :=
  (e.LoadLibraryA s.nLoadLibraryA,
   { s with nLoadLibraryA := s.nLoadLibraryA + 1, trace := s.trace ++ [Event.LoadLibraryA name] })

def call_GetProcAddress (e : Env) (s : State) (handle : Nat) (name : String) : Nat × State :=
  (e.GetProcAddress s.nGetProcAddress,
   { s with nGetProcAddress := s.nGetProcAddress + 1,
            trace := s.trace ++ [Event.GetProcAddress handle name] })

def call_FreeLibrary (s : State) (handle : Nat) : State :=
  { s with trace := s.trace ++ [Event.FreeLibrary handle] }

/-- One line of canapi2.c 70-88: `dll.PEAK_x = GetProcAddress(dll.handle, name)`;
`set` stores the pointer in its field of the table. -/
def import_symbol (e : Env) (s : State) (name : String) (set : Dll → Nat → Dll) : State :=
  let r := call_GetProcAddress e s s.dll.handle name
  { r.2 with dll := set r.2.dll r.1 }

/-- canapi2.c 59-104: load the canapi2 dll and import the API functions;
`0` on success (or if already loaded), `-1` otherwise. -/
def canapi2_init (e : Env) (s : State) : Int × State :=
  if s.dll.handle ≠ 0 then (0, s)
  else
    let r := call_LoadLibraryA e s "canapi2.dll"
    let s := { r.2 with dll := { r.2.dll with handle := r.1 } }
    if s.dll.handle = 0 then (-1, s)
    else
      let s := import_symbol e s "CAN_RegisterClient" (fun d p => { d with PEAK_RegisterClient := p })
      let s := import_symbol e s "CAN_ConnectToNet" (fun d p => { d with PEAK_ConnectToNet := p })
      let s := import_symbol e s "CAN_DisconnectFromNet"
        (fun d p => { d with PEAK_DisconnectFromNet := p })
      let s := import_symbol e s "CAN_GetNetParam" (fun d p => { d with PEAK_GetNetParam := p })
      let s := import_symbol e s "CAN_ResetHardware" (fun d p => { d with PEAK_ResetHardware := p })
      let s := import_symbol e s "CAN_RegisterMsg" (fun d p => { d with PEAK_RegisterMsg := p })
      let s := import_symbol e s "CAN_RegisterNet" (fun d p => { d with PEAK_RegisterNet := p })
      let s := import_symbol e s "CAN_GetClientParam" (fun d p => { d with PEAK_GetClientParam := p })
      let s := import_symbol e s "CAN_SetClientParam" (fun d p => { d with PEAK_SetClientParam := p })
      let s := import_symbol e s "CAN_SetHwParam" (fun d p => { d with PEAK_SetHwParam := p })
      let s := import_symbol e s "CAN_RemoveClient" (fun d p => { d with PEAK_RemoveClient := p })
      let s := import_symbol e s "CAN_Read" (fun d p => { d with PEAK_Read := p })
      let s := import_symbol e s "CAN_Write" (fun d p => { d with PEAK_Write := p })
      let s := import_symbol e s "CAN_GetSystemTime" (fun d p => { d with PEAK_GetSystemTime := p })
      let s := import_symbol e s "CAN_Status" (fun d p => { d with PEAK_Status := p })
      let s := import_symbol e s "CAN_GetErrText" (fun d p => { d with PEAK_GetErrText := p })
      let s := import_symbol e s "CAN_GetHwParam" (fun d p => { d with PEAK_GetHwParam := p })
      let s := import_symbol e s "CAN_GetDeviceName" (fun d p => { d with PEAK_GetDeviceName := p })
      let s := import_symbol e s "CAN_SetDeviceName" (fun d p => { d with PEAK_SetDeviceName := p })
      if s.dll.PEAK_RegisterClient = 0 ∨ s.dll.PEAK_ConnectToNet = 0 ∨ s.dll.PEAK_GetNetParam = 0 ∨
          s.dll.PEAK_ResetHardware = 0 ∨ s.dll.PEAK_RegisterMsg = 0 ∨ s.dll.PEAK_RegisterNet = 0 ∨
          s.dll.PEAK_GetNetParam = 0 ∨ s.dll.PEAK_GetClientParam = 0 ∨
          s.dll.PEAK_SetClientParam = 0 ∨
          s.dll.PEAK_SetHwParam = 0 ∨ s.dll.PEAK_RemoveClient = 0 ∨ s.dll.PEAK_Read = 0 ∨
          s.dll.PEAK_Write = 0 ∨ s.dll.PEAK_GetSystemTime = 0 ∨ s.dll.PEAK_Status = 0 ∨
          s.dll.PEAK_GetErrText = 0 ∨ s.dll.PEAK_GetDeviceName = 0 ∨ s.dll.PEAK_GetHwParam = 0 ∨
          s.dll.PEAK_DisconnectFromNet = 0 then
        let s := call_FreeLibrary s s.dll.handle
        (-1, { s with dll := { s.dll with handle := 0 } })
      else (0, s)

/-! ### pcan.c: setup and teardown -/

def call_seat_set_trust_status (s : State) (trusted : Bool) : State :=
  { s with trace := s.trace ++ [Event.seat_set_trust_status trusted] }

def call_seat_update_specials_menu (s : State) : State :=
  { s with trace := s.trace ++ [Event.seat_update_specials_menu] }

def call_logeventf_s (s : State) (fmt : String) (arg : List Char) : State :=
  { s with trace := s.trace ++ [Event.logeventf_s fmt arg] }

def call_GetModuleFileNameA (e : Env) (s : State) : List Char × State :=
  (e.GetModuleFileNameA s.nGetModuleFileNameA,
   { s with nGetModuleFileNameA := s.nGetModuleFileNameA + 1,
            trace := s.trace ++ [Event.GetModuleFileNameA] })

def call_CAN_RegisterClient (e : Env) (s : State) (name : List Char) (hWnd : Nat) :
    Nat × Nat × State :=
  ((e.CAN_RegisterClient s.nRegisterClient).1, (e.CAN_RegisterClient s.nRegisterClient).2,
   { s with nRegisterClient := s.nRegisterClient + 1,
            trace := s.trace ++ [Event.CAN_RegisterClient name hWnd] })

def call_CAN_ConnectToNet (e : Env) (s : State) (client : Nat) (name : List Char) :
    Nat × Nat × State :=
  ((e.CAN_ConnectToNet s.nConnectToNet).1, (e.CAN_ConnectToNet s.nConnectToNet).2,
   { s with nConnectToNet := s.nConnectToNet + 1,
            trace := s.trace ++ [Event.CAN_ConnectToNet client name] })

def call_CAN_GetNetParam_NETHW (e : Env) (s : State) (net : Nat) : Nat × Nat × State :=
  ((e.CAN_GetNetParam_NETHW s.nGetNetParam_NETHW).1, (e.CAN_GetNetParam_NETHW s.nGetNetParam_NETHW).2,
   { s with nGetNetParam_NETHW := s.nGetNetParam_NETHW + 1,
            trace := s.trace ++ [Event.CAN_GetNetParam net CAN_PARAM_NETHW] })

def call_CAN_SetClientParam (e : Env) (s : State) (client param value : Nat) : Nat × State :=
  (e.CAN_SetClientParam s.nSetClientParam,
   { s with nSetClientParam := s.nSetClientParam + 1,
            trace := s.trace ++ [Event.CAN_SetClientParam client param value] })

def call_CAN_RegisterMsg (e : Env) (s : State) (client net : Nat) (msg1 msg2 : TCANMsg) :
    Nat × State :=
  (e.CAN_RegisterMsg s.nRegisterMsg,
   { s with nRegisterMsg := s.nRegisterMsg + 1,
            trace := s.trace ++ [Event.CAN_RegisterMsg client net msg1 msg2] })

def call_CreateEvent (e : Env) (s : State) : Nat × State :=
  (e.CreateEvent s.nCreateEvent,
   { s with nCreateEvent := s.nCreateEvent + 1, trace := s.trace ++ [Event.CreateEvent] })

def call_add_handle_wait (s : State) (handle : Nat) : State :=
  { s with trace := s.trace ++ [Event.add_handle_wait handle] }

def call_CreateThread (e : Env) (s : State) : Nat × State :=
  (e.CreateThread s.nCreateThread,
   { s with nCreateThread := s.nCreateThread + 1, trace := s.trace ++ [Event.CreateThread] })

def call_WaitForSingleObject (e : Env) (s : State) (handle ms : Nat) : Nat × State :=
  (e.WaitForSingleObject s.nWaitForSingleObject,
   { s with nWaitForSingleObject := s.nWaitForSingleObject + 1,
            trace := s.trace ++ [Event.WaitForSingleObject handle ms] })

def call_CloseHandle (e : Env) (s : State) (handle : Nat) : Nat × State :=
  (e.CloseHandle s.nCloseHandle,
   { s with nCloseHandle := s.nCloseHandle + 1, trace := s.trace ++ [Event.CloseHandle handle] })

def call_CAN_DisconnectFromNet (e : Env) (s : State) (client net : Nat) : Nat × State :=
  (e.CAN_DisconnectFromNet s.nDisconnectFromNet,
   { s with nDisconnectFromNet := s.nDisconnectFromNet + 1,
            trace := s.trace ++ [Event.CAN_DisconnectFromNet client net] })

def call_CAN_RemoveClient (e : Env) (s : State) (client : Nat) : Nat × State :=
  (e.CAN_RemoveClient s.nRemoveClient,
   { s with nRemoveClient := s.nRemoveClient + 1,
            trace := s.trace ++ [Event.CAN_RemoveClient client] })

/-- A store to `pcan->rxthread_running`, the flag shared with the poller
thread; the store is recorded in the trace because the other thread observes it. -/
def store_rxthread_running (s : State) (value : Bool) : State :=
  { s with pcan := { s.pcan with rxthread_running := value },
           trace := s.trace ++ [Event.store_rxthread_running value] }

/-- The loops `for (int i = len; i >= lo; i--) if (name[i] == c) ..; break`
of `pcan_get_application_name`: the largest index `i` with `lo ≤ i < n` and
`name[i] = c` (the terminating NUL sits at index `len`). -/
def rscan (name : List Char) (c : Char) (lo : Nat) : Nat → Option Nat
  | 0 => none
  | i + 1 =>
    if i < lo then none
    else if name.getD i (Char.ofNat 0) = c then some i
    else rscan name c lo i

/-- pcan.c 170-199: the file name of the executable without directory and extension. -/
def pcan_get_application_name (e : Env) (s : State) : List Char × State :=
  let r := call_GetModuleFileNameA e s
  let name := r.1
  let len := name.length
  let pos := match rscan name (Char.ofNat 92) 0 (len + 1) with
    | some i => i + 1
    | none => 0
  let name := match rscan name '.' pos (len + 1) with
    | some i => name.take i
    | none => name
  (name.drop pos, r.2)

def PEAK2_CAN_BAUD_40 : Nat := 0x492F
def PEAK2_CAN_BAUD_200 : Nat := 0x815C
def PEAK2_CAN_BAUD_400 : Nat := 0x804D
def PEAK2_CAN_BAUD_800 : Nat := 0x0016

/-- The table `bitrates` of pcan.c 222-245: rate in kbit/s and bit-timing register. -/
def bitrates : List (Int × Int) :=
  [(5, CAN_BAUD_5K), (10, CAN_BAUD_10K), (20, CAN_BAUD_20K), (40, PEAK2_CAN_BAUD_40),
   (50, CAN_BAUD_50K), (100, CAN_BAUD_100K), (125, CAN_BAUD_125K), (200, PEAK2_CAN_BAUD_200),
   (250, CAN_BAUD_250K), (400, PEAK2_CAN_BAUD_400), (500, CAN_BAUD_500K),
   (800, PEAK2_CAN_BAUD_800), (1000, CAN_BAUD_1M)]

/-- pcan.c 247-253: the lookup loop over the table. -/
def bitrate_lookup (bitrate : Int) : List (Int × Int) → Int
  | [] => -1
  | b :: t => if b.1 = bitrate then b.2 else bitrate_lookup bitrate t

/-- pcan.c 220-254. -/
def pcan_calc_bitrate_reg_value (bitrate : Int) : Int :=
  bitrate_lookup bitrate bitrates

def err_dll : String := "Could not open PEAK canapi2.dll (PEAK-CAN driver not installed?)"
def err_config : String := "Invalid configuration! (Use: \x27netname rxid txid\x27)"
def err_register : String := "Could not register to PEAK CAN driver"
def err_network : String := "Could not register to CAN network \x27%s\x27 (not existing?)"
def err_filter : String := "Could not set CAN RX filter"
def err_bitrate : String := "Could not set CAN bitrate (%ikbps)"
def err_thread : String := "Could not create RX thread or event"
def fmt_opening : String := "Opening CAN device %s"
def fmt_ids : String := "RX-id=0x%x, TX-id=0x%x"

/-- The struct after `memset(pcan, 0, sizeof(PCAN))`; the `NULL` name is the empty list. -/
def PCAN_zero : PCAN :=
  { client := 0, net := 0, hw := 0, netname := [], bitrate := 0, rxid := 0, txid := 0,
    rxthread := 0, rxevent := 0, rxthread_running := false, xmtqueue_size := 0 }

/-- The `return err;` of `pcan_init`: the steps after a failed one do not run. -/
def andThen (r : Option String × State) (k : State → Option String × State) :
    Option String × State :=
  match r.1 with
  | some _ => r
  | none => k r.2

/-- pcan.c 276-284: no trust status; allocate and clear the session struct. -/
def init_alloc (s : State) : State :=
  let s := call_seat_set_trust_status s false
  { s with pcan := PCAN_zero }

/-- pcan.c 286-291: load the PEAK CAN driver dll. -/
def init_load (e : Env) (s : State) : Option String × State :=
  let r := canapi2_init e s
  if r.1 ≠ 0 then (some err_dll, r.2) else (none, r.2)

/-- pcan.c 293-301: parse the configuration into the session struct, log it. -/
def init_config (conf : Conf) (s : State) : Option String × State :=
  let c := pcan_get_config s.pcan conf
  let s := { s with pcan := c.2 }
  if c.1 ≠ 0 then (some err_config, s)
  else
    let s := call_logeventf_s s fmt_opening s.pcan.netname
    let s := call_logeventf s fmt_ids [s.pcan.rxid, s.pcan.txid]
    (none, s)

/-- pcan.c 303-310: register the client at the driver. -/
def init_register (e : Env) (s : State) : Option String × State :=
  let a := pcan_get_application_name e s
  let r := call_CAN_RegisterClient e a.2 a.1 0
  let s := { r.2.2 with pcan := { r.2.2.pcan with client := r.2.1 } }
  if r.1 ≠ CAN_ERR_OK then (some err_register, s) else (none, s)

/-- pcan.c 312-320: find the net by name, connect the client to it. -/
def init_network (e : Env) (s : State) : Option String × State :=
  let f := pcan_find_net e.netnames s s.pcan.netname
  let r : Nat × State :=
    if f.1 = true then
      let c := call_CAN_ConnectToNet e f.2 f.2.pcan.client f.2.pcan.netname
      (c.1, { c.2.2 with pcan := { c.2.2.pcan with net := c.2.1 } })
    else (CAN_ERR_ILLNET, f.2)
  if r.1 ≠ CAN_ERR_OK then (some err_network, r.2) else (none, r.2)

/-- pcan.c 322-323: get the hardware handle of the net (result code ignored). -/
def init_hw (e : Env) (s : State) : Option String × State :=
  let h := call_CAN_GetNetParam_NETHW e s s.pcan.net
  (none, { h.2.2 with pcan := { h.2.2.pcan with hw := h.2.1 } })

/-- pcan.c 331-334: the frame that bounds the receive filter range on both
sides.  The constant `0x7FFFFFFFFu` has nine hexadecimal digits, so the `&` is
done in 64 bits and the result stored in the 32-bit `ID`; the fields not named
in the initialiser are zero. -/
def filter_frame (rxid : Nat) : TCANMsg :=
  { ID := (rxid &&& 0x7FFFFFFFF) % 2 ^ 32
    MSGTYPE := if rxid &&& 0x80000000 ≠ 0 then MSGTYPE_EXTENDED else MSGTYPE_STANDARD
    LEN := 0
    DATA := [0, 0, 0, 0, 0, 0, 0, 0] }

/-- pcan.c 328-340: set the RX filter. -/
def init_filter (e : Env) (s : State) : Option String × State :=
  let r := call_CAN_SetClientParam e s s.pcan.client CAN_PARAM_EXACT_11BIT_FILTER 1
  let r : Nat × State :=
    if r.1 = CAN_ERR_OK then
      call_CAN_RegisterMsg e r.2 r.2.pcan.client r.2.pcan.net
        (filter_frame r.2.pcan.rxid) (filter_frame r.2.pcan.rxid)
    else r
  if r.1 ≠ CAN_ERR_OK then (some err_filter, r.2) else (none, r.2)

/-- pcan.c 342-353: set the bitrate (leave as is if 0 is specified).  With
`bitrate <= 0` the C code does not test `cerr` at all, which is the answer
`CAN_ERR_OK` here. -/
def init_bitrate (e : Env) (s : State) : Option String × State :=
  let r : Nat × State :=
    if s.pcan.bitrate > 0 then
      let btr := pcan_calc_bitrate_reg_value s.pcan.bitrate
      if btr > 0 then call_CAN_SetHwParam e s s.pcan.hw CAN_PARAM_BAUDRATE btr.toNat
      else (CAN_ERR_ILLPARAMVAL, s)
    else (CAN_ERR_OK, s)
  if r.1 ≠ CAN_ERR_OK then (some err_bitrate, r.2) else (none, r.2)

/-- pcan.c 355-360: activate the performance timer fix, result ignored. -/
def init_timerfix (e : Env) (s : State) : Option String × State :=
  (none, (call_CAN_SetClientParam e s s.pcan.client CAN_PARAM_TIMERFIX 1).2)

/-- pcan.c 370-377: create the RX event and the RX thread. -/
def init_poller (e : Env) (s : State) : Option String × State :=
  let s := store_rxthread_running s true
  let ev := call_CreateEvent e s
  let s : State := { ev.2 with pcan := { ev.2.pcan with rxevent := ev.1 } }
  let s := call_add_handle_wait s s.pcan.rxevent
  let th := call_CreateThread e s
  let s : State := { th.2 with pcan := { th.2.pcan with rxthread := th.1 } }
  if s.pcan.rxevent = 0 ∨ s.pcan.rxthread = 0 then (some err_thread, s) else (none, s)

/-- pcan.c 379-389: cache the transmit queue size, update the menu, succeed. -/
def init_finish (e : Env) (s : State) : Option String × State :=
  let q := call_CAN_GetClientParam e s s.pcan.client CAN_PARAM_XMTQUEUESIZE
  let s := { q.2.2 with pcan := { q.2.2.pcan with xmtqueue_size := q.2.1 } }
  (none, call_seat_update_specials_menu s)

/-- pcan.c 264-390: set up the connection.  Returns the error message (`none`
for `NULL`) and the state; the session struct in the state is what
`*backend_handle` points to from line 284 on. -/
def pcan_init (e : Env) (s : State) (conf : Conf) : Option String × State :=
  andThen (init_load e (init_alloc s)) fun s =>
  andThen (init_config conf s) fun s =>
  andThen (init_register e s) fun s =>
  andThen (init_network e s) fun s =>
  andThen (init_hw e s) fun s =>
  andThen (init_filter e s) fun s =>
  andThen (init_bitrate e s) fun s =>
  andThen (init_timerfix e s) fun s =>
  andThen (init_poller e s) fun s =>
  init_finish e s

/-- pcan.c 392-403: stop the poller and release the session handles. -/
def pcan_terminate (e : Env) (s : State) : State :=
  let s := store_rxthread_running s false
  let s :=
    if s.pcan.rxthread ≠ 0 then
      let w := call_WaitForSingleObject e s s.pcan.rxthread INFINITE
      { w.2 with pcan := { w.2.pcan with rxthread := 0 } }
    else s
  let s := (call_CloseHandle e s s.pcan.rxevent).2
  let s := (call_CAN_DisconnectFromNet e s s.pcan.client s.pcan.net).2
  (call_CAN_RemoveClient e s s.pcan.client).2

/-! ### Spec side of setup: a list of steps run until the first failure -/

/-- Spec side: one step of setup, the calls it makes and, if it fails, its error message. -/
structure Step where
  calls : List Event
  failure : Option String

/-- Spec side: run the steps in order; the first step that fails ends the run
with its message, and no call of a later step is made. -/
def run_steps : List Step → List Event × Option String
  | [] => ([], none)
  | st :: rest =>
    match st.failure with
    | some m => (st.calls, some m)
    | none => (st.calls ++ (run_steps rest).1, (run_steps rest).2)

/-- Spec side: the name queries of the network scan over `n` handles from
handle `i` on: one query per handle, up to and including the first handle that
answers OK with the wanted name. -/
def scan_events (names : NetNames) (netname : List Char) : Nat → Nat → List Event
  | 0, _ => []
  | n + 1, i =>
    Event.CAN_GetNetParam i CAN_PARAM_NAME ::
      (if (names i).1 = CAN_ERR_OK ∧ (names i).2 = netname then []
       else scan_events names netname n (i + 1))

/-- Spec side: some handle in 1..MAX_HCANNET answers OK with the wanted name. -/
def net_found (names : NetNames) (netname : List Char) : Prop :=
  ∃ i, 1 ≤ i ∧ i ≤ MAX_HCANNET ∧ (names i).1 = CAN_ERR_OK ∧ (names i).2 = netname

instance (names : NetNames) (netname : List Char) : Decidable (net_found names netname) :=
  decidable_of_iff
    (∃ i, i < MAX_HCANNET + 1 ∧
      (1 ≤ i ∧ (names i).1 = CAN_ERR_OK ∧ (names i).2 = netname))
    ⟨fun ⟨i, h, h1, h2⟩ => ⟨i, h1, Nat.lt_succ_iff.1 h, h2⟩,
     fun ⟨i, h1, h, h2⟩ => ⟨i, Nat.lt_succ_iff.2 h, h1, h2⟩⟩

/-- Spec side, step "register client": `code` is the answer of the driver. -/
def step_register (name : List Char) (code : Nat) : Step :=
  { calls := [Event.GetModuleFileNameA, Event.CAN_RegisterClient name 0]
    failure := if code = CAN_ERR_OK then none else some err_register }

/-- Spec side, step "locate network". -/
def step_locate (names : NetNames) (netname : List Char) : Step :=
  { calls := scan_events names netname MAX_HCANNET 1
    failure := if net_found names netname then none else some err_network }

/-- Spec side, step "connect to network". -/
def step_connect (client : Nat) (netname : List Char) (code : Nat) : Step :=
  { calls := [Event.CAN_ConnectToNet client netname]
    failure := if code = CAN_ERR_OK then none else some err_network }

/-- Spec side, step "query the hardware handle" (cannot fail). -/
def step_hw (net : Nat) : Step :=
  { calls := [Event.CAN_GetNetParam net CAN_PARAM_NETHW]
    failure := none }

/-- Spec side, step "set exact-match filter mode". -/
def step_filter_mode (client code : Nat) : Step :=
  { calls := [Event.CAN_SetClientParam client CAN_PARAM_EXACT_11BIT_FILTER 1]
    failure := if code = CAN_ERR_OK then none else some err_filter }

/-- Spec side, step "register the receive identifier". -/
def step_filter_id (client net rxid code : Nat) : Step :=
  { calls := [Event.CAN_RegisterMsg client net (filter_frame rxid) (filter_frame rxid)]
    failure := if code = CAN_ERR_OK then none else some err_filter }

/-- Spec side, step "set bitrate": skipped for a bitrate that is not positive;
a positive bitrate without a positive table code fails without a call;
otherwise one call with the table code, which fails iff the driver says so. -/
def step_bitrate (hw : Nat) (bitrate : Int) (code : Nat) : Step :=
  { calls := if 0 < bitrate ∧ 0 < pcan_calc_bitrate_reg_value bitrate then
               [Event.CAN_SetHwParam hw CAN_PARAM_BAUDRATE
                 (pcan_calc_bitrate_reg_value bitrate).toNat]
             else []
    failure := if bitrate ≤ 0 then none
               else if pcan_calc_bitrate_reg_value bitrate ≤ 0 then some err_bitrate
               else if code = CAN_ERR_OK then none
               else some err_bitrate }

/-- Spec side, step "timer fix" (cannot fail). -/
def step_timerfix (client : Nat) : Step :=
  { calls := [Event.CAN_SetClientParam client CAN_PARAM_TIMERFIX 1]
    failure := none }

/-- Spec side, step "start poller": `rxevent` and `rxthread` are the handles
the operating system returns. -/
def step_poller (rxevent rxthread : Nat) : Step :=
  { calls := [Event.store_rxthread_running true, Event.CreateEvent,
              Event.add_handle_wait rxevent, Event.CreateThread]
    failure := if rxevent ≠ 0 ∧ rxthread ≠ 0 then none else some err_thread }

/-- Spec side, step "cache the transmit queue size" (cannot fail). -/
def step_finish (client : Nat) : Step :=
  { calls := [Event.CAN_GetClientParam client CAN_PARAM_XMTQUEUESIZE,
              Event.seat_update_specials_menu]
    failure := none }

/-- Spec side: the steps of setup after the driver library is loaded and the
configuration parsed, for a state `s` whose session struct holds the
configuration; the answers of the outside are taken from the call counts of
`s` on.  The seven steps that can fail are, in this order: register client,
locate network, connect to network, set exact-match filter mode, register the
receive identifier, set bitrate, start poller. -/
def setup_steps (e : Env) (s : State) : List Step :=
  [ step_register (pcan_get_application_name e s).1 (e.CAN_RegisterClient s.nRegisterClient).1,
    step_locate e.netnames s.pcan.netname,
    step_connect (e.CAN_RegisterClient s.nRegisterClient).2 s.pcan.netname
      (e.CAN_ConnectToNet s.nConnectToNet).1,
    step_hw (e.CAN_ConnectToNet s.nConnectToNet).2,
    step_filter_mode (e.CAN_RegisterClient s.nRegisterClient).2
      (e.CAN_SetClientParam s.nSetClientParam),
    step_filter_id (e.CAN_RegisterClient s.nRegisterClient).2
      (e.CAN_ConnectToNet s.nConnectToNet).2 s.pcan.rxid (e.CAN_RegisterMsg s.nRegisterMsg),
    step_bitrate (e.CAN_GetNetParam_NETHW s.nGetNetParam_NETHW).2 s.pcan.bitrate
      (e.CAN_SetHwParam s.nSetHwParam),
    step_timerfix (e.CAN_RegisterClient s.nRegisterClient).2,
    step_poller (e.CreateEvent s.nCreateEvent) (e.CreateThread s.nCreateThread),
    step_finish (e.CAN_RegisterClient s.nRegisterClient).2 ]

/-- The tail of `pcan_init` from the line given in the name on (pcan.c 379-389). -/
def init_from_finish (e : Env) (s : State) : Option String × State :=
  init_finish e s

/-- The tail of `pcan_init` from the poller on (pcan.c 362-389). -/
def init_from_poller (e : Env) (s : State) : Option String × State :=
  andThen (init_poller e s) (init_from_finish e)

/-- The tail of `pcan_init` from the timer fix on (pcan.c 355-389). -/
def init_from_timerfix (e : Env) (s : State) : Option String × State :=
  andThen (init_timerfix e s) (init_from_poller e)

/-- The tail of `pcan_init` from the bitrate on (pcan.c 342-389). -/
def init_from_bitrate (e : Env) (s : State) : Option String × State :=
  andThen (init_bitrate e s) (init_from_timerfix e)

/-- The tail of `pcan_init` from the RX filter on (pcan.c 328-389). -/
def init_from_filter (e : Env) (s : State) : Option String × State :=
  andThen (init_filter e s) (init_from_bitrate e)

/-- The tail of `pcan_init` from the hardware handle on (pcan.c 322-389). -/
def init_from_hw (e : Env) (s : State) : Option String × State :=
  andThen (init_hw e s) (init_from_filter e)

/-- The tail of `pcan_init` from the network on (pcan.c 312-389). -/
def init_from_network (e : Env) (s : State) : Option String × State :=
  andThen (init_network e s) (init_from_hw e)

/-- The tail of `pcan_init` after the configuration is parsed and logged
(pcan.c 303-389). -/
def init_driver (e : Env) (s : State) : Option String × State :=
  andThen (init_register e s) (init_from_network e)

/-- The state in which the driver steps of `pcan_init` start: the library is
loaded, and the configuration is parsed into the session struct and logged. -/
def init_configured (e : Env) (s : State) (conf : Conf) : State :=
  (init_config conf (init_load e (init_alloc s)).2).2

/-- Spec side: `r` is the outcome of running `steps` from the trace `tr0`:
its error is the message of the first failing step and its trace is `tr0`
followed by the calls of the steps up to and including that one. -/
def Runs (r : Option String × State) (tr0 : List Event) (steps : List Step) : Prop :=
  r.1 = (run_steps steps).2 ∧ r.2.trace = tr0 ++ (run_steps steps).1

/-- The calls of the library loader in canapi2.c. -/
def is_loader : Event → Bool
  | Event.LoadLibraryA _ => true
  | Event.GetProcAddress _ _ => true
  | Event.FreeLibrary _ => true
  | _ => false

/-- The calls that release a driver handle of the session. -/
def is_release : Event → Bool
  | Event.CAN_RemoveClient _ => true
  | Event.CAN_DisconnectFromNet _ _ => true
  | _ => false

/-- The calls that set a parameter of the hardware. -/
def is_hw_set : Event → Bool
  | Event.CAN_SetHwParam _ _ _ => true
  | _ => false

/-- The calls that connect a client to a net. -/
def is_connect : Event → Bool
  | Event.CAN_ConnectToNet _ _ => true
  | _ => false

/-- The state `t` differs from `s` only in the import table, the loader call
counts and by loader calls added to the trace. -/
def LoaderFrame (s t : State) : Prop :=
  ∃ (d : Dll) (n1 n2 : Nat) (l : List Event),
    t = { s with dll := d, nLoadLibraryA := n1, nGetProcAddress := n2, trace := s.trace ++ l } ∧
    ∀ ev ∈ l, is_loader ev = true

/-- Spec side: the steps of setup for a configuration `conf`, with the answers
of the outside taken from the call counts of `s` on. -/
def configured_steps (e : Env) (s : State) (conf : Conf) : List Step :=
  setup_steps e { s with pcan := (pcan_get_config PCAN_zero conf).2 }

/-- A configuration with an extended receive identifier. -/
def conf_ext : Conf :=
  { pcan := ['C', 'A', 'N', '1', ' ', '0', 'x', '8', '0', '0', '0', '0', '1', '2', '3', ' ',
             '0', 'x', '4', '5', '6'],
    pcanbitrate := 0 }

/-- Test environment: no net answers the name query. -/
def env_nonet : Env :=
  { env0 with netnames := fun _ => (CAN_ERR_ILLNET, []) }

/-- Test environment of a virtual net: the net has no hardware (handle 0) and
the driver rejects parameters for the hardware handle 0. -/
def env_nohw : Env :=
  { env0 with CAN_GetNetParam_NETHW := fun _ => (CAN_ERR_OK, 0)
              CAN_SetHwParam := fun _ => CAN_ERR_ILLHW }

/-- Spec side: setup gets as far as the bitrate step, i.e. the five fatal steps
before it succeed (answers taken from the call counts of `s` on). -/
def reaches_bitrate (e : Env) (s : State) (conf : Conf) : Prop :=
  (e.CAN_RegisterClient s.nRegisterClient).1 = CAN_ERR_OK ∧
  net_found e.netnames (pcan_get_config PCAN_zero conf).2.netname ∧
  (e.CAN_ConnectToNet s.nConnectToNet).1 = CAN_ERR_OK ∧
  e.CAN_SetClientParam s.nSetClientParam = CAN_ERR_OK ∧
  e.CAN_RegisterMsg s.nRegisterMsg = CAN_ERR_OK

instance (e : Env) (s : State) (conf : Conf) : Decidable (reaches_bitrate e s conf) := by
  unfold reaches_bitrate; infer_instance

/-- A configuration with a negative bitrate. -/
def conf_neg : Conf := { conf1 with pcanbitrate := -1 }

/-- A configuration with a positive bitrate that is not in the table. -/
def conf_odd : Conf := { conf1 with pcanbitrate := 300 }

/-! ### Bus-off status frames -/

/-- Spec side: the driver status bitmask of a frame, payload bytes 0..3 as a
32-bit little-endian number. -/
def status_word (f : TCANMsg) : Nat := Nat.ofDigits 256 (f.DATA.take 4)

/-- Spec side: the bus-off bit `0x10` of the status bitmask; it sits in payload
byte 0. -/
def busoff_bit (f : TCANMsg) : Bool := f.DATA.getD 0 0 &&& CAN_ERR_BUSOFF ≠ 0

/-- Spec side: a bus-off status frame, a frame of kind `MSGTYPE_STATUS` whose
status bitmask has the bus-off bit. -/
def is_busoff_status (f : TCANMsg) : Bool :=
  f.MSGTYPE = MSGTYPE_STATUS ∧ f.DATA.getD 0 0 &&& CAN_ERR_BUSOFF ≠ 0

/-- Test frame: a parameter frame whose payload has the bit `0x10` in byte 0. -/
def frame_param : TCANMsg := ⟨0, MSGTYPE_PARAMETER, 4, [0x10, 0, 0, 0, 0, 0, 0, 0]⟩

/-- Test environment whose receive queue holds `frame_param` only. -/
def env_param : Env :=
  { env0 with
    CAN_Read := fun k =>
      if k = 0 then (CAN_ERR_OK, frame_param) else (CAN_ERR_QRCVEMPTY, default) }

/-! ### pcan.c: the poller thread -/

def call_SetEvent (s : State) (handle : Nat) : State :=
  { s with trace := s.trace ++ [Event.SetEvent handle] }

/-- A load of `pcan->rxthread_running` by the poller thread; the value comes
from the outside because the main thread owns the flag. -/
def load_rxthread_running (e : Env) (s : State) : Bool × State :=
  (e.rxthread_running s.nFlagLoad,
   { s with nFlagLoad := s.nFlagLoad + 1,
            trace := s.trace ++ [Event.load_rxthread_running (e.rxthread_running s.nFlagLoad)] })

/-- The poller thread between two turns of its loop: about to test the loop
condition, returned from `pcan_rx_thread` with a value, or stopped in a failed
`assert`. -/
inductive Poller where
  | running (s : State)
  | exited (ret : Nat) (s : State)
  | aborted (s : State)
deriving DecidableEq, Repr

/-- The program state a poller is in. -/
def Poller.state : Poller → State
  | Poller.running s => s
  | Poller.exited _ s => s
  | Poller.aborted s => s

/-- pcan.c 133-142: the body of the loop of `pcan_rx_thread`.  `fill` is a
`DWORD`; a failed `assert(0)` ends the thread on the spot. -/
def pcan_rx_thread_body (e : Env) (s : State) : Poller :=
  let r := call_CAN_GetClientParam e s s.pcan.client CAN_PARAM_RCVQUEUEFILL
  let err := r.1
  let fill := r.2.1 % 2 ^ 32
  let s := r.2.2
  if err = CAN_ERR_OK then
    let s := if fill > 0 then call_SetEvent s s.pcan.rxevent else s
    Poller.running (call_Sleep s 10)
  else Poller.aborted s

/-- pcan.c 131-145: one turn of `while(pcan->rxthread_running)`: the test of the
flag, then the body or `return 0`. -/
def pcan_rx_thread_turn (e : Env) (s : State) : Poller :=
  let f := load_rxthread_running e s
  if f.1 then pcan_rx_thread_body e f.2 else Poller.exited 0 f.2

/-- pcan.c 124-145: the poller thread; each turn of the loop takes one unit of
fuel.  Returns the thread exit code and the state. -/
def pcan_rx_thread (e : Env) : Nat → State → Except Fault (Nat × State)
  | 0, _ => Except.error Fault.out_of_fuel
  | fuel + 1, s =>
    match pcan_rx_thread_turn e s with
    | Poller.running s1 => pcan_rx_thread e fuel s1
    | Poller.exited r s1 => Except.ok (r, s1)
    | Poller.aborted _ => Except.error Fault.assert_failed

/-- The poller as a step relation: a running poller takes one turn of the
loop; a poller that has exited or aborted takes no step. -/
def poller_step (e : Env) (a b : Poller) : Prop :=
  ∃ s, a = Poller.running s ∧ b = pcan_rx_thread_turn e s

/-- The receive-queue fill queries. -/
def is_rcv_query : Event → Bool
  | Event.CAN_GetClientParam _ p => decide (p = CAN_PARAM_RCVQUEUEFILL)
  | _ => false

/-- The signals of the wake event. -/
def is_signal : Event → Bool
  | Event.SetEvent _ => true
  | _ => false

/-- Test environment for the poller: the flag is seen set three times, the
second of the three fill queries reports two frames. -/
def env_poll : Env :=
  { env0 with rxthread_running := fun k => decide (k < 3)
              CAN_GetClientParam := fun k => (0, if k = 1 then 2 else 0) }

/-- Test environment for the poller: the flag is set, the fill query fails. -/
def env_poll_fail : Env :=
  { env0 with rxthread_running := fun _ => true
              CAN_GetClientParam := fun _ => (CAN_ERR_ILLPARAMVAL, 5) }

/-! ### Reads of a drain -/

/-- The driver reads from the `n`-th on return the frames `q` with `CAN_ERR_OK`
and then a code that is not `CAN_ERR_OK` (queue empty or an error). -/
def DrainAt (e : Env) : Nat → List TCANMsg → Prop
  | n, [] => (e.CAN_Read n).1 ≠ CAN_ERR_OK
  | n, f :: q => e.CAN_Read n = (CAN_ERR_OK, f) ∧ DrainAt e (n + 1) q

/-- The driver reads. -/
def is_read : Event → Bool
  | Event.CAN_Read _ => true
  | _ => false

/-- Test environment: one frame, then the driver reports an error. -/
def env_read_error : Env :=
  { env0 with
    CAN_Read := fun k =>
      if k = 0 then (CAN_ERR_OK, ⟨0x123, MSGTYPE_STANDARD, 1, [7, 0, 0, 0, 0, 0, 0, 0]⟩)
      else (CAN_ERR_ILLHW, default) }

/-! ### Bit timing -/

/-- Spec side: the baud rate prescaler field of a BTR0/BTR1 code, bits 13..8. -/
def btr_BRP (code : Nat) : Nat := (code >>> 8) &&& 0x3F

/-- Spec side: the synchronisation jump width, bits 15..14 plus 1. -/
def btr_SJW (code : Nat) : Nat := ((code >>> 14) &&& 0x3) + 1

/-- Spec side: time segment 2, bits 6..4 plus 1. -/
def btr_TSEG2 (code : Nat) : Nat := ((code >>> 4) &&& 0x7) + 1

/-- Spec side: time segment 1, bits 3..0 plus 1. -/
def btr_TSEG1 (code : Nat) : Nat := (code &&& 0xF) + 1

/-- Spec side: rate in kbit/s times the time quanta divider times the quanta
per bit of a table entry. -/
def btr_product (b : Int × Int) : Int :=
  b.1 * ((btr_BRP b.2.toNat + 1 : Nat) : Int) *
    ((1 + btr_TSEG1 b.2.toNat + btr_TSEG2 b.2.toNat : Nat) : Int)

/-- Spec side: what the comments of pcan.c 223-226 say of a code: `T1`, `T2`,
sample point in percent, `SJW`. -/
def btr_comment (code : Nat) : Nat × Nat × Nat × Nat :=
  (1 + btr_TSEG1 code, btr_TSEG2 code,
   100 * (1 + btr_TSEG1 code) / (1 + btr_TSEG1 code + btr_TSEG2 code), btr_SJW code)

/-! ### More test data -/

/-- Test environment: the driver library has every symbol but `CAN_SetDeviceName`
(the nineteenth lookup). -/
def env_nosetname : Env :=
  { env0 with GetProcAddress := fun k => if k = 18 then 0 else 0x11000 + 16 * k }

/-- Test environment: the stack slot of `err` in `pcan_send` holds 1. -/
def env_stack : Env := { env0 with uninit_err := 1 }

/-- Test state: a transmit identifier with bits 29 and 30 set. -/
def state_wide : State := { state0 with pcan := { pcan0 with txid := 0x60000456 } }

/-- Spec side: the calls of one turn of the poller that finds the flag set and
whose fill query succeeds with the count `fill`. -/
def turn_events (client rxevent fill : Nat) : List Event :=
  [Event.load_rxthread_running true, Event.CAN_GetClientParam client CAN_PARAM_RCVQUEUEFILL] ++
    (if 0 < fill % 2 ^ 32 then [Event.SetEvent rxevent] else []) ++ [Event.Sleep 10]

/-- The poller finds the flag set at its loads from the `nf`-th on once for
every element of `fills`, its fill queries from the `nq`-th on succeed with
these counts, and at the next load the flag is clear. -/
def PollAt (e : Env) : Nat → Nat → List Nat → Prop
  | nf, _, [] => e.rxthread_running nf = false
  | nf, nq, fill :: t =>
    e.rxthread_running nf = true ∧ e.CAN_GetClientParam nq = (CAN_ERR_OK, fill) ∧
      PollAt e (nf + 1) (nq + 1) t

/-- The frames the driver reads from the `n`-th on return, `k` of them. -/
def frames_from (e : Env) : Nat → Nat → List TCANMsg
  | _, 0 => []
  | n, k + 1 => (e.CAN_Read n).2 :: frames_from e (n + 1) k

/-! ## Bit-level facts about 32-bit identifiers -/

theorem and_low31 (v : Nat) : v &&& 0x7FFFFFFF = v % 2 ^ 31 := by
  simpa using Nat.and_pow_two_sub_one_eq_mod v 31

theorem and_bit31 (v : Nat) : v &&& 0x80000000 = (v.testBit 31).toNat * 2 ^ 31 := by
  simpa using Nat.and_two_pow v 31

theorem testBit31_iff (v : Nat) (h : v < 2 ^ 32) : v.testBit 31 = true ↔ 2 ^ 31 ≤ v := by
  rw [Nat.testBit_to_div_mod]
  simp only [decide_eq_true_eq]
  omega

theorem and_bit31_ne_zero (v : Nat) : v &&& 0x80000000 ≠ 0 ↔ v.testBit 31 = true := by
  rw [and_bit31]
  cases h : v.testBit 31 <;> simp

theorem split31 (v : Nat) (h : v < 2 ^ 32) : (v &&& 0x7FFFFFFF) ||| (v &&& 0x80000000) = v := by
  rw [← Nat.and_or_distrib_left]
  have : (0x7FFFFFFF ||| 0x80000000 : Nat) = 2 ^ 32 - 1 := by decide
  rw [this, Nat.and_pow_two_sub_one_eq_mod]
  exact Nat.mod_eq_of_lt h

theorem or_bit31 (n : Nat) (h : n < 2 ^ 31) : n ||| 0x80000000 = n + 2 ^ 31 := by
  have := Nat.mul_add_lt_is_or h 1
  rw [Nat.or_comm]
  simp only [Nat.mul_one] at this
  rw [← this]
  omega

theorem low31_eq (v : Nat) (h : v < 2 ^ 32) :
    v &&& 0x7FFFFFFF = if v.testBit 31 then v - 2 ^ 31 else v := by
  rw [and_low31]
  by_cases hb : v.testBit 31 = true
  · have := (testBit31_iff v h).1 hb
    simp only [hb, if_true]; omega
  · have : ¬ 2 ^ 31 ≤ v := fun hh => hb ((testBit31_iff v h).2 hh)
    simp only [hb]; simp; omega

theorem low31_testBit (v i : Nat) (h : v < 2 ^ 32) :
    (v &&& 0x7FFFFFFF).testBit i = (v.testBit i && decide (i ≠ 31)) := by
  have hm : (0x7FFFFFFF : Nat) = 2 ^ 31 - 1 := by decide
  rw [Nat.testBit_and, hm, Nat.testBit_two_pow_sub_one]
  by_cases h1 : i < 31
  · have : i ≠ 31 := by omega
    simp [h1, this]
  · by_cases h2 : i = 31
    · simp [h2]
    · have h3 : 32 ≤ i := by omega
      have : v.testBit i = false :=
        Nat.testBit_lt_two_pow (lt_of_lt_of_le h (Nat.pow_le_pow_right (by decide) h3))
      simp [this]

/-! ## Send path: frame encoding -/

theorem memcpy_take (dst src : List Nat) (n : Nat) (h : n ≤ src.length) :
    (memcpy dst src n).take n = src.take n := by
  unfold memcpy
  rw [List.take_append_of_le_length (by simp [h])]
  simp

/-- Claim C3. For every 32-bit `txid` and every chunk of 1 to 8 bytes, the
frame that `pcan_send_msg` hands to `CAN_Write` has `ID` = `txid` with bit 31
cleared (all other bits kept), `MSGTYPE` = `MSGTYPE_EXTENDED` if bit 31 of
`txid` is set and `MSGTYPE_STANDARD` otherwise, `LEN` = the chunk size and the
first `LEN` bytes of `DATA` equal to the chunk; the call makes exactly this one
driver call and returns 0 iff the driver answers `CAN_ERR_OK`. -/
theorem C3_send_frame_encoding (e : Env) (s : State) (buf : List Nat) (len : Nat)
    (htx : s.pcan.txid < 2 ^ 32) (h1 : 1 ≤ len) (h8 : len ≤ 8) (hbuf : len ≤ buf.length) :
    ∃ f : TCANMsg,
      pcan_send_msg e s buf len =
        Except.ok (if e.CAN_Write s.nWrite = CAN_ERR_OK then 0 else -1,
          { s with nWrite := s.nWrite + 1,
                   trace := s.trace ++ [Event.CAN_Write s.pcan.client s.pcan.net f] }) ∧
      f.ID = (if s.pcan.txid.testBit 31 then s.pcan.txid - 2 ^ 31 else s.pcan.txid) ∧
      (∀ i, f.ID.testBit i = (s.pcan.txid.testBit i && decide (i ≠ 31))) ∧
      f.MSGTYPE = (if s.pcan.txid.testBit 31 then MSGTYPE_EXTENDED else MSGTYPE_STANDARD) ∧
      f.LEN = len ∧
      f.DATA.take f.LEN = buf.take len := by
  have _ := h1
  refine ⟨pcan_send_msg_frame s.pcan.txid buf len (e.uninit_DATA s.nWrite), ?_, ?_, ?_, ?_, ?_, ?_⟩
  · simp [pcan_send_msg, h8, call_CAN_Write]
  · exact low31_eq _ htx
  · exact fun i => low31_testBit _ i htx
  · simp only [pcan_send_msg_frame]
    by_cases hb : s.pcan.txid.testBit 31 = true
    · rw [if_pos ((and_bit31_ne_zero _).2 hb)]; simp [hb]
    · rw [if_neg (fun hh => hb ((and_bit31_ne_zero _).1 hh))]; simp [hb]
  · simp only [pcan_send_msg_frame]; omega
  · have hl : len % 256 = len := by omega
    simp only [pcan_send_msg_frame, hl]
    exact memcpy_take _ _ _ hbuf

theorem C3_send_frame_encoding_witness :
    ∃ f : TCANMsg,
      pcan_send_msg env0 state0 [1, 2, 3] 3 =
        Except.ok (if env0.CAN_Write state0.nWrite = CAN_ERR_OK then 0 else -1,
          { state0 with nWrite := state0.nWrite + 1,
                        trace := state0.trace ++
                          [Event.CAN_Write state0.pcan.client state0.pcan.net f] }) ∧
      f.ID = (if state0.pcan.txid.testBit 31 then state0.pcan.txid - 2 ^ 31
              else state0.pcan.txid) ∧
      (∀ i, f.ID.testBit i = (state0.pcan.txid.testBit i && decide (i ≠ 31))) ∧
      f.MSGTYPE =
        (if state0.pcan.txid.testBit 31 then MSGTYPE_EXTENDED else MSGTYPE_STANDARD) ∧
      f.LEN = 3 ∧
      f.DATA.take f.LEN = [1, 2, 3].take 3 :=
  C3_send_frame_encoding env0 state0 [1, 2, 3] 3 (by decide) (by decide) (by decide) (by decide)

/-- Claim C4. Identifier round trip: for every 32-bit identifier `v`, the frame
the send path builds for `txid = v` decodes, by the dispatcher rule
(`effective_id`), to `v` again; a 29-bit identifier `n` configured with the
extended flag gives a frame with `ID = n` of extended kind, and an 11-bit
identifier without the flag gives a frame of standard kind with the same `ID`. -/
theorem C4_identifier_round_trip (v : Nat) (hv : v < 2 ^ 32) (buf : List Nat) (len : Nat)
    (uninit : List Nat) :
    effective_id (pcan_send_msg_frame v buf len uninit) = v ∧
    (∀ n, n ≤ CAN_MAX_EXTENDED_ID → v = n ||| 0x80000000 →
      (pcan_send_msg_frame v buf len uninit).ID = n ∧
      (pcan_send_msg_frame v buf len uninit).MSGTYPE = MSGTYPE_EXTENDED) ∧
    (v ≤ CAN_MAX_STANDARD_ID →
      (pcan_send_msg_frame v buf len uninit).ID = v ∧
      (pcan_send_msg_frame v buf len uninit).MSGTYPE = MSGTYPE_STANDARD) := by
  refine ⟨?_, ?_, ?_⟩
  · simp only [effective_id, pcan_send_msg_frame]
    by_cases hb : v.testBit 31 = true
    · have h31 : v &&& 0x80000000 = 0x80000000 := by rw [and_bit31, hb]; rfl
      have hsplit := split31 v hv
      rw [h31] at hsplit
      have hne : v &&& 0x80000000 ≠ 0 := (and_bit31_ne_zero v).2 hb
      simp only [if_pos hne, if_true]
      exact hsplit
    · have h31 : v &&& 0x80000000 = 0 := by
        rw [and_bit31]; simp only [Bool.not_eq_true] at hb; rw [hb]; rfl
      have hsplit := split31 v hv
      rw [h31] at hsplit
      have hne : ¬ (v &&& 0x80000000 ≠ 0) := fun hh => hb ((and_bit31_ne_zero v).1 hh)
      have hk : ¬ (MSGTYPE_STANDARD = MSGTYPE_EXTENDED) := by decide
      simp only [if_neg hne, if_neg hk]
      exact hsplit
  · intro n hn hvn
    have hn31 : n < 2 ^ 31 := by unfold CAN_MAX_EXTENDED_ID at hn; omega
    have hv2 : v = n + 2 ^ 31 := by rw [hvn]; exact or_bit31 n hn31
    have hb : v.testBit 31 = true := (testBit31_iff v hv).2 (by omega)
    simp only [pcan_send_msg_frame]
    refine ⟨?_, ?_⟩
    · rw [and_low31]; omega
    · rw [if_pos ((and_bit31_ne_zero v).2 hb)]
  · intro hstd
    have hlt : v < 2 ^ 31 := by unfold CAN_MAX_STANDARD_ID at hstd; omega
    have hb : ¬ v.testBit 31 = true := fun hh => by
      have := (testBit31_iff v hv).1 hh; omega
    simp only [pcan_send_msg_frame]
    refine ⟨?_, ?_⟩
    · rw [and_low31]; omega
    · rw [if_neg (fun hh => hb ((and_bit31_ne_zero v).1 hh))]

theorem C4_identifier_round_trip_witness :
    effective_id (pcan_send_msg_frame 0x9ABCDEF0 [1, 2] 2 []) = 0x9ABCDEF0 ∧
    (∀ n, n ≤ CAN_MAX_EXTENDED_ID → 0x9ABCDEF0 = n ||| 0x80000000 →
      (pcan_send_msg_frame 0x9ABCDEF0 [1, 2] 2 []).ID = n ∧
      (pcan_send_msg_frame 0x9ABCDEF0 [1, 2] 2 []).MSGTYPE = MSGTYPE_EXTENDED) ∧
    (0x9ABCDEF0 ≤ CAN_MAX_STANDARD_ID →
      (pcan_send_msg_frame 0x9ABCDEF0 [1, 2] 2 []).ID = 0x9ABCDEF0 ∧
      (pcan_send_msg_frame 0x9ABCDEF0 [1, 2] 2 []).MSGTYPE = MSGTYPE_STANDARD) :=
  C4_identifier_round_trip 0x9ABCDEF0 (by decide) [1, 2] 2 []

/-! ## Send path: chunking -/

theorem written_append (a b : List Event) : written (a ++ b) = written a ++ written b := by
  induction a with
  | nil => rfl
  | cons x t ih => cases x <;> simp [written, ih]

theorem written_map (c n : Nat) (fs : List TCANMsg) :
    written (fs.map (Event.CAN_Write c n)) = fs := by
  induction fs with
  | nil => rfl
  | cons f t ih => simp [written, ih]

theorem pcan_send_msg_eq (e : Env) (s : State) (b : List Nat) (n : Nat) (h : n ≤ 8) :
    pcan_send_msg e s b n =
      Except.ok (if e.CAN_Write s.nWrite = CAN_ERR_OK then 0 else -1,
        { s with nWrite := s.nWrite + 1,
                 trace := s.trace ++ [Event.CAN_Write s.pcan.client s.pcan.net
                   (pcan_send_msg_frame s.pcan.txid b n (e.uninit_DATA s.nWrite))] }) := by
  simp [pcan_send_msg, h, call_CAN_Write]

theorem frame_payload (txid : Nat) (b : List Nat) (n : Nat) (u : List Nat)
    (h8 : n ≤ 8) (hb : n ≤ b.length) :
    (pcan_send_msg_frame txid b n u).DATA.take (pcan_send_msg_frame txid b n u).LEN = b.take n := by
  have hl : n % 256 = n := by omega
  simp only [pcan_send_msg_frame, hl]
  exact memcpy_take _ _ _ hb

/-- The loop of `pcan_send` when every write succeeds: it ends with nothing
left, having written one frame per chunk. -/
theorem send_loop_ok (e : Env) (buf : List Nat) :
    ∀ (fuel : Nat) (s : State) (err : Int) (sent rest : Nat),
      sent + rest = buf.length → rest ≤ fuel →
      (∀ k, s.nWrite ≤ k → e.CAN_Write k = CAN_ERR_OK) →
      ∃ (r : SendLoop) (frames : List TCANMsg),
        pcan_send_loop e buf fuel s err sent rest = Except.ok r ∧
        r.rest = 0 ∧ r.sent = buf.length ∧ (r.err = 0 ∨ (rest = 0 ∧ r.err = err)) ∧
        r.state = { s with nWrite := s.nWrite + frames.length,
                           trace := s.trace ++
                             frames.map (Event.CAN_Write s.pcan.client s.pcan.net) } ∧
        frames.length = (rest + 7) / 8 ∧
        (∀ f ∈ frames, ∃ b n u, 1 ≤ n ∧ n ≤ 8 ∧ n ≤ b.length ∧
          f = pcan_send_msg_frame s.pcan.txid b n u) ∧
        reassemble frames = buf.drop sent := by
  intro fuel
  induction fuel with
  | zero =>
    intro s err sent rest hlen hfuel _
    have h0 : rest = 0 := by omega
    subst h0
    refine ⟨⟨err, sent, 0, s⟩, [], ?_, rfl, by simpa using hlen, Or.inr ⟨rfl, rfl⟩, ?_, rfl, ?_, ?_⟩
    · simp [pcan_send_loop]
    · simp
    · intro f hf; cases hf
    · have : buf.length ≤ sent := by omega
      simp [reassemble, List.drop_eq_nil_of_le this]
  | succ fuel ih =>
    intro s err sent rest hlen hfuel hok
    by_cases h0 : rest = 0
    · subst h0
      refine ⟨⟨err, sent, 0, s⟩, [], ?_, rfl, by simpa using hlen, Or.inr ⟨rfl, rfl⟩, ?_, rfl, ?_, ?_⟩
      · simp [pcan_send_loop]
      · simp
      · intro f hf; cases hf
      · have : buf.length ≤ sent := by omega
        simp [reassemble, List.drop_eq_nil_of_le this]
    · have hpos : rest > 0 := Nat.pos_of_ne_zero h0
      obtain ⟨now, hnow⟩ : ∃ now, now = (if rest > 8 then 8 else rest) := ⟨_, rfl⟩
      have hnow8 : now ≤ 8 := by rw [hnow]; split <;> omega
      have hnow1 : 1 ≤ now := by rw [hnow]; split <;> omega
      have hnowr : now ≤ rest := by rw [hnow]; split <;> omega
      have hw : e.CAN_Write s.nWrite = CAN_ERR_OK := hok _ (le_refl _)
      let s1 : State :=
        { s with nWrite := s.nWrite + 1,
                 trace := s.trace ++ [Event.CAN_Write s.pcan.client s.pcan.net
                   (pcan_send_msg_frame s.pcan.txid (buf.drop sent) now
                     (e.uninit_DATA s.nWrite))] }
      obtain ⟨r, frames, hr, hrest, hsent, herr, hstate, hcount, hframes, hre⟩ :=
        ih s1 0 (sent + now) (rest - now) (by omega) (by omega)
          (fun k hk => hok k (by simp only [s1] at hk; omega))
      have hdrop : now ≤ (buf.drop sent).length := by simp only [List.length_drop]; omega
      refine ⟨r, pcan_send_msg_frame s.pcan.txid (buf.drop sent) now (e.uninit_DATA s.nWrite)
        :: frames, ?_, hrest, hsent, ?_, ?_, ?_, ?_, ?_⟩
      · rw [pcan_send_loop, if_pos hpos]
        simp only [← hnow, pcan_send_msg_eq e s _ now hnow8, hw, if_true]
        simpa using hr
      · rcases herr with h | ⟨_, h⟩ <;> exact Or.inl h
      · rw [hstate]
        simp only [s1, List.length_cons, List.map_cons, List.append_assoc, List.singleton_append,
          Nat.add_assoc, Nat.add_comm 1]
      · simp only [List.length_cons, hcount]
        rw [hnow]; split <;> omega
      · intro f hf
        rcases List.mem_cons.1 hf with h | h
        · exact ⟨_, now, _, hnow1, hnow8, hdrop, h⟩
        · exact hframes f h
      · simp only [reassemble, frame_payload _ _ _ _ hnow8 hdrop, hre]
        rw [← List.drop_drop]
        exact List.take_append_drop now (buf.drop sent)

/-- The loop of `pcan_send` when the first `K` writes succeed and the next one
fails, with more than `K` chunks to send: it stops at the failed write. -/
theorem send_loop_fail (e : Env) (buf : List Nat) :
    ∀ (fuel : Nat) (s : State) (err : Int) (sent rest K : Nat),
      sent + rest = buf.length → rest ≤ fuel → K < (rest + 7) / 8 →
      (∀ k, k < K → e.CAN_Write (s.nWrite + k) = CAN_ERR_OK) →
      e.CAN_Write (s.nWrite + K) ≠ CAN_ERR_OK →
      ∃ (r : SendLoop) (frames : List TCANMsg),
        pcan_send_loop e buf fuel s err sent rest = Except.ok r ∧
        r.err = -1 ∧ r.sent = sent + 8 * K ∧
        r.state = { s with nWrite := s.nWrite + (K + 1),
                           trace := s.trace ++
                             frames.map (Event.CAN_Write s.pcan.client s.pcan.net) } ∧
        frames.length = K + 1 ∧
        (∀ f ∈ frames, ∃ b n u, 1 ≤ n ∧ n ≤ 8 ∧ n ≤ b.length ∧
          f = pcan_send_msg_frame s.pcan.txid b n u) ∧
        (∀ f ∈ frames.take K, f.LEN = 8) ∧
        reassemble (frames.take K) = (buf.drop sent).take (8 * K) := by
  intro fuel
  induction fuel with
  | zero =>
    intro s err sent rest K _ hfuel hK _ _
    omega
  | succ fuel ih =>
    intro s err sent rest K hlen hfuel hK hok hfail
    have hpos : rest > 0 := by omega
    obtain ⟨now, hnow⟩ : ∃ now, now = (if rest > 8 then 8 else rest) := ⟨_, rfl⟩
    have hnow8 : now ≤ 8 := by rw [hnow]; split <;> omega
    have hnow1 : 1 ≤ now := by rw [hnow]; split <;> omega
    have hnowr : now ≤ rest := by rw [hnow]; split <;> omega
    have hdrop : now ≤ (buf.drop sent).length := by simp only [List.length_drop]; omega
    cases K with
    | zero =>
      have hw : e.CAN_Write s.nWrite ≠ CAN_ERR_OK := by simpa using hfail
      refine ⟨⟨-1, sent, rest,
          { s with nWrite := s.nWrite + 1,
                   trace := s.trace ++ [Event.CAN_Write s.pcan.client s.pcan.net
                     (pcan_send_msg_frame s.pcan.txid (buf.drop sent) now
                       (e.uninit_DATA s.nWrite))] }⟩,
        [pcan_send_msg_frame s.pcan.txid (buf.drop sent) now (e.uninit_DATA s.nWrite)],
        ?_, rfl, by simp, ?_, rfl, ?_, ?_, ?_⟩
      · rw [pcan_send_loop, if_pos hpos]
        simp only [← hnow, pcan_send_msg_eq e s _ now hnow8, if_neg hw]
        simp
      · simp
      · intro f hf
        rcases List.mem_cons.1 hf with h | h
        · exact ⟨_, now, _, hnow1, hnow8, hdrop, h⟩
        · cases h
      · intro f hf; simp at hf
      · simp [reassemble]
    | succ K =>
      have hw : e.CAN_Write s.nWrite = CAN_ERR_OK := by simpa using hok 0 (Nat.succ_pos K)
      have hbig : rest > 8 := by omega
      have hn8 : now = 8 := by rw [hnow, if_pos hbig]
      subst hn8
      let s1 : State :=
        { s with nWrite := s.nWrite + 1,
                 trace := s.trace ++ [Event.CAN_Write s.pcan.client s.pcan.net
                   (pcan_send_msg_frame s.pcan.txid (buf.drop sent) 8
                     (e.uninit_DATA s.nWrite))] }
      obtain ⟨r, frames, hr, herr, hsent, hstate, hcount, hframes, hfull, hre⟩ :=
        ih s1 0 (sent + 8) (rest - 8) K (by omega) (by omega) (by omega)
          (fun k hk => by
            have := hok (k + 1) (by omega)
            simpa [s1, Nat.add_assoc, Nat.add_comm 1] using this)
          (by simpa [s1, Nat.add_assoc, Nat.add_comm 1] using hfail)
      refine ⟨r, pcan_send_msg_frame s.pcan.txid (buf.drop sent) 8 (e.uninit_DATA s.nWrite)
        :: frames, ?_, herr, by omega, ?_, by simp [hcount], ?_, ?_, ?_⟩
      · rw [pcan_send_loop, if_pos hpos]
        simp only [← hnow, pcan_send_msg_eq e s _ 8 hnow8, hw, if_true]
        simpa using hr
      · rw [hstate]
        simp only [s1, List.length_cons, List.map_cons, List.append_assoc,
          List.singleton_append, Nat.add_assoc, Nat.add_comm 1]
      · intro f hf
        rcases List.mem_cons.1 hf with h | h
        · exact ⟨_, 8, _, hnow1, hnow8, hdrop, h⟩
        · exact hframes f h
      · intro f hf
        rw [List.take_succ_cons] at hf
        rcases List.mem_cons.1 hf with h | h
        · rw [h]; rfl
        · exact hfull f h
      · rw [List.take_succ_cons]
        simp only [reassemble, frame_payload _ _ _ _ hnow8 hdrop, hre]
        rw [← List.drop_drop, Nat.mul_succ, Nat.add_comm (8 * K) 8, List.take_add]

/-- Claim C1. Chunking: for every buffer of length N, when every driver write
succeeds, `pcan_send` returns (the `assert` never fails), it issues exactly
ceil(N/8) = (N+7)/8 `CAN_Write` calls, each frame has `LEN` between 1 and 8, and
the first `LEN` payload bytes of the frames, concatenated in submission order,
are the buffer. -/
theorem C1_chunking (e : Env) (s : State) (buf : List Nat)
    (hok : ∀ k, s.nWrite ≤ k → e.CAN_Write k = CAN_ERR_OK) :
    ∃ (s1 : State) (frames : List TCANMsg),
      pcan_send e s buf = Except.ok s1 ∧
      written s1.trace = written s.trace ++ frames ∧
      s1.nWrite = s.nWrite + frames.length ∧
      frames.length = (buf.length + 7) / 8 ∧
      (∀ f ∈ frames, 1 ≤ f.LEN ∧ f.LEN ≤ 8) ∧
      reassemble frames = buf := by
  obtain ⟨r, frames, hr, _, _, _, hstate, hcount, hframes, hre⟩ :=
    send_loop_ok e buf buf.length s e.uninit_err 0 buf.length (by simp) (le_refl _) hok
  have hlen : ∀ f ∈ frames, 1 ≤ f.LEN ∧ f.LEN ≤ 8 := by
    intro f hf
    obtain ⟨b, n, u, h1, h8, _, rfl⟩ := hframes f hf
    simp only [pcan_send_msg_frame]; omega
  by_cases herr : r.err ≠ 0
  · refine ⟨call_logeventf r.state fmt_tx_overflow [r.sent, buf.length], frames,
      ?_, ?_, ?_, hcount, hlen, by simpa using hre⟩
    · simp only [pcan_send, hr, if_pos herr]
    · simp [call_logeventf, hstate, written_append, written_map, written]
    · simp [call_logeventf, hstate]
  · refine ⟨r.state, frames, ?_, ?_, ?_, hcount, hlen, by simpa using hre⟩
    · simp only [pcan_send, hr, if_neg herr]
    · simp [hstate, written_append, written_map]
    · simp [hstate]

theorem C1_chunking_witness :
    ∃ (s1 : State) (frames : List TCANMsg),
      pcan_send env0 state0 [1, 2, 3, 4, 5, 6, 7, 8, 9, 10] = Except.ok s1 ∧
      written s1.trace = written state0.trace ++ frames ∧
      s1.nWrite = state0.nWrite + frames.length ∧
      frames.length = ([1, 2, 3, 4, 5, 6, 7, 8, 9, 10].length + 7) / 8 ∧
      (∀ f ∈ frames, 1 ≤ f.LEN ∧ f.LEN ≤ 8) ∧
      reassemble frames = [1, 2, 3, 4, 5, 6, 7, 8, 9, 10] :=
  C1_chunking env0 state0 [1, 2, 3, 4, 5, 6, 7, 8, 9, 10] (fun _ _ => rfl)

/-- Claim C2. Partial send accounting: if the buffer splits into M = (N+7)/8
chunks, K < M, the first K driver writes succeed and write K+1 fails, then
`pcan_send` issues exactly K+1 writes (none after the failed one) and the
sent-byte count it reports (in the log message) is 8*K, which is exactly the
number of bytes in the K frames the driver accepted: the first 8*K bytes of the
buffer. -/
theorem C2_send_accounting (e : Env) (s : State) (buf : List Nat) (K : Nat)
    (hK : K < (buf.length + 7) / 8)
    (hok : ∀ k, k < K → e.CAN_Write (s.nWrite + k) = CAN_ERR_OK)
    (hfail : e.CAN_Write (s.nWrite + K) ≠ CAN_ERR_OK) :
    ∃ (s1 : State) (frames : List TCANMsg),
      pcan_send e s buf = Except.ok s1 ∧
      s1.trace = s.trace ++ frames.map (Event.CAN_Write s.pcan.client s.pcan.net) ++
        [Event.logeventf fmt_tx_overflow [8 * K, buf.length]] ∧
      frames.length = K + 1 ∧
      s1.nWrite = s.nWrite + (K + 1) ∧
      ((frames.take K).map (fun f => f.LEN)).sum = 8 * K ∧
      reassemble (frames.take K) = buf.take (8 * K) := by
  obtain ⟨r, frames, hr, herr, hsent, hstate, hcount, _, hfull, hre⟩ :=
    send_loop_fail e buf buf.length s e.uninit_err 0 buf.length K (by simp) (le_refl _) hK
      hok hfail
  have hne : r.err ≠ 0 := by rw [herr]; decide
  have hsum : ∀ (l : List TCANMsg), (∀ f ∈ l, f.LEN = 8) →
      (l.map (fun f => f.LEN)).sum = 8 * l.length := by
    intro l
    induction l with
    | nil => intro _; rfl
    | cons a t iht =>
      intro h
      have h1 := h a (List.mem_cons_self _ _)
      have h2 := iht (fun f hf => h f (List.mem_cons_of_mem _ hf))
      simp only [List.map_cons, List.sum_cons, List.length_cons, h1, h2]; omega
  refine ⟨call_logeventf r.state fmt_tx_overflow [r.sent, buf.length], frames,
    ?_, ?_, hcount, ?_, ?_, by simpa using hre⟩
  · simp only [pcan_send, hr, if_pos hne]
  · simp [call_logeventf, hstate, hsent]
  · simp [call_logeventf, hstate]
  · rw [hsum _ hfull, List.length_take, hcount]
    simp

theorem C2_send_accounting_witness :
    ∃ (s1 : State) (frames : List TCANMsg),
      pcan_send { env0 with CAN_Write := fun k => if k < 2 then 0 else 0x80 } state0
        (List.replicate 20 7) = Except.ok s1 ∧
      s1.trace = state0.trace ++
        frames.map (Event.CAN_Write state0.pcan.client state0.pcan.net) ++
        [Event.logeventf fmt_tx_overflow [8 * 2, (List.replicate 20 7).length]] ∧
      frames.length = 2 + 1 ∧
      s1.nWrite = state0.nWrite + (2 + 1) ∧
      ((frames.take 2).map (fun f => f.LEN)).sum = 8 * 2 ∧
      reassemble (frames.take 2) = (List.replicate 20 7).take (8 * 2) :=
  C2_send_accounting { env0 with CAN_Write := fun k => if k < 2 then 0 else 0x80 } state0
    (List.replicate 20 7) 2 (by decide) (by decide) (by decide)

/-! ## Receive path: filter and delivery -/

theorem upstream_append (a b : List Event) : upstream (a ++ b) = upstream a ++ upstream b := by
  induction a with
  | nil => rfl
  | cons x t ih => cases x <;> simp [upstream, ih]

theorem stdout_calls_append (a b : List Event) :
    stdout_calls (a ++ b) = stdout_calls a ++ stdout_calls b := by
  induction a with
  | nil => rfl
  | cons x t ih => cases x <;> simp [stdout_calls, ih]

theorem clear_busoff_pcan (e : Env) (s : State) : (pcan_clear_busoff e s).pcan = s.pcan := by
  unfold pcan_clear_busoff call_Sleep call_CAN_ResetHardware call_CAN_SetHwParam
  dsimp only; split <;> rfl

theorem clear_busoff_nRead (e : Env) (s : State) : (pcan_clear_busoff e s).nRead = s.nRead := by
  unfold pcan_clear_busoff call_Sleep call_CAN_ResetHardware call_CAN_SetHwParam
  dsimp only; split <;> rfl

theorem clear_busoff_stdout (e : Env) (s : State) :
    stdout_calls (pcan_clear_busoff e s).trace = stdout_calls s.trace := by
  unfold pcan_clear_busoff call_Sleep call_CAN_ResetHardware call_CAN_SetHwParam
  dsimp only; split <;> simp [stdout_calls_append, stdout_calls]

theorem clear_busoff_upstream (e : Env) (s : State) :
    upstream (pcan_clear_busoff e s).trace = upstream s.trace := by
  unfold pcan_clear_busoff call_Sleep call_CAN_ResetHardware call_CAN_SetHwParam
  dsimp only; split <;> simp [upstream_append, upstream]

/-- The filter of the code (pcan.c 69-73) is the filter of the spec. -/
theorem accepted_iff (rxid : Nat) (f : TCANMsg) :
    accepted rxid f = true ↔
      (f.MSGTYPE = MSGTYPE_STANDARD ∨ f.MSGTYPE = MSGTYPE_EXTENDED) ∧ effective_id f = rxid := by
  have hne : MSGTYPE_STANDARD ≠ MSGTYPE_EXTENDED := by decide
  unfold accepted effective_id
  simp only [Bool.decide_or, Bool.decide_and, Bool.or_eq_true, Bool.and_eq_true,
    decide_eq_true_eq]
  constructor
  · rintro (⟨h1, h2⟩ | ⟨h1, h2⟩)
    · refine ⟨Or.inl h1, ?_⟩
      rw [h1, if_neg hne]; simpa using h2
    · refine ⟨Or.inr h1, ?_⟩
      rw [if_pos h1]; exact h2
  · rintro ⟨h1 | h1, h2⟩
    · left
      rw [h1, if_neg hne] at h2
      exact ⟨h1, by simpa using h2⟩
    · right
      rw [if_pos h1] at h2
      exact ⟨h1, h2⟩

/-- One turn of the loop of `pcan_read_message` after a successful read. -/
theorem read_step_ok (e : Env) (fuel : Nat) (s : State) (msg f : TCANMsg)
    (h : e.CAN_Read s.nRead = (CAN_ERR_OK, f)) :
    pcan_read_message e (fuel + 1) s msg =
      if f.MSGTYPE = MSGTYPE_STANDARD ∨ f.MSGTYPE = MSGTYPE_EXTENDED then
        if effective_id f = s.pcan.rxid then
          Except.ok (true, f,
            { s with nRead := s.nRead + 1, trace := s.trace ++ [Event.CAN_Read s.pcan.client] })
        else
          pcan_read_message e fuel
            { s with nRead := s.nRead + 1, trace := s.trace ++ [Event.CAN_Read s.pcan.client] } f
      else if f.MSGTYPE = MSGTYPE_STATUS then
        if status_of_DATA f.DATA &&& CAN_ERR_BUSOFF ≠ 0 then
          pcan_read_message e fuel
            (pcan_clear_busoff e (call_logeventf
              { s with nRead := s.nRead + 1, trace := s.trace ++ [Event.CAN_Read s.pcan.client] }
              fmt_busoff [])) f
        else
          pcan_read_message e fuel
            { s with nRead := s.nRead + 1, trace := s.trace ++ [Event.CAN_Read s.pcan.client] } f
      else
        pcan_read_message e fuel
          { s with nRead := s.nRead + 1, trace := s.trace ++ [Event.CAN_Read s.pcan.client] } f := by
  rw [pcan_read_message]
  simp only [call_CAN_Read, h, if_true]

/-- One turn of the loop of `pcan_read_message` after a failed read. -/
theorem read_step_fail (e : Env) (fuel : Nat) (s : State) (msg : TCANMsg)
    (h : (e.CAN_Read s.nRead).1 ≠ CAN_ERR_OK) :
    pcan_read_message e (fuel + 1) s msg =
      Except.ok (false, (e.CAN_Read s.nRead).2,
        { s with nRead := s.nRead + 1, trace := s.trace ++ [Event.CAN_Read s.pcan.client] }) := by
  rw [pcan_read_message]
  simp only [call_CAN_Read, if_neg h]
  split <;> rfl

/-- What one `pcan_read_message` does on a queue `q`: it reads up to and
including the first accepted frame and returns it, or reads the whole queue
and the "queue empty" answer and returns `false`.  It never calls `seat_stdout`. -/
theorem read_message_queue (e : Env) :
    ∀ (q : List TCANMsg) (fuel : Nat) (s : State) (msg : TCANMsg),
      QueueAt e s.nRead q → q.length < fuel →
      ∃ (b : Bool) (m : TCANMsg) (s1 : State),
        pcan_read_message e fuel s msg = Except.ok (b, m, s1) ∧
        s1.pcan = s.pcan ∧
        stdout_calls s1.trace = stdout_calls s.trace ∧
        upstream s1.trace = upstream s.trace ∧
        ((b = false ∧ q.filter (accepted s.pcan.rxid) = [] ∧
            s1.nRead = s.nRead + q.length + 1) ∨
         (b = true ∧ ∃ pre rest, q = pre ++ m :: rest ∧
            pre.filter (accepted s.pcan.rxid) = [] ∧ accepted s.pcan.rxid m = true ∧
            QueueAt e s1.nRead rest ∧ s1.nRead = s.nRead + pre.length + 1)) := by
  intro q
  induction q with
  | nil =>
    intro fuel s msg hq hfuel
    obtain ⟨n, rfl⟩ : ∃ n, fuel = n + 1 := ⟨fuel - 1, by simp at hfuel; omega⟩
    have hne : (e.CAN_Read s.nRead).1 ≠ CAN_ERR_OK := by
      have h : (e.CAN_Read s.nRead).1 = CAN_ERR_QRCVEMPTY := hq
      rw [h]; decide
    refine ⟨false, _, _, read_step_fail e n s msg hne, rfl, ?_, ?_, Or.inl ⟨rfl, rfl, rfl⟩⟩
    · simp [stdout_calls_append, stdout_calls]
    · simp [upstream_append, upstream]
  | cons f q ih =>
    intro fuel s msg hq hfuel
    obtain ⟨n, rfl⟩ : ∃ n, fuel = n + 1 := ⟨fuel - 1, by simp at hfuel; omega⟩
    have hn : q.length < n := by simp at hfuel; omega
    obtain ⟨hread, hrest⟩ : e.CAN_Read s.nRead = (CAN_ERR_OK, f) ∧ QueueAt e (s.nRead + 1) q := hq
    rw [read_step_ok e n s msg f hread]
    -- the cases in which the frame is skipped all continue the same way
    have skip : ∀ (s1 : State), s1.pcan = s.pcan → s1.nRead = s.nRead + 1 →
        stdout_calls s1.trace = stdout_calls s.trace → upstream s1.trace = upstream s.trace →
        accepted s.pcan.rxid f = false →
        ∃ (b : Bool) (m : TCANMsg) (s2 : State),
          pcan_read_message e n s1 f = Except.ok (b, m, s2) ∧
          s2.pcan = s.pcan ∧
          stdout_calls s2.trace = stdout_calls s.trace ∧
          upstream s2.trace = upstream s.trace ∧
          ((b = false ∧ (f :: q).filter (accepted s.pcan.rxid) = [] ∧
              s2.nRead = s.nRead + (f :: q).length + 1) ∨
           (b = true ∧ ∃ pre rest, f :: q = pre ++ m :: rest ∧
              pre.filter (accepted s.pcan.rxid) = [] ∧ accepted s.pcan.rxid m = true ∧
              QueueAt e s2.nRead rest ∧ s2.nRead = s.nRead + pre.length + 1)) := by
      intro s1 hp hr hso hup hacc
      obtain ⟨b, m, s2, hrun, hp2, hso2, hup2, hcase⟩ := ih n s1 f (by rw [hr]; exact hrest) hn
      rw [hp] at hp2 hcase
      refine ⟨b, m, s2, hrun, hp2, hso2.trans hso, hup2.trans hup, ?_⟩
      rcases hcase with ⟨hb, hfil, hnr⟩ | ⟨hb, pre, rest, hsplit, hpre, hm, hqr, hnr⟩
      · left
        refine ⟨hb, ?_, ?_⟩
        · rw [List.filter_cons, hacc]; simpa using hfil
        · rw [hnr, hr, List.length_cons]; omega
      · right
        refine ⟨hb, f :: pre, rest, by rw [hsplit]; rfl, ?_, hm, hqr, ?_⟩
        · rw [List.filter_cons, hacc]; simpa using hpre
        · rw [hnr, hr, List.length_cons]; omega
    by_cases hkind : f.MSGTYPE = MSGTYPE_STANDARD ∨ f.MSGTYPE = MSGTYPE_EXTENDED
    · rw [if_pos hkind]
      by_cases hid : effective_id f = s.pcan.rxid
      · rw [if_pos hid]
        refine ⟨true, f, _, rfl, rfl, ?_, ?_, Or.inr ⟨rfl, [], q, rfl, rfl, ?_, hrest, rfl⟩⟩
        · simp [stdout_calls_append, stdout_calls]
        · simp [upstream_append, upstream]
        · exact (accepted_iff _ _).2 ⟨hkind, hid⟩
      · rw [if_neg hid]
        refine skip _ rfl rfl ?_ ?_ ?_
        · simp [stdout_calls_append, stdout_calls]
        · simp [upstream_append, upstream]
        · cases hacc : accepted s.pcan.rxid f
          · rfl
          · exact absurd ((accepted_iff _ _).1 hacc).2 hid
    · rw [if_neg hkind]
      have hacc : accepted s.pcan.rxid f = false := by
        cases hacc : accepted s.pcan.rxid f
        · rfl
        · exact absurd ((accepted_iff _ _).1 hacc).1 hkind
      by_cases hst : f.MSGTYPE = MSGTYPE_STATUS
      · rw [if_pos hst]
        by_cases hbo : status_of_DATA f.DATA &&& CAN_ERR_BUSOFF ≠ 0
        · rw [if_pos hbo]
          refine skip _ ?_ ?_ ?_ ?_ hacc
          · rw [clear_busoff_pcan]; rfl
          · rw [clear_busoff_nRead]; rfl
          · rw [clear_busoff_stdout]; simp [call_logeventf, stdout_calls_append, stdout_calls]
          · rw [clear_busoff_upstream]; simp [call_logeventf, upstream_append, upstream]
        · rw [if_neg hbo]
          refine skip _ rfl rfl ?_ ?_ hacc
          · simp [stdout_calls_append, stdout_calls]
          · simp [upstream_append, upstream]
      · rw [if_neg hst]
        refine skip _ rfl rfl ?_ ?_ hacc
        · simp [stdout_calls_append, stdout_calls]
        · simp [upstream_append, upstream]

theorem reassemble_eq (l : List TCANMsg) :
    reassemble l = (l.map (fun f => f.DATA.take f.LEN)).flatten := by
  induction l with
  | nil => rfl
  | cons a t ih => simp [reassemble, ih]

/-- The loop of `pcan_rxevent_callback` on a queue `q`. -/
theorem rxevent_loop_queue (e : Env) (fuel : Nat) :
    ∀ (n : Nat) (q : List TCANMsg) (s : State) (msg : TCANMsg),
      QueueAt e s.nRead q → q.length < fuel → q.length < n →
      ∃ s1 : State,
        pcan_rxevent_loop e fuel n s msg = Except.ok s1 ∧
        s1.pcan = s.pcan ∧
        stdout_calls s1.trace = stdout_calls s.trace ++
          (q.filter (accepted s.pcan.rxid)).map (fun f => (f.DATA, f.LEN)) ∧
        upstream s1.trace = upstream s.trace ++ reassemble (q.filter (accepted s.pcan.rxid)) := by
  intro n
  induction n with
  | zero => intro q s msg _ _ hn; omega
  | succ n ih =>
    intro q s msg hq hfuel hn
    obtain ⟨b, m, s1, hrun, hp, hso, hup, hcase⟩ := read_message_queue e q fuel s msg hq hfuel
    rcases hcase with ⟨hb, hfil, _⟩ | ⟨hb, pre, rest, hsplit, hpre, hm, hqr, _⟩
    · subst hb
      refine ⟨s1, ?_, hp, ?_, ?_⟩
      · rw [pcan_rxevent_loop, hrun]
      · rw [hfil, hso]; simp
      · rw [hfil, hup]; simp [reassemble]
    · subst hb
      have hlen : rest.length < q.length := by rw [hsplit]; simp; omega
      have hfilter : q.filter (accepted s.pcan.rxid) =
          m :: rest.filter (accepted s.pcan.rxid) := by
        rw [hsplit, List.filter_append, hpre, List.nil_append, List.filter_cons, hm]; rfl
      obtain ⟨s2, hs2⟩ : ∃ s2, s2 =
          (if (call_seat_stdout e s1 m.DATA m.LEN).1 > 0 then
            call_logeventf (call_seat_stdout e s1 m.DATA m.LEN).2 fmt_rejected
              [m.LEN, (call_seat_stdout e s1 m.DATA m.LEN).1]
           else (call_seat_stdout e s1 m.DATA m.LEN).2) := ⟨_, rfl⟩
      have h2p : s2.pcan = s.pcan := by rw [hs2]; split <;> simpa [call_logeventf, call_seat_stdout] using hp
      have h2r : s2.nRead = s1.nRead := by rw [hs2]; split <;> rfl
      have h2so : stdout_calls s2.trace = stdout_calls s.trace ++ [(m.DATA, m.LEN)] := by
        rw [hs2]; split <;>
          simp [call_logeventf, call_seat_stdout, stdout_calls_append, stdout_calls, hso]
      have h2up : upstream s2.trace = upstream s.trace ++ m.DATA.take m.LEN := by
        rw [hs2]; split <;>
          simp [call_logeventf, call_seat_stdout, upstream_append, upstream, hup]
      obtain ⟨s3, hrun3, hp3, hso3, hup3⟩ :=
        ih rest s2 m (by rw [h2r]; exact hqr) (by omega) (by omega)
      rw [h2p] at hso3 hup3
      refine ⟨s3, ?_, hp3.trans h2p, ?_, ?_⟩
      · rw [pcan_rxevent_loop, hrun]
        simp only []
        rw [← hs2]; exact hrun3
      · rw [hso3, h2so, hfilter]; simp
      · rw [hup3, h2up, hfilter]; simp [reassemble]

/-- Claim C5. Filter match and delivery: when the driver receive queue holds
the (well-formed) frames `q` followed by "queue empty", one drain
(`pcan_rxevent_callback`, with fuel above the queue length) returns and hands
to the upstream consumer exactly one `seat_stdout` call per frame of `q` that
is a data frame (standard or extended kind) whose identifier, with `0x80000000`
or-ed in for the extended kind, equals `rxid`, in queue order; the bytes
delivered are the concatenation of the first `LEN` payload bytes of those
frames, and every other frame is dropped. -/
theorem C5_filter_delivery (e : Env) (s : State) (q : List TCANMsg) (fuel : Nat)
    (msg : TCANMsg) (hq : QueueAt e s.nRead q) (hwf : ∀ f ∈ q, f.wf) (hfuel : q.length < fuel) :
    ∃ s1 : State,
      pcan_rxevent_callback e fuel s msg = Except.ok s1 ∧
      stdout_calls s1.trace = stdout_calls s.trace ++
        (q.filter (accepted s.pcan.rxid)).map (fun f => (f.DATA, f.LEN)) ∧
      upstream s1.trace = upstream s.trace ++
        ((q.filter (accepted s.pcan.rxid)).map (fun f => f.DATA.take f.LEN)).flatten := by
  have _ := hwf
  obtain ⟨s1, hrun, _, hso, hup⟩ := rxevent_loop_queue e fuel fuel q s msg hq hfuel hfuel
  exact ⟨s1, hrun, hso, by rw [hup, reassemble_eq]⟩

theorem C5_filter_delivery_witness :
    ∃ s1 : State,
      pcan_rxevent_callback env1 6 state0 default = Except.ok s1 ∧
      stdout_calls s1.trace = stdout_calls state0.trace ++
        (queue1.filter (accepted state0.pcan.rxid)).map (fun f => (f.DATA, f.LEN)) ∧
      upstream s1.trace = upstream state0.trace ++
        ((queue1.filter (accepted state0.pcan.rxid)).map (fun f => f.DATA.take f.LEN)).flatten :=
  C5_filter_delivery env1 state0 queue1 6 default
    ⟨rfl, rfl, rfl, rfl, rfl, rfl⟩ (by decide) (by decide)

/-! ## Send readiness -/

theorem recoveries_append (a b : List Event) :
    recoveries (a ++ b) = recoveries a + recoveries b := by
  induction a with
  | nil => simp [recoveries]
  | cons x t ih => cases x <;> simp [recoveries, ih, Nat.add_assoc]

theorem fill_queries_append (a b : List Event) :
    fill_queries (a ++ b) = fill_queries a + fill_queries b := by
  induction a with
  | nil => simp [fill_queries]
  | cons x t ih => cases x <;> simp [fill_queries, ih, Nat.add_assoc]

/-- Each invocation of `pcan_clear_busoff` makes exactly one fast bus-on attempt. -/
theorem clear_busoff_recoveries (e : Env) (s : State) :
    recoveries (pcan_clear_busoff e s).trace = recoveries s.trace + 1 := by
  unfold pcan_clear_busoff call_Sleep call_CAN_ResetHardware call_CAN_SetHwParam
  dsimp only; split <;> simp [recoveries_append, recoveries]

theorem clear_busoff_fill_queries (e : Env) (s : State) :
    fill_queries (pcan_clear_busoff e s).trace = fill_queries s.trace ∧
    (pcan_clear_busoff e s).nGetClientParam = s.nGetClientParam := by
  unfold pcan_clear_busoff call_Sleep call_CAN_ResetHardware call_CAN_SetHwParam
  dsimp only; split <;> simp [fill_queries_append, fill_queries]

/-- The 32-bit expression of pcan.c 513 is `(C - F) * 8` modulo `2 ^ 32`. -/
theorem headroom_code_eq (C F : Nat) (hC : C < 2 ^ 32) (hF : F < 2 ^ 32) :
    (((C + 2 ^ 32 - F % 2 ^ 32) % 2 ^ 32 * 8 % 2 ^ 32 : Nat) : Int) = headroom32 C F := by
  unfold headroom32
  have h32 : (2 : Nat) ^ 32 = 4294967296 := by norm_num
  have h32i : (2 : Int) ^ 32 = 4294967296 := by norm_num
  rw [h32] at hC hF ⊢
  rw [h32i]
  omega

/-- The value `pcan_sendbuffer` returns when the (adjusted) status is OK. -/
theorem sendbuffer_ok (e : Env) (s : State)
    (h : e.CAN_Status s.nStatus = CAN_ERR_OK ∨ e.CAN_Status s.nStatus = CAN_ERR_ILLHW) :
    pcan_sendbuffer e s =
      (((s.pcan.xmtqueue_size + 2 ^ 32 - (e.CAN_GetClientParam s.nGetClientParam).2 % 2 ^ 32)
          % 2 ^ 32 * 8) % 2 ^ 32,
       { s with nStatus := s.nStatus + 1, nGetClientParam := s.nGetClientParam + 1,
                trace := s.trace ++ [Event.CAN_Status s.pcan.hw] ++
                  [Event.CAN_GetClientParam s.pcan.client CAN_PARAM_XMTQUEUEFILL] }) := by
  have hadj : (if e.CAN_Status s.nStatus = CAN_ERR_ILLHW then CAN_ERR_OK
      else e.CAN_Status s.nStatus) = CAN_ERR_OK := by
    rcases h with h | h
    · rw [h]; rfl
    · rw [if_pos h]
  have h1 : ¬ (CAN_ERR_OK &&& CAN_ERR_BUSOFF ≠ 0) := by decide
  have h2 : ¬ (CAN_ERR_OK ≠ CAN_ERR_OK) := by simp
  unfold pcan_sendbuffer
  simp only [call_CAN_Status, hadj, if_neg h1, if_neg h2, call_CAN_GetClientParam]

/-- With any other status `pcan_sendbuffer` returns 0. -/
theorem sendbuffer_not_ok (e : Env) (s : State)
    (h1 : e.CAN_Status s.nStatus ≠ CAN_ERR_OK) (h2 : e.CAN_Status s.nStatus ≠ CAN_ERR_ILLHW) :
    (pcan_sendbuffer e s).1 = 0 := by
  unfold pcan_sendbuffer
  simp only [call_CAN_Status, if_neg h2]
  by_cases hb : e.CAN_Status s.nStatus &&& CAN_ERR_BUSOFF ≠ 0
  · rw [if_pos hb]
  · rw [if_neg hb, if_pos h1]

/-- Claim C6. Headroom: for every cached capacity C and every fill F the driver
reports (both 32-bit values), `pcan_sendbuffer` returns at most `(C - F) * 8`
(in 32-bit unsigned arithmetic) whatever the hardware status is, and exactly
that value when the status is `CAN_ERR_OK`; when F ≤ C and the product fits 32
bits this is the natural number `(C - F) * 8`. -/
theorem C6_headroom (e : Env) (s : State)
    (hC : s.pcan.xmtqueue_size < 2 ^ 32)
    (hF : (e.CAN_GetClientParam s.nGetClientParam).2 < 2 ^ 32) :
    ((pcan_sendbuffer e s).1 : Int) ≤
      headroom32 s.pcan.xmtqueue_size (e.CAN_GetClientParam s.nGetClientParam).2 ∧
    (e.CAN_Status s.nStatus = CAN_ERR_OK →
      ((pcan_sendbuffer e s).1 : Int) =
        headroom32 s.pcan.xmtqueue_size (e.CAN_GetClientParam s.nGetClientParam).2) ∧
    (e.CAN_Status s.nStatus = CAN_ERR_OK →
      (e.CAN_GetClientParam s.nGetClientParam).2 ≤ s.pcan.xmtqueue_size →
      (s.pcan.xmtqueue_size - (e.CAN_GetClientParam s.nGetClientParam).2) * 8 < 2 ^ 32 →
      (pcan_sendbuffer e s).1 =
        (s.pcan.xmtqueue_size - (e.CAN_GetClientParam s.nGetClientParam).2) * 8) := by
  have hcode := headroom_code_eq _ _ hC hF
  have hnonneg : 0 ≤ headroom32 s.pcan.xmtqueue_size (e.CAN_GetClientParam s.nGetClientParam).2 := by
    rw [← hcode]; exact Int.natCast_nonneg _
  refine ⟨?_, ?_, ?_⟩
  · by_cases hst : e.CAN_Status s.nStatus = CAN_ERR_OK ∨ e.CAN_Status s.nStatus = CAN_ERR_ILLHW
    · rw [sendbuffer_ok e s hst]
      exact le_of_eq hcode
    · rw [sendbuffer_not_ok e s (fun hh => hst (Or.inl hh)) (fun hh => hst (Or.inr hh))]
      exact hnonneg
  · intro hst
    rw [sendbuffer_ok e s (Or.inl hst)]
    exact hcode
  · intro hst hle hfit
    rw [sendbuffer_ok e s (Or.inl hst)]
    have h32 : (2 : Nat) ^ 32 = 4294967296 := by norm_num
    rw [h32] at hC hF hfit ⊢
    dsimp only
    omega

theorem C6_headroom_witness :
    ((pcan_sendbuffer env_fill state0).1 : Int) ≤
      headroom32 state0.pcan.xmtqueue_size (env_fill.CAN_GetClientParam state0.nGetClientParam).2 ∧
    (env_fill.CAN_Status state0.nStatus = CAN_ERR_OK →
      ((pcan_sendbuffer env_fill state0).1 : Int) =
        headroom32 state0.pcan.xmtqueue_size
          (env_fill.CAN_GetClientParam state0.nGetClientParam).2) ∧
    (env_fill.CAN_Status state0.nStatus = CAN_ERR_OK →
      (env_fill.CAN_GetClientParam state0.nGetClientParam).2 ≤ state0.pcan.xmtqueue_size →
      (state0.pcan.xmtqueue_size - (env_fill.CAN_GetClientParam state0.nGetClientParam).2) * 8
        < 2 ^ 32 →
      (pcan_sendbuffer env_fill state0).1 =
        (state0.pcan.xmtqueue_size - (env_fill.CAN_GetClientParam state0.nGetClientParam).2) * 8) :=
  C6_headroom env_fill state0 (by decide) (by decide)

/-- Claim C7. Bus-off at the readiness query: for every hardware status whose
bus-off bit (`CAN_ERR_BUSOFF`, 0x10) is set, `pcan_sendbuffer` returns 0, its
effect is the status query, the log message and one `pcan_clear_busoff` (so
exactly one recovery), and it does not query the transmit-queue fill. -/
theorem C7_busoff_at_query (e : Env) (s : State)
    (h : e.CAN_Status s.nStatus &&& CAN_ERR_BUSOFF ≠ 0) :
    (pcan_sendbuffer e s).1 = 0 ∧
    (pcan_sendbuffer e s).2 =
      pcan_clear_busoff e (call_logeventf (call_CAN_Status e s s.pcan.hw).2 fmt_busoff []) ∧
    recoveries (pcan_sendbuffer e s).2.trace = recoveries s.trace + 1 ∧
    fill_queries (pcan_sendbuffer e s).2.trace = fill_queries s.trace ∧
    (pcan_sendbuffer e s).2.nGetClientParam = s.nGetClientParam := by
  have hne : e.CAN_Status s.nStatus ≠ CAN_ERR_ILLHW := by
    intro hh; rw [hh] at h; exact h (by decide)
  have hrun : pcan_sendbuffer e s =
      (0, pcan_clear_busoff e (call_logeventf (call_CAN_Status e s s.pcan.hw).2 fmt_busoff [])) := by
    unfold pcan_sendbuffer
    simp only [call_CAN_Status, if_neg hne, if_pos h]
  rw [hrun]
  refine ⟨rfl, rfl, ?_, ?_, ?_⟩
  · rw [clear_busoff_recoveries]
    simp [call_logeventf, call_CAN_Status, recoveries_append, recoveries]
  · rw [(clear_busoff_fill_queries _ _).1]
    simp [call_logeventf, call_CAN_Status, fill_queries_append, fill_queries]
  · rw [(clear_busoff_fill_queries _ _).2]
    rfl

theorem C7_busoff_at_query_witness :
    (pcan_sendbuffer env_busoff state0).1 = 0 ∧
    (pcan_sendbuffer env_busoff state0).2 =
      pcan_clear_busoff env_busoff
        (call_logeventf (call_CAN_Status env_busoff state0 state0.pcan.hw).2 fmt_busoff []) ∧
    recoveries (pcan_sendbuffer env_busoff state0).2.trace = recoveries state0.trace + 1 ∧
    fill_queries (pcan_sendbuffer env_busoff state0).2.trace = fill_queries state0.trace ∧
    (pcan_sendbuffer env_busoff state0).2.nGetClientParam = state0.nGetClientParam :=
  C7_busoff_at_query env_busoff state0 (by decide)

/-- Claim C8. Virtual network readiness: when the status query returns
`CAN_ERR_ILLHW`, `pcan_sendbuffer` behaves as for `CAN_ERR_OK`: it invokes no
recovery, queries the fill, and returns the same value `(C - F) * 8` it returns
when the status is `CAN_ERR_OK` with the same capacity and fill. -/
theorem C8_virtual_net_ready (e : Env) (s : State)
    (h : e.CAN_Status s.nStatus = CAN_ERR_ILLHW) :
    pcan_sendbuffer e s = pcan_sendbuffer { e with CAN_Status := fun _ => CAN_ERR_OK } s ∧
    recoveries (pcan_sendbuffer e s).2.trace = recoveries s.trace ∧
    fill_queries (pcan_sendbuffer e s).2.trace = fill_queries s.trace + 1 ∧
    (s.pcan.xmtqueue_size < 2 ^ 32 → (e.CAN_GetClientParam s.nGetClientParam).2 < 2 ^ 32 →
      ((pcan_sendbuffer e s).1 : Int) =
        headroom32 s.pcan.xmtqueue_size (e.CAN_GetClientParam s.nGetClientParam).2) := by
  have h1 := sendbuffer_ok e s (Or.inr h)
  have h2 := sendbuffer_ok { e with CAN_Status := fun _ => CAN_ERR_OK } s (Or.inl rfl)
  refine ⟨by rw [h1, h2], ?_, ?_, ?_⟩
  · rw [h1]; simp [recoveries_append, recoveries]
  · rw [h1]; simp [fill_queries_append, fill_queries]
  · intro hC hF
    rw [h1]
    exact headroom_code_eq _ _ hC hF

theorem C8_virtual_net_ready_witness :
    pcan_sendbuffer env_vcan state0 =
      pcan_sendbuffer { env_vcan with CAN_Status := fun _ => CAN_ERR_OK } state0 ∧
    recoveries (pcan_sendbuffer env_vcan state0).2.trace = recoveries state0.trace ∧
    fill_queries (pcan_sendbuffer env_vcan state0).2.trace = fill_queries state0.trace + 1 ∧
    (state0.pcan.xmtqueue_size < 2 ^ 32 →
      (env_vcan.CAN_GetClientParam state0.nGetClientParam).2 < 2 ^ 32 →
      ((pcan_sendbuffer env_vcan state0).1 : Int) =
        headroom32 state0.pcan.xmtqueue_size
          (env_vcan.CAN_GetClientParam state0.nGetClientParam).2) :=
  C8_virtual_net_ready env_vcan state0 rfl

/-! ## Network scan -/

theorem strcmp_eq_zero (a b : List Char) : strcmp a b = 0 ↔ a = b := by
  induction a generalizing b with
  | nil => cases b <;> simp [strcmp]
  | cons x s ih =>
    cases b with
    | nil => simp [strcmp]
    | cons y t =>
      by_cases hxy : x = y
      · simp [strcmp, hxy, ih]
      · have : (if x.toNat < y.toNat then (-1 : Int) else 1) ≠ 0 := by split <;> decide
        simp [strcmp, hxy, this]

/-- The scan loop from handle `i` over `n` handles finds the name iff one of
the handles `i .. i+n-1` answers OK with that name. -/
theorem find_net_loop_iff (names : NetNames) (netname : List Char) :
    ∀ (n i : Nat) (s : State),
      (pcan_find_net_loop names netname n i s).1 = true ↔
        ∃ j, i ≤ j ∧ j < i + n ∧ (names j).1 = CAN_ERR_OK ∧ (names j).2 = netname := by
  intro n
  induction n with
  | zero =>
    intro i s
    simp only [pcan_find_net_loop]
    constructor
    · intro h; cases h
    · rintro ⟨j, h1, h2, _⟩; omega
  | succ n ih =>
    intro i s
    rw [pcan_find_net_loop]
    simp only [call_CAN_GetNetParam_NAME]
    by_cases hok : (names i).1 = CAN_ERR_OK
    · rw [if_pos hok]
      by_cases hname : strcmp (names i).2 netname = 0
      · rw [if_pos hname]
        exact ⟨fun _ => ⟨i, le_refl _, by omega, hok, (strcmp_eq_zero _ _).1 hname⟩, fun _ => rfl⟩
      · rw [if_neg hname, ih]
        constructor
        · rintro ⟨j, h1, h2, h3, h4⟩
          exact ⟨j, by omega, by omega, h3, h4⟩
        · rintro ⟨j, h1, h2, h3, h4⟩
          have hji : j ≠ i := by
            intro hh; subst hh
            exact hname ((strcmp_eq_zero _ _).2 h4)
          exact ⟨j, by omega, by omega, h3, h4⟩
    · rw [if_neg hok, ih]
      constructor
      · rintro ⟨j, h1, h2, h3, h4⟩
        exact ⟨j, by omega, by omega, h3, h4⟩
      · rintro ⟨j, h1, h2, h3, h4⟩
        have hji : j ≠ i := by
          intro hh; subst hh
          exact hok h3
        exact ⟨j, by omega, by omega, h3, h4⟩

/-- Claim C10. Network scan with gaps: for every assignment of driver answers
to the net handles, `pcan_find_net` returns true iff some handle in 1..32
answers the name query with `CAN_ERR_OK` and a name equal to the target
(exact, hence case-sensitive, comparison); handles that answer with an error
never stop the scan: if handle 7 answers OK with the target name the result is
true whatever the other handles answer, and a name that differs only in case
does not match. -/
theorem C10_network_scan (names : NetNames) (s : State) (netname : List Char) :
    ((pcan_find_net names s netname).1 = true ↔
      ∃ i, 1 ≤ i ∧ i ≤ MAX_HCANNET ∧ (names i).1 = CAN_ERR_OK ∧ (names i).2 = netname) ∧
    (names 7 = (CAN_ERR_OK, netname) → (pcan_find_net names s netname).1 = true) ∧
    (pcan_find_net (fun _ => (CAN_ERR_OK, ['c', 'a', 'n', '1'])) s ['C', 'A', 'N', '1']).1
      = false := by
  have key : ∀ (nm : NetNames) (t : List Char),
      (pcan_find_net nm s t).1 = true ↔
        ∃ i, 1 ≤ i ∧ i ≤ MAX_HCANNET ∧ (nm i).1 = CAN_ERR_OK ∧ (nm i).2 = t := by
    intro nm t
    unfold pcan_find_net
    rw [find_net_loop_iff]
    constructor
    · rintro ⟨j, h1, h2, h3, h4⟩
      exact ⟨j, h1, by omega, h3, h4⟩
    · rintro ⟨j, h1, h2, h3, h4⟩
      exact ⟨j, h1, by omega, h3, h4⟩
  refine ⟨key names netname, ?_, ?_⟩
  · intro h7
    exact (key names netname).2 ⟨7, by decide, by decide, by rw [h7], by rw [h7]⟩
  · cases hres : (pcan_find_net (fun _ => (CAN_ERR_OK, ['c', 'a', 'n', '1'])) s
        ['C', 'A', 'N', '1']).1
    · rfl
    · obtain ⟨i, _, _, _, h4⟩ := (key _ _).1 hres
      exact absurd h4 (by decide)

/-- The example of the spec: only the handles 3, 7 and 20 are populated (all
others answer with an error) and handle 7 carries the target name. -/
theorem C10_network_scan_witness :
    (pcan_find_net (fun i => if i = 7 then (CAN_ERR_OK, ['C', 'A', 'N', '1'])
        else if i = 3 then (CAN_ERR_OK, ['C', 'A', 'N', '0'])
        else if i = 20 then (CAN_ERR_OK, ['c', 'a', 'n', '1'])
        else (CAN_ERR_ILLNET, [])) state0 ['C', 'A', 'N', '1']).1 = true :=
  (C10_network_scan _ state0 ['C', 'A', 'N', '1']).2.1 rfl

/-! ## Configuration parsing -/

/-- The first piece of a split is the run before the first separator; the
other pieces are the split of what follows that separator. -/
theorem splitOnP_eq (p : Char → Bool) (s : List Char) :
    s.splitOnP p = s.takeWhile (fun c => !p c) ::
      (match s.dropWhile (fun c => !p c) with
       | [] => []
       | _ :: t => t.splitOnP p) := by
  induction s with
  | nil => simp [List.splitOnP_nil]
  | cons x xs ih =>
    rw [List.splitOnP_cons]
    by_cases hx : p x = true
    · simp [hx]
    · simp only [hx, if_false]
      rw [ih]
      simp [List.modifyHead, hx]

theorem split_filter_dropWhile (p : Char → Bool) (s : List Char) :
    ((s.dropWhile p).splitOnP p).filter (fun t => t ≠ []) =
      (s.splitOnP p).filter (fun t => t ≠ []) := by
  induction s with
  | nil => rfl
  | cons x xs ih =>
    by_cases hx : p x = true
    · rw [List.dropWhile_cons_of_pos hx, ih, List.splitOnP_cons, if_pos hx]
      rfl
    · rw [List.dropWhile_cons_of_neg hx]

/-- The non-empty pieces of a split: skip leading separators; the first piece
runs to the next separator, the others come from what follows it. -/
theorem first_token (p : Char → Bool) (s : List Char) :
    (s.splitOnP p).filter (fun t => t ≠ []) =
      match s.dropWhile p with
      | [] => []
      | c :: t =>
        (c :: t).takeWhile (fun c => !p c) ::
          ((((c :: t).dropWhile (fun c => !p c)).drop 1).splitOnP p).filter (fun t => t ≠ []) := by
  rw [← split_filter_dropWhile]
  cases hs : s.dropWhile p with
  | nil => rfl
  | cons c t =>
    have hc : p c = false := by
      have := List.head_dropWhile_not p s (by rw [hs]; exact List.cons_ne_nil _ _)
      simpa only [hs, List.head_cons] using this
    simp only []
    have hne : (c :: t).takeWhile (fun c => !p c) ≠ [] := by
      rw [List.takeWhile_cons]; simp [hc]
    rw [splitOnP_eq, List.filter_cons]
    simp only [hne, ne_eq, not_false_eq_true, decide_True, if_true]
    congr 1
    cases hd : (c :: t).dropWhile (fun c => !p c) with
    | nil => rfl
    | cons y t2 => rfl

theorem tokens_nil (d : List Char) : tokens d [] = [] := rfl

/-- `strtok` returns the first token and leaves the string holding the other tokens. -/
theorem strtok_tokens (d : List Char) (s : List Char) :
    tokens d s =
      match (strtok d s).1 with
      | none => []
      | some t => t :: tokens d (strtok d s).2 := by
  unfold tokens strtok
  rw [first_token]
  cases hs : s.dropWhile (fun c => d.contains c) with
  | nil => rfl
  | cons c t => rfl

theorem strtok_nil (d : List Char) : strtok d [] = (none, []) := rfl

theorem strtok_none (d : List Char) (s : List Char) (h : (strtok d s).1 = none) :
    (strtok d s).2 = [] := by
  unfold strtok at h ⊢
  cases hs : s.dropWhile (fun c => d.contains c) with
  | nil => rfl
  | cons c t => rw [hs] at h; simp at h

/-- `pcan_get_config` in terms of the tokens of the configuration string. -/
theorem get_config_eq (pcan : PCAN) (conf : Conf) :
    pcan_get_config pcan conf =
      match tokens delims conf.pcan with
      | t0 :: t1 :: t2 :: _ =>
        (0, { pcan with netname := t0
                        rxid := strtoul t1 % 2 ^ 32
                        txid := strtoul t2 % 2 ^ 32
                        bitrate := conf.pcanbitrate })
      | _ => (-1, pcan) := by
  have e1 := strtok_tokens delims conf.pcan
  have e2 := strtok_tokens delims (strtok delims conf.pcan).2
  have e3 := strtok_tokens delims (strtok delims (strtok delims conf.pcan).2).2
  unfold pcan_get_config
  dsimp only
  cases h1 : (strtok delims conf.pcan).1 with
  | none =>
    rw [h1] at e1
    simp only [e1]
  | some snet =>
    rw [h1] at e1
    cases h2 : (strtok delims (strtok delims conf.pcan).2).1 with
    | none =>
      rw [h2] at e2
      simp only [e1, e2]
    | some srxid =>
      rw [h2] at e2
      cases h3 : (strtok delims (strtok delims (strtok delims conf.pcan).2).2).1 with
      | none =>
        rw [h3] at e3
        simp only [e1, e2, e3]
      | some stxid =>
        rw [h3] at e3
        simp only [e1, e2, e3]

/-- Replacing separators by separators does not change the tokens. -/
theorem tokens_sepEquiv (d : List Char) (s1 s2 : List Char) (h : SepEquiv d s1 s2) :
    tokens d s1 = tokens d s2 := by
  have hsplit : s1.splitOnP (fun c => d.contains c) = s2.splitOnP (fun c => d.contains c) := by
    unfold SepEquiv at h
    induction h with
    | nil => rfl
    | @cons a b l1 l2 hab _ ih =>
      rw [List.splitOnP_cons, List.splitOnP_cons, ih]
      rcases hab with rfl | ⟨ha, hb⟩
      · rfl
      · have h1 : d.contains a = true := by simpa using ha
        have h2 : d.contains b = true := by simpa using hb
        rw [if_pos h1, if_pos h2]
  unfold tokens
  rw [hsplit]

/-! ### `strtoul` on integer literals -/

theorem positional_cons (base : Nat) (c : Char) (t : List Char) :
    positional base (c :: t) = (digitVal c).getD 0 * base ^ t.length + positional base t := by
  unfold positional
  rw [List.reverse_cons, List.map_append, Nat.ofDigits_append]
  simp [Nat.ofDigits_singleton, Nat.mul_comm, Nat.add_comm]

/-- On a run of valid digits the digit loop of `strtoul` computes the positional value. -/
theorem strtoul_digits_all (base : Nat) :
    ∀ (l : List Char) (acc : Nat),
      (∀ c ∈ l, ∃ d, digitVal c = some d ∧ d < base) →
      strtoul_digits base l acc = acc * base ^ l.length + positional base l := by
  intro l
  induction l with
  | nil => intro acc _; simp [strtoul_digits, positional]
  | cons c t ih =>
    intro acc h
    obtain ⟨d, hd, hlt⟩ := h c (List.mem_cons_self _ _)
    rw [strtoul_digits]
    simp only [hd, if_pos hlt]
    rw [ih _ (fun c hc => h c (List.mem_cons_of_mem _ hc)), positional_cons, hd]
    simp only [Option.getD_some, List.length_cons, Nat.pow_succ]
    ring

theorem digitVal_decimal (c : Char) (h : 48 ≤ c.toNat ∧ c.toNat ≤ 57) :
    ∃ d, digitVal c = some d ∧ d < 10 := by
  refine ⟨c.toNat - 48, ?_, by omega⟩
  unfold digitVal
  rw [if_pos h]

theorem digitVal_hex (c : Char) (h : IsHexDigit c) : ∃ d, digitVal c = some d ∧ d < 16 := by
  unfold IsHexDigit at h
  unfold digitVal
  rcases h with h | h | h
  · exact ⟨c.toNat - 48, by rw [if_pos h], by omega⟩
  · have h1 : ¬ (48 ≤ c.toNat ∧ c.toNat ≤ 57) := by omega
    have h2 : 97 ≤ c.toNat ∧ c.toNat ≤ 122 := by omega
    exact ⟨c.toNat - 87, by rw [if_neg h1, if_pos h2], by omega⟩
  · have h1 : ¬ (48 ≤ c.toNat ∧ c.toNat ≤ 57) := by omega
    have h2 : ¬ (97 ≤ c.toNat ∧ c.toNat ≤ 122) := by omega
    have h3 : 65 ≤ c.toNat ∧ c.toNat ≤ 90 := by omega
    exact ⟨c.toNat - 55, by rw [if_neg h1, if_neg h2, if_pos h3], by omega⟩

theorem strtoul_base0_nonzero (c : Char) (t : List Char) (h : c ≠ '0') :
    strtoul_base0 (c :: t) = strtoul_digits 10 (c :: t) 0 := by
  unfold strtoul_base0
  split
  · rename_i heq; exact absurd (List.cons.inj heq).1 h
  · rename_i heq; exact absurd (List.cons.inj heq).1 h
  · rfl

theorem strtoul_base0_hex (x h : Char) (t : List Char) (hx : x = 'x' ∨ x = 'X')
    (hh : ∃ d, digitVal h = some d ∧ d < 16) :
    strtoul_base0 ('0' :: x :: h :: t) = strtoul_digits 16 (h :: t) 0 := by
  obtain ⟨d, hd, hlt⟩ := hh
  have hany : (digitVal h).any (fun d => decide (d < 16)) = true := by
    rw [hd]; simpa using hlt
  unfold strtoul_base0
  simp only [hx, hany, and_self, if_true]

/-- `strtoul` of a string that starts with a digit: no white space, no sign. -/
theorem strtoul_digit_start (c : Char) (t : List Char) (h : 48 ≤ c.toNat ∧ c.toNat ≤ 57) :
    strtoul (c :: t) =
      if strtoul_base0 (c :: t) > ULONG_MAX then ULONG_MAX else strtoul_base0 (c :: t) := by
  have hsp : ¬ isspace c = true := by
    unfold isspace; simp only [decide_eq_true_eq]; omega
  have hm : c ≠ '-' := by
    intro hh; rw [hh] at h; revert h; decide
  have hp : c ≠ '+' := by
    intro hh; rw [hh] at h; revert h; decide
  unfold strtoul
  rw [List.dropWhile_cons_of_neg hsp]
  simp only [List.head?_cons, Option.some.injEq, hm, hp, or_self, if_false]

/-- Reading a C integer literal (decimal or `0x` hexadecimal) whose value fits
32 bits with `strtoul` and keeping 32 bits gives its value. -/
theorem strtoul_literal (t : List Char) (v : Nat) (hlit : IsIntLiteral t v) (hv : v < 2 ^ 32) :
    strtoul t % 2 ^ 32 = v := by
  have hU : ULONG_MAX = 2 ^ 32 - 1 := rfl
  have h32 : (2 : Nat) ^ 32 = 4294967296 := by norm_num
  rcases hlit with ⟨⟨hne, hdig, hlead⟩, hval⟩ | ⟨x, ds, ht, hx, hne, hdig, hval⟩
  · cases t with
    | nil => exact absurd rfl hne
    | cons c t =>
      have hc := hdig c (List.mem_cons_self _ _)
      rw [strtoul_digit_start c t hc]
      have hb : strtoul_base0 (c :: t) = v := by
        by_cases hz : c = '0'
        · rcases hlead with hl | hl
          · exact absurd (by rw [hz]; rfl) hl
          · rw [hl] at hval ⊢
            rw [hval]; decide
        · rw [strtoul_base0_nonzero c t hz,
            strtoul_digits_all 10 _ 0 (fun c hc => digitVal_decimal c (hdig c hc)), hval]
          simp
      rw [hb, hU, h32] at *
      have : ¬ v > 4294967296 - 1 := by omega
      rw [if_neg this]; omega
  · cases ds with
    | nil => exact absurd rfl hne
    | cons h ds =>
      subst ht
      rw [strtoul_digit_start '0' _ (by decide),
        strtoul_base0_hex x h ds hx (digitVal_hex h (hdig h (List.mem_cons_self _ _))),
        strtoul_digits_all 16 _ 0 (fun c hc => digitVal_hex c (hdig c hc))]
      simp only [Nat.zero_mul, Nat.zero_add, ← hval]
      rw [hU, h32] at *
      have : ¬ v > 4294967296 - 1 := by omega
      rw [if_neg this]; omega

/-- Claim C9. Configuration parsing: `pcan_get_config` depends on the
configuration string only through its tokens, the non-empty pieces between the
separators space, comma, semicolon and colon, so replacing any separator by
another of the four never changes the result; it returns -1 iff there are fewer
than three tokens (and 0 otherwise); with at least three tokens `netname` is
the first token and `rxid`, `txid` are the values of the second and third
tokens whenever these are C integer literals (decimal, or hexadecimal with a
`0x` prefix) with a 32-bit value, bit 31 (`0x80000000`) included. -/
theorem C9_config_parsing (pcan : PCAN) (conf : Conf) :
    (∀ cfg2, SepEquiv delims conf.pcan cfg2 →
      pcan_get_config pcan { conf with pcan := cfg2 } = pcan_get_config pcan conf) ∧
    ((pcan_get_config pcan conf).1 = -1 ↔ (tokens delims conf.pcan).length < 3) ∧
    ((pcan_get_config pcan conf).1 = 0 ↔ 3 ≤ (tokens delims conf.pcan).length) ∧
    (∀ t0 t1 t2 rest, tokens delims conf.pcan = t0 :: t1 :: t2 :: rest →
      (pcan_get_config pcan conf).1 = 0 ∧
      (pcan_get_config pcan conf).2.netname = t0 ∧
      (∀ v, IsIntLiteral t1 v → v < 2 ^ 32 → (pcan_get_config pcan conf).2.rxid = v) ∧
      (∀ v, IsIntLiteral t2 v → v < 2 ^ 32 → (pcan_get_config pcan conf).2.txid = v)) := by
  refine ⟨?_, ?_, ?_, ?_⟩
  · intro cfg2 h
    rw [get_config_eq, get_config_eq]
    simp only [tokens_sepEquiv delims conf.pcan cfg2 h]
  · rw [get_config_eq]
    rcases tokens delims conf.pcan with _ | ⟨t0, _ | ⟨t1, _ | ⟨t2, rest⟩⟩⟩ <;> simp
  · rw [get_config_eq]
    rcases tokens delims conf.pcan with _ | ⟨t0, _ | ⟨t1, _ | ⟨t2, rest⟩⟩⟩ <;> simp
  · intro t0 t1 t2 rest htok
    rw [get_config_eq, htok]
    exact ⟨rfl, rfl, fun v hl hv => strtoul_literal t1 v hl hv,
      fun v hl hv => strtoul_literal t2 v hl hv⟩

/-- An instance: `CAN1; 291,0x80000456` gives net `CAN1`, rxid 291 (standard)
and txid 0x80000456 (extended, bit 31 kept). -/
theorem C9_config_parsing_witness :
    (pcan_get_config pcan0 conf1).1 = 0 ∧
    (pcan_get_config pcan0 conf1).2.netname = ['C', 'A', 'N', '1'] ∧
    (pcan_get_config pcan0 conf1).2.rxid = 291 ∧
    (pcan_get_config pcan0 conf1).2.txid = 0x80000456 := by
  obtain ⟨h0, hn, hrx, htx⟩ := (C9_config_parsing pcan0 conf1).2.2.2
    ['C', 'A', 'N', '1'] ['2', '9', '1'] ['0', 'x', '8', '0', '0', '0', '0', '4', '5', '6'] []
    (by decide)
  refine ⟨h0, hn, hrx 291 (Or.inl ⟨⟨by decide, by decide, by decide⟩, by decide⟩) (by decide),
    htx 0x80000456 (Or.inr ⟨'x', ['8', '0', '0', '0', '0', '4', '5', '6'], rfl, Or.inl rfl,
      by decide, by decide, by decide⟩) (by decide)⟩

/-! ## Setup -/

/-- The scan loop changes nothing but the trace, to which it adds its name queries. -/
theorem find_net_loop_state (names : NetNames) (netname : List Char) :
    ∀ (n i : Nat) (s : State),
      (pcan_find_net_loop names netname n i s).2 =
        { s with trace := s.trace ++ scan_events names netname n i } := by
  intro n
  induction n with
  | zero => intro i s; simp [pcan_find_net_loop, scan_events]
  | succ n ih =>
    intro i s
    rw [pcan_find_net_loop]
    simp only [call_CAN_GetNetParam_NAME, scan_events]
    by_cases hok : (names i).1 = CAN_ERR_OK
    · rw [if_pos hok]
      by_cases hname : strcmp (names i).2 netname = 0
      · have hn := (strcmp_eq_zero _ _).1 hname
        rw [if_pos hname, if_pos ⟨hok, hn⟩]
      · have hn : ¬ ((names i).1 = CAN_ERR_OK ∧ (names i).2 = netname) :=
          fun h => hname ((strcmp_eq_zero _ _).2 h.2)
        rw [if_neg hname, if_neg hn, ih]
        simp
    · have hn : ¬ ((names i).1 = CAN_ERR_OK ∧ (names i).2 = netname) := fun h => hok h.1
      rw [if_neg hok, if_neg hn, ih]
      simp

theorem find_net_state (names : NetNames) (s : State) (netname : List Char) :
    (pcan_find_net names s netname).2 =
      { s with trace := s.trace ++ scan_events names netname MAX_HCANNET 1 } :=
  find_net_loop_state names netname MAX_HCANNET 1 s

/-- Every call of the scan is a name query. -/
theorem scan_events_mem (names : NetNames) (netname : List Char) :
    ∀ (n i : Nat) (ev : Event), ev ∈ scan_events names netname n i →
      ∃ j, ev = Event.CAN_GetNetParam j CAN_PARAM_NAME := by
  intro n
  induction n with
  | zero => intro i ev h; simp [scan_events] at h
  | succ n ih =>
    intro i ev h
    rw [scan_events] at h
    rcases List.mem_cons.1 h with h | h
    · exact ⟨i, h⟩
    · split at h
      · cases h
      · exact ih _ _ h

theorem pcan_init_eq (e : Env) (s : State) (conf : Conf) :
    pcan_init e s conf =
      andThen (init_load e (init_alloc s)) fun s =>
        andThen (init_config conf s) (init_driver e) := rfl

theorem andThen_some (r : Option String × State) (k : State → Option String × State)
    (m : String) (h : r.1 = some m) : andThen r k = r := by
  simp only [andThen, h]

theorem andThen_none (r : Option String × State) (k : State → Option String × State)
    (h : r.1 = none) : andThen r k = k r.2 := by
  simp only [andThen, h]

/-- A stage that fails ends the run. -/
theorem runs_fail (r : Option String × State) (k : State → Option String × State)
    (tr0 : List Event) (steps : List Step) (evs : List Event) (m : String)
    (h1 : r.1 = some m) (h2 : r.2.trace = tr0 ++ evs) (h3 : run_steps steps = (evs, some m)) :
    Runs (andThen r k) tr0 steps := by
  rw [andThen_some r k m h1]
  exact ⟨by rw [h1, h3], by rw [h2, h3]⟩

/-- A stage that succeeds hands over to the stages after it. -/
theorem runs_ok (r : Option String × State) (k : State → Option String × State)
    (tr0 : List Event) (steps rest : List Step) (pre : List Event)
    (h1 : r.1 = none) (h2 : r.2.trace = tr0 ++ pre)
    (h3 : run_steps steps = (pre ++ (run_steps rest).1, (run_steps rest).2))
    (h4 : Runs (k r.2) r.2.trace rest) :
    Runs (andThen r k) tr0 steps := by
  rw [andThen_none r k h1]
  refine ⟨by rw [h4.1, h3], ?_⟩
  rw [h4.2, h2, h3, List.append_assoc]

theorem runs_finish (e : Env) (t : State) :
    Runs (init_from_finish e t) t.trace [step_finish t.pcan.client] := by
  simp [Runs, init_from_finish, init_finish, call_CAN_GetClientParam,
    call_seat_update_specials_menu, run_steps, step_finish]

theorem runs_poller (e : Env) (t : State) :
    Runs (init_from_poller e t) t.trace
      [step_poller (e.CreateEvent t.nCreateEvent) (e.CreateThread t.nCreateThread),
       step_finish t.pcan.client] := by
  have htr : (init_poller e t).2.trace = t.trace ++
      (step_poller (e.CreateEvent t.nCreateEvent) (e.CreateThread t.nCreateThread)).calls := by
    simp only [init_poller, store_rxthread_running, call_CreateEvent, call_add_handle_wait,
      call_CreateThread, step_poller]
    split <;> simp
  have hcl : (init_poller e t).2.pcan.client = t.pcan.client := by
    simp only [init_poller, store_rxthread_running, call_CreateEvent, call_add_handle_wait,
      call_CreateThread]
    split <;> rfl
  unfold init_from_poller
  by_cases h : e.CreateEvent t.nCreateEvent ≠ 0 ∧ e.CreateThread t.nCreateThread ≠ 0
  · have h1 : (init_poller e t).1 = none := by
      have h' : ¬ (e.CreateEvent t.nCreateEvent = 0 ∨ e.CreateThread t.nCreateThread = 0) := by
        rintro (hh | hh)
        · exact h.1 hh
        · exact h.2 hh
      simp only [init_poller, store_rxthread_running, call_CreateEvent, call_add_handle_wait,
        call_CreateThread, if_neg h']
    refine runs_ok _ _ _ _ [step_finish t.pcan.client] _ h1 htr ?_ ?_
    · simp only [run_steps, step_poller, if_pos h]
    · have := runs_finish e (init_poller e t).2
      rw [hcl] at this
      exact this
  · have h1 : (init_poller e t).1 = some err_thread := by
      have h' : e.CreateEvent t.nCreateEvent = 0 ∨ e.CreateThread t.nCreateThread = 0 := by
        by_cases h0 : e.CreateEvent t.nCreateEvent = 0
        · exact Or.inl h0
        · right
          by_contra h2
          exact h ⟨h0, h2⟩
      simp only [init_poller, store_rxthread_running, call_CreateEvent, call_add_handle_wait,
        call_CreateThread, if_pos h']
    refine runs_fail _ _ _ _ _ err_thread h1 htr ?_
    simp only [run_steps, step_poller, if_neg h]

theorem runs_timerfix (e : Env) (t : State) :
    Runs (init_from_timerfix e t) t.trace
      [step_timerfix t.pcan.client,
       step_poller (e.CreateEvent t.nCreateEvent) (e.CreateThread t.nCreateThread),
       step_finish t.pcan.client] := by
  unfold init_from_timerfix
  refine runs_ok _ _ _ _
    [step_poller (e.CreateEvent t.nCreateEvent) (e.CreateThread t.nCreateThread),
     step_finish t.pcan.client]
    [Event.CAN_SetClientParam t.pcan.client CAN_PARAM_TIMERFIX 1] rfl rfl rfl ?_
  exact runs_poller e _

theorem runs_bitrate (e : Env) (t : State) :
    Runs (init_from_bitrate e t) t.trace
      [step_bitrate t.pcan.hw t.pcan.bitrate (e.CAN_SetHwParam t.nSetHwParam),
       step_timerfix t.pcan.client,
       step_poller (e.CreateEvent t.nCreateEvent) (e.CreateThread t.nCreateThread),
       step_finish t.pcan.client] := by
  unfold init_from_bitrate
  by_cases hb : t.pcan.bitrate > 0
  · by_cases hc : pcan_calc_bitrate_reg_value t.pcan.bitrate > 0
    · have hb' : ¬ t.pcan.bitrate ≤ 0 := by omega
      have hc' : ¬ pcan_calc_bitrate_reg_value t.pcan.bitrate ≤ 0 := by omega
      by_cases hok : e.CAN_SetHwParam t.nSetHwParam = CAN_ERR_OK
      · have hst : init_bitrate e t = (none, (call_CAN_SetHwParam e t t.pcan.hw
            CAN_PARAM_BAUDRATE (pcan_calc_bitrate_reg_value t.pcan.bitrate).toNat).2) := by
          simp only [init_bitrate, if_pos hb, if_pos hc, call_CAN_SetHwParam, hok]
          simp
        rw [hst]
        refine runs_ok _ _ _ _
          [step_timerfix t.pcan.client,
           step_poller (e.CreateEvent t.nCreateEvent) (e.CreateThread t.nCreateThread),
           step_finish t.pcan.client]
          [Event.CAN_SetHwParam t.pcan.hw CAN_PARAM_BAUDRATE
            (pcan_calc_bitrate_reg_value t.pcan.bitrate).toNat] rfl rfl ?_ ?_
        · simp only [run_steps, step_bitrate, if_neg hb', if_neg hc', if_pos hok,
            if_pos (And.intro hb hc)]
        · exact runs_timerfix e _
      · have hst : init_bitrate e t = (some err_bitrate, (call_CAN_SetHwParam e t t.pcan.hw
            CAN_PARAM_BAUDRATE (pcan_calc_bitrate_reg_value t.pcan.bitrate).toNat).2) := by
          simp only [init_bitrate, if_pos hb, if_pos hc, call_CAN_SetHwParam]
          rw [if_pos hok]
        rw [hst]
        refine runs_fail _ _ _ _
          [Event.CAN_SetHwParam t.pcan.hw CAN_PARAM_BAUDRATE
            (pcan_calc_bitrate_reg_value t.pcan.bitrate).toNat] err_bitrate rfl rfl ?_
        simp only [run_steps, step_bitrate, if_neg hb', if_neg hc', if_neg hok,
          if_pos (And.intro hb hc)]
    · have hb' : ¬ t.pcan.bitrate ≤ 0 := by omega
      have hc' : pcan_calc_bitrate_reg_value t.pcan.bitrate ≤ 0 := by omega
      have hst : init_bitrate e t = (some err_bitrate, t) := by
        simp only [init_bitrate, if_pos hb, if_neg hc]
        rw [if_pos (by decide)]
      rw [hst]
      refine runs_fail _ _ _ _ [] err_bitrate rfl (by simp) ?_
      have hand : ¬ (0 < t.pcan.bitrate ∧ 0 < pcan_calc_bitrate_reg_value t.pcan.bitrate) :=
        fun h => hc h.2
      simp only [run_steps, step_bitrate, if_neg hb', if_pos hc', if_neg hand]
  · have hb' : t.pcan.bitrate ≤ 0 := by omega
    have hst : init_bitrate e t = (none, t) := by
      simp only [init_bitrate, if_neg hb]
      simp
    rw [hst]
    refine runs_ok _ _ _ _
      [step_timerfix t.pcan.client,
       step_poller (e.CreateEvent t.nCreateEvent) (e.CreateThread t.nCreateThread),
       step_finish t.pcan.client] [] rfl (by simp) ?_ ?_
    · have hand : ¬ (0 < t.pcan.bitrate ∧ 0 < pcan_calc_bitrate_reg_value t.pcan.bitrate) :=
        fun h => hb h.1
      simp only [run_steps, step_bitrate, if_pos hb', if_neg hand, List.nil_append]
    · exact runs_timerfix e t

theorem runs_filter (e : Env) (t : State) :
    Runs (init_from_filter e t) t.trace
      [step_filter_mode t.pcan.client (e.CAN_SetClientParam t.nSetClientParam),
       step_filter_id t.pcan.client t.pcan.net t.pcan.rxid (e.CAN_RegisterMsg t.nRegisterMsg),
       step_bitrate t.pcan.hw t.pcan.bitrate (e.CAN_SetHwParam t.nSetHwParam),
       step_timerfix t.pcan.client,
       step_poller (e.CreateEvent t.nCreateEvent) (e.CreateThread t.nCreateThread),
       step_finish t.pcan.client] := by
  unfold init_from_filter
  by_cases hm : e.CAN_SetClientParam t.nSetClientParam = CAN_ERR_OK
  · by_cases hr : e.CAN_RegisterMsg t.nRegisterMsg = CAN_ERR_OK
    · have hst : init_filter e t = (none,
          (call_CAN_RegisterMsg e
            (call_CAN_SetClientParam e t t.pcan.client CAN_PARAM_EXACT_11BIT_FILTER 1).2
            t.pcan.client t.pcan.net (filter_frame t.pcan.rxid) (filter_frame t.pcan.rxid)).2) := by
        simp only [init_filter, call_CAN_SetClientParam, call_CAN_RegisterMsg, hm, hr]
        simp
      rw [hst]
      refine runs_ok _ _ _ _
        [step_bitrate t.pcan.hw t.pcan.bitrate (e.CAN_SetHwParam t.nSetHwParam),
         step_timerfix t.pcan.client,
         step_poller (e.CreateEvent t.nCreateEvent) (e.CreateThread t.nCreateThread),
         step_finish t.pcan.client]
        [Event.CAN_SetClientParam t.pcan.client CAN_PARAM_EXACT_11BIT_FILTER 1,
         Event.CAN_RegisterMsg t.pcan.client t.pcan.net (filter_frame t.pcan.rxid)
           (filter_frame t.pcan.rxid)] rfl ?_ ?_ ?_
      · simp [call_CAN_RegisterMsg, call_CAN_SetClientParam]
      · simp only [run_steps, step_filter_mode, step_filter_id, if_pos hm, if_pos hr]
        simp
      · exact runs_bitrate e _
    · have hst : init_filter e t = (some err_filter,
          (call_CAN_RegisterMsg e
            (call_CAN_SetClientParam e t t.pcan.client CAN_PARAM_EXACT_11BIT_FILTER 1).2
            t.pcan.client t.pcan.net (filter_frame t.pcan.rxid) (filter_frame t.pcan.rxid)).2) := by
        simp only [init_filter, call_CAN_SetClientParam, call_CAN_RegisterMsg, hm, if_true]
        rw [if_pos hr]
      rw [hst]
      refine runs_fail _ _ _ _
        [Event.CAN_SetClientParam t.pcan.client CAN_PARAM_EXACT_11BIT_FILTER 1,
         Event.CAN_RegisterMsg t.pcan.client t.pcan.net (filter_frame t.pcan.rxid)
           (filter_frame t.pcan.rxid)] err_filter rfl ?_ ?_
      · simp [call_CAN_RegisterMsg, call_CAN_SetClientParam]
      · simp only [run_steps, step_filter_mode, step_filter_id, if_pos hm, if_neg hr]
        simp
  · have hst : init_filter e t = (some err_filter,
        (call_CAN_SetClientParam e t t.pcan.client CAN_PARAM_EXACT_11BIT_FILTER 1).2) := by
      simp only [init_filter, call_CAN_SetClientParam, if_neg hm]
      rw [if_pos hm]
    rw [hst]
    refine runs_fail _ _ _ _
      [Event.CAN_SetClientParam t.pcan.client CAN_PARAM_EXACT_11BIT_FILTER 1] err_filter
      rfl rfl ?_
    simp only [run_steps, step_filter_mode, if_neg hm]

theorem runs_hw (e : Env) (t : State) :
    Runs (init_from_hw e t) t.trace
      [step_hw t.pcan.net,
       step_filter_mode t.pcan.client (e.CAN_SetClientParam t.nSetClientParam),
       step_filter_id t.pcan.client t.pcan.net t.pcan.rxid (e.CAN_RegisterMsg t.nRegisterMsg),
       step_bitrate (e.CAN_GetNetParam_NETHW t.nGetNetParam_NETHW).2 t.pcan.bitrate
         (e.CAN_SetHwParam t.nSetHwParam),
       step_timerfix t.pcan.client,
       step_poller (e.CreateEvent t.nCreateEvent) (e.CreateThread t.nCreateThread),
       step_finish t.pcan.client] := by
  unfold init_from_hw
  refine runs_ok _ _ _ _
    [step_filter_mode t.pcan.client (e.CAN_SetClientParam t.nSetClientParam),
     step_filter_id t.pcan.client t.pcan.net t.pcan.rxid (e.CAN_RegisterMsg t.nRegisterMsg),
     step_bitrate (e.CAN_GetNetParam_NETHW t.nGetNetParam_NETHW).2 t.pcan.bitrate
       (e.CAN_SetHwParam t.nSetHwParam),
     step_timerfix t.pcan.client,
     step_poller (e.CreateEvent t.nCreateEvent) (e.CreateThread t.nCreateThread),
     step_finish t.pcan.client]
    [Event.CAN_GetNetParam t.pcan.net CAN_PARAM_NETHW] rfl rfl rfl ?_
  exact runs_filter e _

/-- The result of the scan is the spec-side "some handle carries the name". -/
theorem find_net_found (names : NetNames) (s : State) (netname : List Char) :
    (pcan_find_net names s netname).1 = true ↔ net_found names netname := by
  unfold pcan_find_net net_found
  rw [find_net_loop_iff]
  constructor
  · rintro ⟨j, h1, h2, h3, h4⟩
    exact ⟨j, h1, by omega, h3, h4⟩
  · rintro ⟨j, h1, h2, h3, h4⟩
    exact ⟨j, h1, by omega, h3, h4⟩

theorem runs_network (e : Env) (t : State) :
    Runs (init_from_network e t) t.trace
      [step_locate e.netnames t.pcan.netname,
       step_connect t.pcan.client t.pcan.netname (e.CAN_ConnectToNet t.nConnectToNet).1,
       step_hw (e.CAN_ConnectToNet t.nConnectToNet).2,
       step_filter_mode t.pcan.client (e.CAN_SetClientParam t.nSetClientParam),
       step_filter_id t.pcan.client (e.CAN_ConnectToNet t.nConnectToNet).2 t.pcan.rxid
         (e.CAN_RegisterMsg t.nRegisterMsg),
       step_bitrate (e.CAN_GetNetParam_NETHW t.nGetNetParam_NETHW).2 t.pcan.bitrate
         (e.CAN_SetHwParam t.nSetHwParam),
       step_timerfix t.pcan.client,
       step_poller (e.CreateEvent t.nCreateEvent) (e.CreateThread t.nCreateThread),
       step_finish t.pcan.client] := by
  unfold init_from_network
  by_cases hf : net_found e.netnames t.pcan.netname
  · have hf1 : (pcan_find_net e.netnames t t.pcan.netname).1 = true :=
      (find_net_found _ _ _).2 hf
    by_cases hc : (e.CAN_ConnectToNet t.nConnectToNet).1 = CAN_ERR_OK
    · have hst : init_network e t = (none,
          { t with pcan := { t.pcan with net := (e.CAN_ConnectToNet t.nConnectToNet).2 },
                   nConnectToNet := t.nConnectToNet + 1,
                   trace := t.trace ++ scan_events e.netnames t.pcan.netname MAX_HCANNET 1 ++
                     [Event.CAN_ConnectToNet t.pcan.client t.pcan.netname] }) := by
        simp only [init_network, hf1, if_true, call_CAN_ConnectToNet, find_net_state, hc]
        simp
      rw [hst]
      refine runs_ok _ _ _ _
        [step_hw (e.CAN_ConnectToNet t.nConnectToNet).2,
         step_filter_mode t.pcan.client (e.CAN_SetClientParam t.nSetClientParam),
         step_filter_id t.pcan.client (e.CAN_ConnectToNet t.nConnectToNet).2 t.pcan.rxid
           (e.CAN_RegisterMsg t.nRegisterMsg),
         step_bitrate (e.CAN_GetNetParam_NETHW t.nGetNetParam_NETHW).2 t.pcan.bitrate
           (e.CAN_SetHwParam t.nSetHwParam),
         step_timerfix t.pcan.client,
         step_poller (e.CreateEvent t.nCreateEvent) (e.CreateThread t.nCreateThread),
         step_finish t.pcan.client]
        (scan_events e.netnames t.pcan.netname MAX_HCANNET 1 ++
          [Event.CAN_ConnectToNet t.pcan.client t.pcan.netname]) rfl ?_ ?_ ?_
      · simp
      · simp only [run_steps, step_locate, step_connect, if_pos hf, if_pos hc]
        simp
      · exact runs_hw e _
    · have hst : init_network e t = (some err_network,
          { t with pcan := { t.pcan with net := (e.CAN_ConnectToNet t.nConnectToNet).2 },
                   nConnectToNet := t.nConnectToNet + 1,
                   trace := t.trace ++ scan_events e.netnames t.pcan.netname MAX_HCANNET 1 ++
                     [Event.CAN_ConnectToNet t.pcan.client t.pcan.netname] }) := by
        simp only [init_network, hf1, if_true, call_CAN_ConnectToNet, find_net_state]
        rw [if_pos hc]
      rw [hst]
      refine runs_fail _ _ _ _
        (scan_events e.netnames t.pcan.netname MAX_HCANNET 1 ++
          [Event.CAN_ConnectToNet t.pcan.client t.pcan.netname]) err_network rfl ?_ ?_
      · simp
      · simp only [run_steps, step_locate, step_connect, if_pos hf, if_neg hc]
  · have hf1 : ¬ (pcan_find_net e.netnames t t.pcan.netname).1 = true :=
      fun h => hf ((find_net_found _ _ _).1 h)
    have hst : init_network e t = (some err_network,
        { t with trace := t.trace ++ scan_events e.netnames t.pcan.netname MAX_HCANNET 1 }) := by
      simp only [init_network, if_neg hf1, find_net_state]
      rw [if_pos (by decide)]
    rw [hst]
    refine runs_fail _ _ _ _ (scan_events e.netnames t.pcan.netname MAX_HCANNET 1)
      err_network rfl rfl ?_
    simp only [run_steps, step_locate, if_neg hf]

/-- The driver part of `pcan_init` runs the steps of `setup_steps` in order
and stops at the first one that fails. -/
theorem init_driver_runs (e : Env) (t : State) :
    Runs (init_driver e t) t.trace (setup_steps e t) := by
  unfold init_driver setup_steps
  have hname : (pcan_get_application_name e t).2 =
      { t with nGetModuleFileNameA := t.nGetModuleFileNameA + 1,
               trace := t.trace ++ [Event.GetModuleFileNameA] } := rfl
  by_cases hr : (e.CAN_RegisterClient t.nRegisterClient).1 = CAN_ERR_OK
  · have hst : init_register e t = (none,
        { t with pcan := { t.pcan with client := (e.CAN_RegisterClient t.nRegisterClient).2 },
                 nGetModuleFileNameA := t.nGetModuleFileNameA + 1,
                 nRegisterClient := t.nRegisterClient + 1,
                 trace := t.trace ++ [Event.GetModuleFileNameA] ++
                   [Event.CAN_RegisterClient (pcan_get_application_name e t).1 0] }) := by
      simp only [init_register, call_CAN_RegisterClient, hname, hr]
      simp
    rw [hst]
    refine runs_ok _ _ _ _ _
      [Event.GetModuleFileNameA, Event.CAN_RegisterClient (pcan_get_application_name e t).1 0]
      rfl ?_ ?_ (runs_network e _)
    · simp
    · simp only [run_steps, step_register, if_pos hr]
  · have hst : init_register e t = (some err_register,
        { t with pcan := { t.pcan with client := (e.CAN_RegisterClient t.nRegisterClient).2 },
                 nGetModuleFileNameA := t.nGetModuleFileNameA + 1,
                 nRegisterClient := t.nRegisterClient + 1,
                 trace := t.trace ++ [Event.GetModuleFileNameA] ++
                   [Event.CAN_RegisterClient (pcan_get_application_name e t).1 0] }) := by
      simp only [init_register, call_CAN_RegisterClient, hname]
      rw [if_pos hr]
    rw [hst]
    refine runs_fail _ _ _ _
      [Event.GetModuleFileNameA, Event.CAN_RegisterClient (pcan_get_application_name e t).1 0]
      err_register rfl ?_ ?_
    · simp
    · simp only [run_steps, step_register, if_neg hr]

/-! ### The library loader leaves the session alone -/

theorem loaderFrame_refl (s : State) : LoaderFrame s s :=
  ⟨s.dll, s.nLoadLibraryA, s.nGetProcAddress, [], by simp, by simp⟩

theorem loaderFrame_trans (s t u : State) (h1 : LoaderFrame s t) (h2 : LoaderFrame t u) :
    LoaderFrame s u := by
  obtain ⟨d1, a1, b1, l1, rfl, hl1⟩ := h1
  obtain ⟨d2, a2, b2, l2, rfl, hl2⟩ := h2
  refine ⟨d2, a2, b2, l1 ++ l2, by simp, ?_⟩
  intro ev hev
  rcases List.mem_append.1 hev with h | h
  · exact hl1 ev h
  · exact hl2 ev h

theorem loaderFrame_import (e : Env) (s t : State) (name : String) (set : Dll → Nat → Dll)
    (h : LoaderFrame s t) : LoaderFrame s (import_symbol e t name set) := by
  refine loaderFrame_trans s t _ h ?_
  refine ⟨set t.dll (e.GetProcAddress t.nGetProcAddress), t.nLoadLibraryA,
    t.nGetProcAddress + 1, [Event.GetProcAddress t.dll.handle name], rfl, ?_⟩
  intro ev hev
  simp only [List.mem_singleton] at hev
  rw [hev]; rfl

theorem loaderFrame_load (e : Env) (s : State) :
    LoaderFrame s
      { (call_LoadLibraryA e s "canapi2.dll").2 with
        dll := { (call_LoadLibraryA e s "canapi2.dll").2.dll with
                 handle := (call_LoadLibraryA e s "canapi2.dll").1 } } := by
  refine ⟨{ s.dll with handle := e.LoadLibraryA s.nLoadLibraryA }, s.nLoadLibraryA + 1,
    s.nGetProcAddress, [Event.LoadLibraryA "canapi2.dll"], rfl, ?_⟩
  intro ev hev
  simp only [List.mem_singleton] at hev
  rw [hev]; rfl

theorem loaderFrame_free (s t : State) (h : LoaderFrame s t) :
    LoaderFrame s
      { call_FreeLibrary t t.dll.handle with
        dll := { (call_FreeLibrary t t.dll.handle).dll with handle := 0 } } := by
  refine loaderFrame_trans s t _ h ?_
  refine ⟨{ t.dll with handle := 0 }, t.nLoadLibraryA, t.nGetProcAddress,
    [Event.FreeLibrary t.dll.handle], rfl, ?_⟩
  intro ev hev
  simp only [List.mem_singleton] at hev
  rw [hev]; rfl

/-- `canapi2_init` touches only the import table, the loader call counts and
the trace, to which it adds loader calls. -/
theorem canapi2_init_frame (e : Env) (s : State) : LoaderFrame s (canapi2_init e s).2 := by
  unfold canapi2_init
  split
  · exact loaderFrame_refl s
  · dsimp only
    split
    · exact loaderFrame_load e s
    · split
      · dsimp only
        refine loaderFrame_free _ _ ?_
        iterate 19 refine loaderFrame_import _ _ _ _ _ ?_
        exact loaderFrame_load e s
      · dsimp only
        iterate 19 refine loaderFrame_import _ _ _ _ _ ?_
        exact loaderFrame_load e s

/-! ### The steps before the driver calls -/

theorem init_load_frame (e : Env) (s : State) :
    ∃ (d : Dll) (n1 n2 : Nat) (l : List Event),
      (init_load e (init_alloc s)).2 =
        { s with pcan := PCAN_zero, dll := d, nLoadLibraryA := n1, nGetProcAddress := n2,
                 trace := s.trace ++ [Event.seat_set_trust_status false] ++ l } ∧
      ∀ ev ∈ l, is_loader ev = true := by
  obtain ⟨d, n1, n2, l, h, hl⟩ := canapi2_init_frame e (init_alloc s)
  refine ⟨d, n1, n2, l, ?_, hl⟩
  have h2 : (init_load e (init_alloc s)).2 = (canapi2_init e (init_alloc s)).2 := by
    unfold init_load
    dsimp only
    split <;> rfl
  rw [h2, h]
  rfl

theorem init_load_result (e : Env) (s : State) :
    (init_load e s).1 = if (canapi2_init e s).1 ≠ 0 then some err_dll else none := by
  unfold init_load
  dsimp only
  split <;> rfl

/-- If the library does not load, `pcan_init` stops there. -/
theorem pcan_init_load_fail (e : Env) (s : State) (conf : Conf)
    (h : (canapi2_init e (init_alloc s)).1 ≠ 0) :
    pcan_init e s conf = (some err_dll, (init_load e (init_alloc s)).2) := by
  have h1 : (init_load e (init_alloc s)).1 = some err_dll := by
    rw [init_load_result, if_pos h]
  rw [pcan_init_eq, andThen_some _ _ _ h1]
  exact Prod.ext h1 rfl

/-- If the configuration does not parse, `pcan_init` stops there. -/
theorem pcan_init_config_fail (e : Env) (s : State) (conf : Conf)
    (h : (canapi2_init e (init_alloc s)).1 = 0)
    (hc : (pcan_get_config PCAN_zero conf).1 ≠ 0) :
    pcan_init e s conf =
      (some err_config,
       { (init_load e (init_alloc s)).2 with pcan := (pcan_get_config PCAN_zero conf).2 }) := by
  have h1 : (init_load e (init_alloc s)).1 = none := by
    rw [init_load_result, if_neg (by simpa using h)]
  obtain ⟨d, n1, n2, l, hst, _⟩ := init_load_frame e s
  have hp : (init_load e (init_alloc s)).2.pcan = PCAN_zero := by rw [hst]
  rw [pcan_init_eq, andThen_none _ _ h1]
  have h2 : init_config conf (init_load e (init_alloc s)).2 =
      (some err_config,
       { (init_load e (init_alloc s)).2 with pcan := (pcan_get_config PCAN_zero conf).2 }) := by
    unfold init_config
    dsimp only
    rw [hp, if_pos hc]
  rw [andThen_some _ _ err_config (by rw [h2]), h2]

/-- The state in which the driver steps start, when library and configuration are fine. -/
theorem init_configured_eq (e : Env) (s : State) (conf : Conf)
    (hc : (pcan_get_config PCAN_zero conf).1 = 0) :
    ∃ (d : Dll) (n1 n2 : Nat) (l : List Event),
      init_configured e s conf =
        { s with pcan := (pcan_get_config PCAN_zero conf).2, dll := d, nLoadLibraryA := n1,
                 nGetProcAddress := n2,
                 trace := s.trace ++ [Event.seat_set_trust_status false] ++ l ++
                   [Event.logeventf_s fmt_opening (pcan_get_config PCAN_zero conf).2.netname,
                    Event.logeventf fmt_ids [(pcan_get_config PCAN_zero conf).2.rxid,
                      (pcan_get_config PCAN_zero conf).2.txid]] } ∧
      ∀ ev ∈ l, is_loader ev = true := by
  obtain ⟨d, n1, n2, l, hst, hl⟩ := init_load_frame e s
  refine ⟨d, n1, n2, l, ?_, hl⟩
  unfold init_configured init_config
  rw [hst]
  dsimp only
  rw [if_neg (by simpa using hc)]
  simp [call_logeventf, call_logeventf_s]

/-- With library and configuration fine, `pcan_init` is its driver part. -/
theorem pcan_init_driver (e : Env) (s : State) (conf : Conf)
    (h : (canapi2_init e (init_alloc s)).1 = 0)
    (hc : (pcan_get_config PCAN_zero conf).1 = 0) :
    pcan_init e s conf = init_driver e (init_configured e s conf) := by
  have h1 : (init_load e (init_alloc s)).1 = none := by
    rw [init_load_result, if_neg (by simpa using h)]
  obtain ⟨d, n1, n2, l, hst, _⟩ := init_load_frame e s
  have hp : (init_load e (init_alloc s)).2.pcan = PCAN_zero := by rw [hst]
  have h2 : (init_config conf (init_load e (init_alloc s)).2).1 = none := by
    unfold init_config
    dsimp only
    rw [hp, if_neg (by simpa using hc)]
  rw [pcan_init_eq, andThen_none _ _ h1, andThen_none _ _ h2]
  rfl

/-- The steps depend on the state only through the session struct and the call counts. -/
theorem setup_steps_configured (e : Env) (s : State) (conf : Conf)
    (hc : (pcan_get_config PCAN_zero conf).1 = 0) :
    setup_steps e (init_configured e s conf) =
      setup_steps e { s with pcan := (pcan_get_config PCAN_zero conf).2 } := by
  obtain ⟨d, n1, n2, l, hst, _⟩ := init_configured_eq e s conf hc
  rw [hst]
  rfl

/-! ### What a run of steps is -/

/-- Either no step fails, there is no error and all calls are made in order;
or there is a first step that fails, the error is its message and the calls
are those of the steps up to and including it. -/
theorem run_steps_spec (steps : List Step) :
    ((∀ st ∈ steps, st.failure = none) ∧ (run_steps steps).2 = none ∧
      (run_steps steps).1 = (steps.map Step.calls).flatten) ∨
    (∃ pre st post m, steps = pre ++ st :: post ∧ (∀ x ∈ pre, x.failure = none) ∧
      st.failure = some m ∧ (run_steps steps).2 = some m ∧
      (run_steps steps).1 = ((pre ++ [st]).map Step.calls).flatten) := by
  induction steps with
  | nil => left; simp [run_steps]
  | cons a t ih =>
    cases ha : a.failure with
    | some m =>
      right
      refine ⟨[], a, t, m, rfl, by simp, ha, ?_, ?_⟩
      · simp only [run_steps, ha]
      · simp [run_steps, ha]
    | none =>
      rcases ih with ⟨h1, h2, h3⟩ | ⟨pre, st, post, m, h1, h2, h3, h4, h5⟩
      · left
        refine ⟨?_, ?_, ?_⟩
        · intro st hst
          rcases List.mem_cons.1 hst with h | h
          · rw [h]; exact ha
          · exact h1 st h
        · simp only [run_steps, ha]; exact h2
        · simp only [run_steps, ha, h3]; simp
      · right
        refine ⟨a :: pre, st, post, m, by rw [h1]; rfl, ?_, h3, ?_, ?_⟩
        · intro x hx
          rcases List.mem_cons.1 hx with h | h
          · rw [h]; exact ha
          · exact h2 x h
        · simp only [run_steps, ha]; exact h4
        · simp only [run_steps, ha, h5]; simp

theorem run_steps_none_iff (steps : List Step) :
    (run_steps steps).2 = none ↔ ∀ st ∈ steps, st.failure = none := by
  induction steps with
  | nil => simp [run_steps]
  | cons a t ih =>
    cases ha : a.failure with
    | some m => simp [run_steps, ha]
    | none => simp [run_steps, ha, ih]

/-- A message returned by a run is the failure message of one of its steps. -/
theorem run_steps_msg (steps : List Step) (m : String) (h : (run_steps steps).2 = some m) :
    ∃ st ∈ steps, st.failure = some m := by
  induction steps with
  | nil => simp [run_steps] at h
  | cons a t ih =>
    cases ha : a.failure with
    | some m1 =>
      simp only [run_steps, ha] at h
      exact ⟨a, List.mem_cons_self _ _, by rw [ha, h]⟩
    | none =>
      simp only [run_steps, ha] at h
      obtain ⟨st, hst, hm⟩ := ih h
      exact ⟨st, List.mem_cons_of_mem _ hst, hm⟩

/-- Calls of a kind that no step makes are not made by a run. -/
theorem run_steps_filter_nil (p : Event → Bool) (steps : List Step)
    (h : ∀ st ∈ steps, st.calls.filter p = []) : (run_steps steps).1.filter p = [] := by
  induction steps with
  | nil => rfl
  | cons a t ih =>
    have ha := h a (List.mem_cons_self _ _)
    have ht := ih (fun st hst => h st (List.mem_cons_of_mem _ hst))
    cases hf : a.failure with
    | some m => simp only [run_steps, hf, ha]
    | none => simp only [run_steps, hf, List.filter_append, ha, ht, List.append_nil]

theorem filter_nil_of_forall (p : Event → Bool) (l : List Event)
    (h : ∀ ev ∈ l, p ev = false) : l.filter p = [] := by
  rw [List.filter_eq_nil_iff]
  intro ev hev
  rw [h ev hev]
  decide

theorem scan_events_filter (p : Event → Bool) (names : NetNames) (netname : List Char)
    (n i : Nat) (hp : ∀ j, p (Event.CAN_GetNetParam j CAN_PARAM_NAME) = false) :
    (scan_events names netname n i).filter p = [] := by
  apply filter_nil_of_forall
  intro ev hev
  obtain ⟨j, rfl⟩ := scan_events_mem names netname n i ev hev
  exact hp j

theorem loader_filter (p : Event → Bool) (l : List Event)
    (hl : ∀ ev ∈ l, is_loader ev = true) (hp : ∀ ev, is_loader ev = true → p ev = false) :
    l.filter p = [] :=
  filter_nil_of_forall p l (fun ev hev => hp ev (hl ev hev))

theorem loader_not_connect (ev : Event) (h : is_loader ev = true) : is_connect ev = false := by
  cases ev <;> simp [is_loader, is_connect] at h ⊢

theorem loader_not_release (ev : Event) (h : is_loader ev = true) : is_release ev = false := by
  cases ev <;> simp [is_loader, is_release] at h ⊢

theorem loader_not_hw_set (ev : Event) (h : is_loader ev = true) : is_hw_set ev = false := by
  cases ev <;> simp [is_loader, is_hw_set] at h ⊢

/-- With library and configuration fine, `pcan_init` logs the configuration
and then runs the steps of setup until the first one fails. -/
theorem pcan_init_runs (e : Env) (s : State) (conf : Conf)
    (hdll : (canapi2_init e (init_alloc s)).1 = 0)
    (hcfg : (pcan_get_config PCAN_zero conf).1 = 0) :
    ∃ l : List Event, (∀ ev ∈ l, is_loader ev = true) ∧
      (pcan_init e s conf).1 = (run_steps (configured_steps e s conf)).2 ∧
      (pcan_init e s conf).2.trace =
        s.trace ++ [Event.seat_set_trust_status false] ++ l ++
          [Event.logeventf_s fmt_opening (pcan_get_config PCAN_zero conf).2.netname,
           Event.logeventf fmt_ids [(pcan_get_config PCAN_zero conf).2.rxid,
             (pcan_get_config PCAN_zero conf).2.txid]] ++
          (run_steps (configured_steps e s conf)).1 := by
  obtain ⟨d, n1, n2, l, hst, hl⟩ := init_configured_eq e s conf hcfg
  have hrun := init_driver_runs e (init_configured e s conf)
  rw [setup_steps_configured e s conf hcfg] at hrun
  rw [← pcan_init_driver e s conf hdll hcfg] at hrun
  refine ⟨l, hl, hrun.1, ?_⟩
  rw [hrun.2, hst]
  rfl

/-- Claim C13. Setup aborts at the first error.  With the driver library
loaded and the configuration parsed, `pcan_init` runs the steps of
`setup_steps` in their order (register client, locate network, connect to
network, query hardware, set exact-match filter mode, register the receive
identifier, set bitrate, timer fix, start poller, cache queue size; the seven
fatal ones in the order of the claim): for every combination of answers,
either no step fails, no error is returned and the calls of all steps are made
in order, or there is a first failing step, its message is returned and only
the calls of the steps up to and including it are made; no error is returned
iff no step fails; and when the named network is not found no
`CAN_ConnectToNet` call is made. -/
theorem C13_setup_first_error (e : Env) (s : State) (conf : Conf)
    (hdll : (canapi2_init e (init_alloc s)).1 = 0)
    (hcfg : (pcan_get_config PCAN_zero conf).1 = 0) :
    (∃ (l calls : List Event), (∀ ev ∈ l, is_loader ev = true) ∧
      (pcan_init e s conf).2.trace =
        s.trace ++ [Event.seat_set_trust_status false] ++ l ++
          [Event.logeventf_s fmt_opening (pcan_get_config PCAN_zero conf).2.netname,
           Event.logeventf fmt_ids [(pcan_get_config PCAN_zero conf).2.rxid,
             (pcan_get_config PCAN_zero conf).2.txid]] ++ calls ∧
      (((∀ st ∈ configured_steps e s conf, st.failure = none) ∧
          (pcan_init e s conf).1 = none ∧
          calls = ((configured_steps e s conf).map Step.calls).flatten) ∨
       (∃ pre st post m, configured_steps e s conf = pre ++ st :: post ∧
          (∀ x ∈ pre, x.failure = none) ∧ st.failure = some m ∧
          (pcan_init e s conf).1 = some m ∧
          calls = ((pre ++ [st]).map Step.calls).flatten))) ∧
    ((pcan_init e s conf).1 = none ↔ ∀ st ∈ configured_steps e s conf, st.failure = none) ∧
    (¬ net_found e.netnames (pcan_get_config PCAN_zero conf).2.netname →
      (pcan_init e s conf).1 ≠ none ∧
      (pcan_init e s conf).2.trace.filter is_connect = s.trace.filter is_connect) := by
  obtain ⟨l, hl, herr, htr⟩ := pcan_init_runs e s conf hdll hcfg
  refine ⟨⟨l, (run_steps (configured_steps e s conf)).1, hl, htr, ?_⟩, ?_, ?_⟩
  · rw [herr]
    exact run_steps_spec (configured_steps e s conf)
  · rw [herr]
    exact run_steps_none_iff _
  · intro hnf
    have hrun : (run_steps (configured_steps e s conf)).2 ≠ none ∧
        (run_steps (configured_steps e s conf)).1.filter is_connect = [] := by
      unfold configured_steps setup_steps
      by_cases hr : (e.CAN_RegisterClient s.nRegisterClient).1 = CAN_ERR_OK
      · simp only [run_steps, step_register, step_locate, if_pos hr, if_neg hnf]
        refine ⟨by simp, ?_⟩
        rw [List.filter_append, scan_events_filter is_connect _ _ _ _ (fun _ => rfl)]
        rfl
      · simp only [run_steps, step_register, if_neg hr]
        exact ⟨by simp, rfl⟩
    refine ⟨by rw [herr]; exact hrun.1, ?_⟩
    rw [htr]
    simp only [List.filter_append, hrun.2, loader_filter is_connect l hl loader_not_connect]
    simp [is_connect]

theorem C13_setup_first_error_witness :
    (∃ (l calls : List Event), (∀ ev ∈ l, is_loader ev = true) ∧
      (pcan_init env_nonet state0 conf1).2.trace =
        state0.trace ++ [Event.seat_set_trust_status false] ++ l ++
          [Event.logeventf_s fmt_opening (pcan_get_config PCAN_zero conf1).2.netname,
           Event.logeventf fmt_ids [(pcan_get_config PCAN_zero conf1).2.rxid,
             (pcan_get_config PCAN_zero conf1).2.txid]] ++ calls ∧
      (((∀ st ∈ configured_steps env_nonet state0 conf1, st.failure = none) ∧
          (pcan_init env_nonet state0 conf1).1 = none ∧
          calls = ((configured_steps env_nonet state0 conf1).map Step.calls).flatten) ∨
       (∃ pre st post m, configured_steps env_nonet state0 conf1 = pre ++ st :: post ∧
          (∀ x ∈ pre, x.failure = none) ∧ st.failure = some m ∧
          (pcan_init env_nonet state0 conf1).1 = some m ∧
          calls = ((pre ++ [st]).map Step.calls).flatten))) ∧
    ((pcan_init env_nonet state0 conf1).1 = none ↔
      ∀ st ∈ configured_steps env_nonet state0 conf1, st.failure = none) ∧
    (¬ net_found env_nonet.netnames (pcan_get_config PCAN_zero conf1).2.netname →
      (pcan_init env_nonet state0 conf1).1 ≠ none ∧
      (pcan_init env_nonet state0 conf1).2.trace.filter is_connect =
        state0.trace.filter is_connect) :=
  C13_setup_first_error env_nonet state0 conf1 (by decide) (by decide)

/-! ### Calls of one kind during setup -/

/-- The calls of a kind that neither the loader nor the logging makes are,
during `pcan_init`, those of the steps that run. -/
theorem pcan_init_filter (p : Event → Bool) (e : Env) (s : State) (conf : Conf)
    (hp1 : ∀ ev, is_loader ev = true → p ev = false)
    (hp2 : p (Event.seat_set_trust_status false) = false)
    (hp3 : ∀ f a, p (Event.logeventf_s f a) = false)
    (hp4 : ∀ f a, p (Event.logeventf f a) = false) :
    (pcan_init e s conf).2.trace.filter p =
      s.trace.filter p ++
        (if (canapi2_init e (init_alloc s)).1 = 0 ∧ (pcan_get_config PCAN_zero conf).1 = 0 then
          (run_steps (configured_steps e s conf)).1.filter p
         else []) := by
  have hloadtr : (init_load e (init_alloc s)).2.trace.filter p = s.trace.filter p := by
    obtain ⟨d, n1, n2, l, hst, hl⟩ := init_load_frame e s
    rw [hst]
    simp only [List.filter_append, loader_filter p l hl hp1]
    simp [hp2]
  by_cases hdll : (canapi2_init e (init_alloc s)).1 = 0
  · by_cases hcfg : (pcan_get_config PCAN_zero conf).1 = 0
    · obtain ⟨l, hl, _, htr⟩ := pcan_init_runs e s conf hdll hcfg
      rw [if_pos ⟨hdll, hcfg⟩, htr]
      simp only [List.filter_append, loader_filter p l hl hp1]
      simp [hp2, hp3, hp4]
    · rw [if_neg (fun h => hcfg h.2), pcan_init_config_fail e s conf hdll hcfg]
      simpa using hloadtr
  · rw [if_neg (fun h => hdll h.1), pcan_init_load_fail e s conf hdll]
    simpa using hloadtr

theorem run_steps_filter_skip (p : Event → Bool) (a : Step) (rest : List Step)
    (h1 : a.failure = none) (h2 : a.calls.filter p = []) :
    (run_steps (a :: rest)).1.filter p = (run_steps rest).1.filter p := by
  simp only [run_steps, h1, List.filter_append, h2, List.nil_append]

theorem run_steps_filter_head (p : Event → Bool) (a : Step) (rest : List Step)
    (h : ∀ x ∈ rest, x.calls.filter p = []) :
    (run_steps (a :: rest)).1.filter p = a.calls.filter p := by
  cases hf : a.failure with
  | some m => simp only [run_steps, hf]
  | none =>
    simp only [run_steps, hf, List.filter_append, run_steps_filter_nil p rest h,
      List.append_nil]

theorem run_steps_skip_err (a : Step) (rest : List Step) (h1 : a.failure = none) :
    (run_steps (a :: rest)).2 = (run_steps rest).2 := by
  simp only [run_steps, h1]

/-- No step of setup releases a driver handle. -/
theorem setup_steps_no_release (e : Env) (s : State) :
    ∀ st ∈ setup_steps e s, st.calls.filter is_release = [] := by
  intro st hst
  simp only [setup_steps, List.mem_cons, List.mem_singleton, List.not_mem_nil, or_false] at hst
  rcases hst with h | h | h | h | h | h | h | h | h | h <;> rw [h]
  · rfl
  · exact scan_events_filter is_release _ _ _ _ (fun _ => rfl)
  · rfl
  · rfl
  · rfl
  · rfl
  · simp only [step_bitrate]; split <;> rfl
  · rfl
  · rfl
  · rfl

theorem get_config_bitrate (p : PCAN) (conf : Conf) (h : (pcan_get_config p conf).1 = 0) :
    (pcan_get_config p conf).2.bitrate = conf.pcanbitrate := by
  rw [get_config_eq] at h ⊢
  generalize tokens delims conf.pcan = tk at h ⊢
  rcases tk with _ | ⟨t0, _ | ⟨t1, _ | ⟨t2, rest⟩⟩⟩ <;> simp at h ⊢

theorem bitrate_lookup_none (x : Int) (l : List (Int × Int)) (h : ∀ b ∈ l, b.1 ≠ x) :
    bitrate_lookup x l = -1 := by
  induction l with
  | nil => rfl
  | cons b t ih =>
    rw [bitrate_lookup, if_neg (h b (List.mem_cons_self _ _)),
      ih (fun c hc => h c (List.mem_cons_of_mem _ hc))]

/-- For a rate of the table the lookup gives its code; rate and code are positive. -/
theorem bitrate_lookup_table (x code : Int) (h : (x, code) ∈ bitrates) :
    pcan_calc_bitrate_reg_value x = code ∧ 0 < x ∧ 0 < code := by
  have hall : ∀ b ∈ bitrates, pcan_calc_bitrate_reg_value b.1 = b.2 ∧ 0 < b.1 ∧ 0 < b.2 := by
    decide
  exact hall (x, code) h

/-! ### The handles stay in the session struct -/

theorem andThen_inv (I : State → Prop) (r : Option String × State)
    (k : State → Option String × State) (hr : I r.2) (hk : ∀ t, I t → I (k t).2) :
    I (andThen r k).2 := by
  unfold andThen
  split
  · exact hr
  · exact hk _ hr

theorem init_network_client (e : Env) (t : State) :
    (init_network e t).2.pcan.client = t.pcan.client := by
  simp only [init_network, call_CAN_ConnectToNet, find_net_state]
  repeat' split
  all_goals rfl

theorem init_hw_handles (e : Env) (t : State) :
    (init_hw e t).2.pcan.client = t.pcan.client ∧ (init_hw e t).2.pcan.net = t.pcan.net :=
  ⟨rfl, rfl⟩

theorem init_filter_handles (e : Env) (t : State) :
    (init_filter e t).2.pcan.client = t.pcan.client ∧
    (init_filter e t).2.pcan.net = t.pcan.net := by
  simp only [init_filter, call_CAN_SetClientParam, call_CAN_RegisterMsg]
  repeat' split
  all_goals exact ⟨rfl, rfl⟩

theorem init_bitrate_handles (e : Env) (t : State) :
    (init_bitrate e t).2.pcan.client = t.pcan.client ∧
    (init_bitrate e t).2.pcan.net = t.pcan.net := by
  simp only [init_bitrate, call_CAN_SetHwParam]
  repeat' split
  all_goals exact ⟨rfl, rfl⟩

theorem init_timerfix_handles (e : Env) (t : State) :
    (init_timerfix e t).2.pcan.client = t.pcan.client ∧
    (init_timerfix e t).2.pcan.net = t.pcan.net :=
  ⟨rfl, rfl⟩

theorem init_poller_handles (e : Env) (t : State) :
    (init_poller e t).2.pcan.client = t.pcan.client ∧
    (init_poller e t).2.pcan.net = t.pcan.net := by
  simp only [init_poller, store_rxthread_running, call_CreateEvent, call_add_handle_wait,
    call_CreateThread]
  split <;> exact ⟨rfl, rfl⟩

theorem init_finish_handles (e : Env) (t : State) :
    (init_finish e t).2.pcan.client = t.pcan.client ∧
    (init_finish e t).2.pcan.net = t.pcan.net :=
  ⟨rfl, rfl⟩

/-- From the RX filter on, setup leaves the client and net handles in the
session struct as they are. -/
theorem tail_filter_handles (e : Env) (t : State) :
    (init_from_filter e t).2.pcan.client = t.pcan.client ∧
    (init_from_filter e t).2.pcan.net = t.pcan.net := by
  unfold init_from_filter
  refine andThen_inv (fun u => u.pcan.client = t.pcan.client ∧ u.pcan.net = t.pcan.net)
    _ _ (init_filter_handles e t) ?_
  intro u hu
  unfold init_from_bitrate
  refine andThen_inv (fun u => u.pcan.client = t.pcan.client ∧ u.pcan.net = t.pcan.net)
    _ _ ⟨(init_bitrate_handles e u).1.trans hu.1, (init_bitrate_handles e u).2.trans hu.2⟩ ?_
  intro u hu
  unfold init_from_timerfix
  refine andThen_inv (fun u => u.pcan.client = t.pcan.client ∧ u.pcan.net = t.pcan.net)
    _ _ ⟨(init_timerfix_handles e u).1.trans hu.1, (init_timerfix_handles e u).2.trans hu.2⟩ ?_
  intro u hu
  unfold init_from_poller
  refine andThen_inv (fun u => u.pcan.client = t.pcan.client ∧ u.pcan.net = t.pcan.net)
    _ _ ⟨(init_poller_handles e u).1.trans hu.1, (init_poller_handles e u).2.trans hu.2⟩ ?_
  intro u hu
  exact ⟨(init_finish_handles e u).1.trans hu.1, (init_finish_handles e u).2.trans hu.2⟩

theorem tail_hw_handles (e : Env) (t : State) :
    (init_from_hw e t).2.pcan.client = t.pcan.client ∧
    (init_from_hw e t).2.pcan.net = t.pcan.net := by
  unfold init_from_hw
  refine andThen_inv (fun u => u.pcan.client = t.pcan.client ∧ u.pcan.net = t.pcan.net)
    _ _ (init_hw_handles e t) ?_
  intro u hu
  exact ⟨(tail_filter_handles e u).1.trans hu.1, (tail_filter_handles e u).2.trans hu.2⟩

/-- From the network step on, setup leaves the client handle in the session struct. -/
theorem tail_network_client (e : Env) (t : State) :
    (init_from_network e t).2.pcan.client = t.pcan.client := by
  unfold init_from_network
  refine andThen_inv (fun u => u.pcan.client = t.pcan.client) _ _ (init_network_client e t) ?_
  intro u hu
  exact (tail_hw_handles e u).1.trans hu

/-- After a successful connect the net handle the driver returned is in the
session struct when `pcan_init` returns. -/
theorem tail_network_net (e : Env) (t : State)
    (hf : net_found e.netnames t.pcan.netname)
    (hc : (e.CAN_ConnectToNet t.nConnectToNet).1 = CAN_ERR_OK) :
    (init_from_network e t).2.pcan.net = (e.CAN_ConnectToNet t.nConnectToNet).2 := by
  have hf1 : (pcan_find_net e.netnames t t.pcan.netname).1 = true :=
    (find_net_found _ _ _).2 hf
  have hst : init_network e t = (none,
      { t with pcan := { t.pcan with net := (e.CAN_ConnectToNet t.nConnectToNet).2 },
               nConnectToNet := t.nConnectToNet + 1,
               trace := t.trace ++ scan_events e.netnames t.pcan.netname MAX_HCANNET 1 ++
                 [Event.CAN_ConnectToNet t.pcan.client t.pcan.netname] }) := by
    simp only [init_network, hf1, if_true, call_CAN_ConnectToNet, find_net_state, hc]
    simp
  unfold init_from_network
  rw [hst, andThen_none _ _ rfl]
  exact (tail_hw_handles e _).2

/-- After a successful registration the client handle the driver returned is
in the session struct when `pcan_init` returns, whatever happens later. -/
theorem init_driver_client (e : Env) (t : State) :
    (init_driver e t).2.pcan.client = (e.CAN_RegisterClient t.nRegisterClient).2 := by
  unfold init_driver
  refine andThen_inv (fun u => u.pcan.client = (e.CAN_RegisterClient t.nRegisterClient).2)
    _ _ ?_ ?_
  · simp only [init_register, call_CAN_RegisterClient]
    split <;> rfl
  · intro u hu
    exact (tail_network_client e u).trans hu

theorem init_driver_net (e : Env) (t : State)
    (hr : (e.CAN_RegisterClient t.nRegisterClient).1 = CAN_ERR_OK)
    (hf : net_found e.netnames t.pcan.netname)
    (hc : (e.CAN_ConnectToNet t.nConnectToNet).1 = CAN_ERR_OK) :
    (init_driver e t).2.pcan.net = (e.CAN_ConnectToNet t.nConnectToNet).2 := by
  have hname : (pcan_get_application_name e t).2 =
      { t with nGetModuleFileNameA := t.nGetModuleFileNameA + 1,
               trace := t.trace ++ [Event.GetModuleFileNameA] } := rfl
  have hst : init_register e t = (none,
      { t with pcan := { t.pcan with client := (e.CAN_RegisterClient t.nRegisterClient).2 },
               nGetModuleFileNameA := t.nGetModuleFileNameA + 1,
               nRegisterClient := t.nRegisterClient + 1,
               trace := t.trace ++ [Event.GetModuleFileNameA] ++
                 [Event.CAN_RegisterClient (pcan_get_application_name e t).1 0] }) := by
    simp only [init_register, call_CAN_RegisterClient, hname, hr]
    simp
  unfold init_driver
  rw [hst, andThen_none _ _ rfl]
  exact tail_network_net e _ hf hc

/-! ### The bitrate step -/

/-- When setup gets as far as the bitrate step, its outcome and its hardware
parameter calls are those of the bitrate step and the steps after it. -/
theorem configured_steps_peel (e : Env) (s : State) (conf : Conf)
    (hcfg : (pcan_get_config PCAN_zero conf).1 = 0) (hreach : reaches_bitrate e s conf) :
    (run_steps (configured_steps e s conf)).2 =
      (run_steps
        [step_bitrate (e.CAN_GetNetParam_NETHW s.nGetNetParam_NETHW).2 conf.pcanbitrate
           (e.CAN_SetHwParam s.nSetHwParam),
         step_timerfix (e.CAN_RegisterClient s.nRegisterClient).2,
         step_poller (e.CreateEvent s.nCreateEvent) (e.CreateThread s.nCreateThread),
         step_finish (e.CAN_RegisterClient s.nRegisterClient).2]).2 ∧
    (run_steps (configured_steps e s conf)).1.filter is_hw_set =
      (step_bitrate (e.CAN_GetNetParam_NETHW s.nGetNetParam_NETHW).2 conf.pcanbitrate
        (e.CAN_SetHwParam s.nSetHwParam)).calls.filter is_hw_set := by
  obtain ⟨h1, h2, h3, h4, h5⟩ := hreach
  have hb := get_config_bitrate PCAN_zero conf hcfg
  have f1 : ∀ n c, (step_register n c).calls.filter is_hw_set = [] := fun _ _ => rfl
  have f2 : ∀ nm n, (step_locate nm n).calls.filter is_hw_set = [] :=
    fun _ _ => scan_events_filter is_hw_set _ _ _ _ (fun _ => rfl)
  unfold configured_steps setup_steps
  dsimp only
  rw [hb]
  refine ⟨?_, ?_⟩
  · rw [run_steps_skip_err _ _ (by simp only [step_register, if_pos h1]),
      run_steps_skip_err _ _ (by simp only [step_locate, if_pos h2]),
      run_steps_skip_err _ _ (by simp only [step_connect, if_pos h3]),
      run_steps_skip_err _ _ rfl,
      run_steps_skip_err _ _ (by simp only [step_filter_mode, if_pos h4]),
      run_steps_skip_err _ _ (by simp only [step_filter_id, if_pos h5])]
  · have f3 : ∀ c n k, (step_connect c n k).calls.filter is_hw_set = [] := fun _ _ _ => rfl
    have f4 : ∀ n, (step_hw n).calls.filter is_hw_set = [] := fun _ => rfl
    have f5 : ∀ c k, (step_filter_mode c k).calls.filter is_hw_set = [] := fun _ _ => rfl
    have f6 : ∀ c n r k, (step_filter_id c n r k).calls.filter is_hw_set = [] :=
      fun _ _ _ _ => rfl
    rw [run_steps_filter_skip _ _ _ (by simp only [step_register, if_pos h1]) (f1 _ _),
      run_steps_filter_skip _ _ _ (by simp only [step_locate, if_pos h2]) (f2 _ _),
      run_steps_filter_skip _ _ _ (by simp only [step_connect, if_pos h3]) (f3 _ _ _),
      run_steps_filter_skip _ _ _ rfl (f4 _),
      run_steps_filter_skip _ _ _ (by simp only [step_filter_mode, if_pos h4]) (f5 _ _),
      run_steps_filter_skip _ _ _ (by simp only [step_filter_id, if_pos h5]) (f6 _ _ _ _)]
    apply run_steps_filter_head
    intro x hx
    simp only [List.mem_cons, List.mem_singleton, List.not_mem_nil, or_false] at hx
    rcases hx with h | h | h <;> rw [h] <;> rfl

/-- Without a positive bitrate that has a positive table code, no step of
setup sets a hardware parameter. -/
theorem setup_steps_no_hw_set (e : Env) (s : State)
    (h : ¬ (0 < s.pcan.bitrate ∧ 0 < pcan_calc_bitrate_reg_value s.pcan.bitrate)) :
    ∀ st ∈ setup_steps e s, st.calls.filter is_hw_set = [] := by
  intro st hst
  simp only [setup_steps, List.mem_cons, List.mem_singleton, List.not_mem_nil, or_false] at hst
  rcases hst with h1 | h1 | h1 | h1 | h1 | h1 | h1 | h1 | h1 | h1 <;> rw [h1]
  · rfl
  · exact scan_events_filter is_hw_set _ _ _ _ (fun _ => rfl)
  · rfl
  · rfl
  · rfl
  · rfl
  · simp only [step_bitrate, if_neg h]; rfl
  · rfl
  · rfl
  · rfl

/-- With a bitrate that has no positive table code, or is not positive,
`pcan_init` never sets a hardware parameter. -/
theorem pcan_init_no_hw_set (e : Env) (s : State) (conf : Conf)
    (h : ¬ (0 < conf.pcanbitrate ∧ 0 < pcan_calc_bitrate_reg_value conf.pcanbitrate)) :
    (pcan_init e s conf).2.trace.filter is_hw_set = s.trace.filter is_hw_set := by
  rw [pcan_init_filter is_hw_set e s conf loader_not_hw_set rfl (fun _ _ => rfl)
    (fun _ _ => rfl)]
  split
  · rename_i hok
    have hb := get_config_bitrate PCAN_zero conf hok.2
    have hcond : ¬ (0 < (pcan_get_config PCAN_zero conf).2.bitrate ∧
        0 < pcan_calc_bitrate_reg_value (pcan_get_config PCAN_zero conf).2.bitrate) := by
      rw [hb]; exact h
    have hnil : (run_steps (configured_steps e s conf)).1.filter is_hw_set = [] :=
      run_steps_filter_nil is_hw_set (configured_steps e s conf)
        (setup_steps_no_hw_set e { s with pcan := (pcan_get_config PCAN_zero conf).2 } hcond)
    rw [hnil]
    simp
  · simp

/-- With a bitrate that is not positive, `pcan_init` never returns the bitrate error. -/
theorem pcan_init_not_bitrate_error (e : Env) (s : State) (conf : Conf)
    (h : conf.pcanbitrate ≤ 0) : (pcan_init e s conf).1 ≠ some err_bitrate := by
  by_cases hdll : (canapi2_init e (init_alloc s)).1 = 0
  · by_cases hcfg : (pcan_get_config PCAN_zero conf).1 = 0
    · obtain ⟨l, _, herr, _⟩ := pcan_init_runs e s conf hdll hcfg
      have hb := get_config_bitrate PCAN_zero conf hcfg
      rw [herr]
      intro hm
      obtain ⟨st, hst, hf⟩ := run_steps_msg _ _ hm
      unfold configured_steps at hst
      simp only [setup_steps, List.mem_cons, List.mem_singleton, List.not_mem_nil, or_false]
        at hst
      have hne1 : err_register ≠ err_bitrate := by decide
      have hne2 : err_network ≠ err_bitrate := by decide
      have hne3 : err_filter ≠ err_bitrate := by decide
      have hne4 : err_thread ≠ err_bitrate := by decide
      rcases hst with h1 | h1 | h1 | h1 | h1 | h1 | h1 | h1 | h1 | h1 <;> rw [h1] at hf
      · simp only [step_register] at hf
        split at hf
        · cases hf
        · exact hne1 (Option.some.inj hf)
      · simp only [step_locate] at hf
        split at hf
        · cases hf
        · exact hne2 (Option.some.inj hf)
      · simp only [step_connect] at hf
        split at hf
        · cases hf
        · exact hne2 (Option.some.inj hf)
      · cases hf
      · simp only [step_filter_mode] at hf
        split at hf
        · cases hf
        · exact hne3 (Option.some.inj hf)
      · simp only [step_filter_id] at hf
        split at hf
        · cases hf
        · exact hne3 (Option.some.inj hf)
      · simp only [step_bitrate] at hf
        rw [hb, if_pos h] at hf
        cases hf
      · cases hf
      · simp only [step_poller] at hf
        split at hf
        · cases hf
        · exact hne4 (Option.some.inj hf)
      · cases hf
    · rw [pcan_init_config_fail e s conf hdll hcfg]
      exact fun hh => absurd (Option.some.inj hh) (by decide)
  · rw [pcan_init_load_fail e s conf hdll]
    exact fun hh => absurd (Option.some.inj hh) (by decide)

/-- When setup gets as far as the bitrate step with a rate of the table, it
sets the bitrate exactly once, with the table code, on the hardware handle of
the net. -/
theorem pcan_init_table_rate (e : Env) (s : State) (conf : Conf) (code : Int)
    (hrate : (conf.pcanbitrate, code) ∈ bitrates)
    (hdll : (canapi2_init e (init_alloc s)).1 = 0)
    (hcfg : (pcan_get_config PCAN_zero conf).1 = 0) (hreach : reaches_bitrate e s conf) :
    (pcan_init e s conf).2.trace.filter is_hw_set =
      s.trace.filter is_hw_set ++
        [Event.CAN_SetHwParam (e.CAN_GetNetParam_NETHW s.nGetNetParam_NETHW).2
          CAN_PARAM_BAUDRATE code.toNat] := by
  obtain ⟨hcode, hpos, hcpos⟩ := bitrate_lookup_table _ _ hrate
  rw [pcan_init_filter is_hw_set e s conf loader_not_hw_set rfl (fun _ _ => rfl)
    (fun _ _ => rfl), if_pos ⟨hdll, hcfg⟩, (configured_steps_peel e s conf hcfg hreach).2]
  simp only [step_bitrate, hcode, if_pos (And.intro hpos hcpos)]
  rfl

/-- The calls of a run are the first calls of the whole step list. -/
theorem run_steps_initial (steps : List Step) :
    (run_steps steps).1 <+: (steps.map Step.calls).flatten := by
  induction steps with
  | nil => exact List.prefix_refl _
  | cons a t ih =>
    cases ha : a.failure with
    | some m =>
      simp only [run_steps, ha, List.map_cons, List.flatten_cons]
      exact List.prefix_append _ _
    | none =>
      simp only [run_steps, ha, List.map_cons, List.flatten_cons]
      exact (List.prefix_append_right_inj _).2 ih

/-- The only step of setup that sets a hardware parameter is the bitrate step. -/
theorem setup_steps_hw_set (e : Env) (s : State) :
    ((setup_steps e s).map Step.calls).flatten.filter is_hw_set =
      (step_bitrate (e.CAN_GetNetParam_NETHW s.nGetNetParam_NETHW).2 s.pcan.bitrate
        (e.CAN_SetHwParam s.nSetHwParam)).calls.filter is_hw_set := by
  have f2 : ∀ nm n, (step_locate nm n).calls.filter is_hw_set = [] :=
    fun _ _ => scan_events_filter is_hw_set _ _ _ _ (fun _ => rfl)
  have f1 : ∀ n c, (step_register n c).calls.filter is_hw_set = [] := fun _ _ => rfl
  have f3 : ∀ c n k, (step_connect c n k).calls.filter is_hw_set = [] := fun _ _ _ => rfl
  have f4 : ∀ n, (step_hw n).calls.filter is_hw_set = [] := fun _ => rfl
  have f5 : ∀ c k, (step_filter_mode c k).calls.filter is_hw_set = [] := fun _ _ => rfl
  have f6 : ∀ c n r k, (step_filter_id c n r k).calls.filter is_hw_set = [] :=
    fun _ _ _ _ => rfl
  have f7 : ∀ c, (step_timerfix c).calls.filter is_hw_set = [] := fun _ => rfl
  have f8 : ∀ a b, (step_poller a b).calls.filter is_hw_set = [] := fun _ _ => rfl
  have f9 : ∀ c, (step_finish c).calls.filter is_hw_set = [] := fun _ => rfl
  simp only [setup_steps, List.map_cons, List.map_nil, List.flatten_cons, List.flatten_nil,
    List.filter_append, f1, f2, f3, f4, f5, f6, f7, f8, f9, List.nil_append, List.append_nil,
    List.filter_nil]

/-- Whatever the outside answers, the hardware parameters `pcan_init` sets are
none or those of the bitrate step. -/
theorem pcan_init_hw_set_prefix (e : Env) (s : State) (conf : Conf) :
    ∃ calls, (pcan_init e s conf).2.trace.filter is_hw_set = s.trace.filter is_hw_set ++ calls ∧
      calls <+: (step_bitrate (e.CAN_GetNetParam_NETHW s.nGetNetParam_NETHW).2
        (pcan_get_config PCAN_zero conf).2.bitrate
        (e.CAN_SetHwParam s.nSetHwParam)).calls.filter is_hw_set := by
  rw [pcan_init_filter is_hw_set e s conf loader_not_hw_set rfl (fun _ _ => rfl)
    (fun _ _ => rfl)]
  split
  · refine ⟨_, rfl, ?_⟩
    have h := (run_steps_initial (configured_steps e s conf)).filter is_hw_set
    unfold configured_steps at h ⊢
    rw [setup_steps_hw_set] at h
    exact h
  · exact ⟨[], rfl, List.nil_prefix⟩

/-! ### Claims about setup -/

/-- The mask `0x7FFFFFFFF` of pcan.c 332 keeps all 32 bits of `rxid`. -/
theorem filter_frame_id (rxid : Nat) (h : rxid < 2 ^ 32) : (filter_frame rxid).ID = rxid := by
  have hm : (0x7FFFFFFFF : Nat) = 2 ^ 35 - 1 := by decide
  simp only [filter_frame, hm, Nat.and_pow_two_sub_one_eq_mod]
  omega

/-- Claim C11, evaluated at the configuration `CAN1 0x80000123 0x456`: setup
succeeds and registers, after setting the exact-match mode, the filter frame
whose `ID` is `0x80000123`, the whole `rxid` with bit 31 still in it and above
`CAN_MAX_EXTENDED_ID`, not the numeric identifier `0x123`. -/
theorem C11_filter_id_keeps_flag :
    (pcan_init env0 state0 conf_ext).1 = none ∧
    (pcan_init env0 state0 conf_ext).2.pcan.rxid = 0x80000123 ∧
    (pcan_init env0 state0 conf_ext).2.trace.filter
        (fun ev => match ev with
          | Event.CAN_SetClientParam _ p _ => decide (p = CAN_PARAM_EXACT_11BIT_FILTER)
          | Event.CAN_RegisterMsg _ _ _ _ => true
          | _ => false) =
      [Event.CAN_SetClientParam 1 CAN_PARAM_EXACT_11BIT_FILTER 1,
       Event.CAN_RegisterMsg 1 7
         ⟨0x80000123, MSGTYPE_EXTENDED, 0, [0, 0, 0, 0, 0, 0, 0, 0]⟩
         ⟨0x80000123, MSGTYPE_EXTENDED, 0, [0, 0, 0, 0, 0, 0, 0, 0]⟩] ∧
    ¬ (0x80000123 ≤ CAN_MAX_EXTENDED_ID) := by
  decide

/-- Claim C12 fails: with the client registered and the net not found,
`pcan_init` returns the network error and has not called `CAN_RemoveClient`. -/
theorem C12_setup_leak_counterexample :
    (env_nonet.CAN_RegisterClient state0.nRegisterClient).1 = CAN_ERR_OK ∧
    (pcan_init env_nonet state0 conf1).1 = some err_network ∧
    (pcan_init env_nonet state0 conf1).2.trace.filter is_release = [] := by
  decide

/-- Claim C12 as amended.  `pcan_init` never calls `CAN_RemoveClient` or
`CAN_DisconnectFromNet`, whatever it returns; the handles acquired before a
failing step are not released but stay in the session struct (the one
`*backend_handle` points to): after a successful registration `client` is the
handle the driver returned, and after a successful connect `net` is. -/
theorem C12_setup_keeps_handles (e : Env) (s : State) (conf : Conf) :
    (pcan_init e s conf).2.trace.filter is_release = s.trace.filter is_release ∧
    ((canapi2_init e (init_alloc s)).1 = 0 → (pcan_get_config PCAN_zero conf).1 = 0 →
      (pcan_init e s conf).2.pcan.client = (e.CAN_RegisterClient s.nRegisterClient).2 ∧
      ((e.CAN_RegisterClient s.nRegisterClient).1 = CAN_ERR_OK →
        net_found e.netnames (pcan_get_config PCAN_zero conf).2.netname →
        (e.CAN_ConnectToNet s.nConnectToNet).1 = CAN_ERR_OK →
        (pcan_init e s conf).2.pcan.net = (e.CAN_ConnectToNet s.nConnectToNet).2)) := by
  refine ⟨?_, ?_⟩
  · rw [pcan_init_filter is_release e s conf loader_not_release rfl (fun _ _ => rfl)
      (fun _ _ => rfl)]
    have hnil : (run_steps (configured_steps e s conf)).1.filter is_release = [] :=
      run_steps_filter_nil is_release (configured_steps e s conf)
        (setup_steps_no_release e _)
    rw [hnil]
    simp
  · intro hdll hcfg
    obtain ⟨d, n1, n2, l, hst, _⟩ := init_configured_eq e s conf hcfg
    rw [pcan_init_driver e s conf hdll hcfg]
    refine ⟨?_, ?_⟩
    · rw [init_driver_client, hst]
    · intro hr hf hc
      have := init_driver_net e (init_configured e s conf) (by rw [hst]; exact hr)
        (by rw [hst]; exact hf) (by rw [hst]; exact hc)
      rw [this, hst]

theorem C12_setup_keeps_handles_witness :
    (pcan_init env_nonet state0 conf1).2.trace.filter is_release =
      state0.trace.filter is_release ∧
    (pcan_init env_nonet state0 conf1).2.pcan.client =
      (env_nonet.CAN_RegisterClient state0.nRegisterClient).2 :=
  ⟨(C12_setup_keeps_handles env_nonet state0 conf1).1,
   ((C12_setup_keeps_handles env_nonet state0 conf1).2 (by decide) (by decide)).1⟩

/-- Claim C14 fails: the bitrate -1 is not zero and not a rate of the table,
yet setup succeeds. -/
theorem C14_negative_bitrate_counterexample :
    conf_neg.pcanbitrate ≠ 0 ∧ (∀ b ∈ bitrates, b.1 ≠ conf_neg.pcanbitrate) ∧
    (pcan_init env0 state0 conf_neg).1 = none := by
  decide

/-- Claim C14 as amended.  For every requested bitrate that is not one of the
rates of the table, setup never sets a hardware parameter; if the bitrate is
positive and setup gets as far as the bitrate step, it fails with the bitrate
error; if the bitrate is negative the step is skipped as for 0 and setup never
returns the bitrate error. -/
theorem C14_unknown_bitrate (e : Env) (s : State) (conf : Conf)
    (hnot : ∀ b ∈ bitrates, b.1 ≠ conf.pcanbitrate) :
    (pcan_init e s conf).2.trace.filter is_hw_set = s.trace.filter is_hw_set ∧
    (0 < conf.pcanbitrate → (canapi2_init e (init_alloc s)).1 = 0 →
      (pcan_get_config PCAN_zero conf).1 = 0 → reaches_bitrate e s conf →
      (pcan_init e s conf).1 = some err_bitrate) ∧
    (conf.pcanbitrate < 0 → (pcan_init e s conf).1 ≠ some err_bitrate) := by
  have hcalc : pcan_calc_bitrate_reg_value conf.pcanbitrate = -1 :=
    bitrate_lookup_none _ _ hnot
  refine ⟨?_, ?_, ?_⟩
  · apply pcan_init_no_hw_set
    rw [hcalc]
    intro h
    exact absurd h.2 (by decide)
  · intro hpos hdll hcfg hreach
    obtain ⟨l, _, herr, _⟩ := pcan_init_runs e s conf hdll hcfg
    rw [herr, (configured_steps_peel e s conf hcfg hreach).1]
    have h1 : ¬ conf.pcanbitrate ≤ 0 := by omega
    simp only [run_steps, step_bitrate, hcalc, if_neg h1]
    rfl
  · intro hneg
    exact pcan_init_not_bitrate_error e s conf (by omega)

theorem C14_unknown_bitrate_witness :
    (pcan_init env0 state0 conf_odd).2.trace.filter is_hw_set =
      state0.trace.filter is_hw_set ∧
    (pcan_init env0 state0 conf_odd).1 = some err_bitrate :=
  ⟨(C14_unknown_bitrate env0 state0 conf_odd (by decide)).1,
   (C14_unknown_bitrate env0 state0 conf_odd (by decide)).2.1 (by decide) (by decide)
     (by decide) (by decide)⟩

/-- Claim C15. Bitrate 0 leaves the hardware unchanged: with the configured
bitrate 0, setup makes no `CAN_SetHwParam` call and never returns the bitrate
error, whatever the outside answers; with a rate of the table, when setup gets
as far as the bitrate step it makes exactly one `CAN_SetHwParam` call, for
`CAN_PARAM_BAUDRATE` with the register code of the table for that rate, on the
hardware handle of the net; and whatever the outside answers, with a rate of
the table setup makes either no `CAN_SetHwParam` call or that one call. -/
theorem C15_bitrate_zero_or_table (e : Env) (s : State) (conf : Conf) :
    (conf.pcanbitrate = 0 →
      (pcan_init e s conf).2.trace.filter is_hw_set = s.trace.filter is_hw_set ∧
      (pcan_init e s conf).1 ≠ some err_bitrate) ∧
    (∀ code, (conf.pcanbitrate, code) ∈ bitrates →
      (canapi2_init e (init_alloc s)).1 = 0 → (pcan_get_config PCAN_zero conf).1 = 0 →
      reaches_bitrate e s conf →
      (pcan_init e s conf).2.trace.filter is_hw_set =
        s.trace.filter is_hw_set ++
          [Event.CAN_SetHwParam (e.CAN_GetNetParam_NETHW s.nGetNetParam_NETHW).2
            CAN_PARAM_BAUDRATE code.toNat]) ∧
    (∀ code, (conf.pcanbitrate, code) ∈ bitrates →
      (pcan_init e s conf).2.trace.filter is_hw_set = s.trace.filter is_hw_set ∨
      (pcan_init e s conf).2.trace.filter is_hw_set =
        s.trace.filter is_hw_set ++
          [Event.CAN_SetHwParam (e.CAN_GetNetParam_NETHW s.nGetNetParam_NETHW).2
            CAN_PARAM_BAUDRATE code.toNat]) := by
  refine ⟨?_, ?_, ?_⟩
  · intro h0
    refine ⟨?_, pcan_init_not_bitrate_error e s conf (by omega)⟩
    apply pcan_init_no_hw_set
    intro h
    omega
  · intro code hrate hdll hcfg hreach
    exact pcan_init_table_rate e s conf code hrate hdll hcfg hreach
  · intro code hrate
    obtain ⟨hcode, hpos, hcpos⟩ := bitrate_lookup_table _ _ hrate
    obtain ⟨calls, htr, hpre⟩ := pcan_init_hw_set_prefix e s conf
    by_cases hcfg : (pcan_get_config PCAN_zero conf).1 = 0
    · rw [get_config_bitrate PCAN_zero conf hcfg] at hpre
      simp only [step_bitrate, hcode, if_pos (And.intro hpos hcpos)] at hpre
      have hpre2 : calls <+: [Event.CAN_SetHwParam
          (e.CAN_GetNetParam_NETHW s.nGetNetParam_NETHW).2 CAN_PARAM_BAUDRATE code.toNat] := hpre
      rcases calls with _ | ⟨c, rest⟩
      · left
        rw [htr, List.append_nil]
      · right
        obtain ⟨u, hu⟩ := hpre2
        have hlen := congrArg List.length hu
        simp only [List.length_append, List.length_cons, List.length_nil] at hlen
        have hrest : rest = [] := List.eq_nil_of_length_eq_zero (by omega)
        have hunil : u = [] := List.eq_nil_of_length_eq_zero (by omega)
        subst hrest
        subst hunil
        rw [htr]
        rw [List.append_nil] at hu
        rw [hu]
    · left
      rw [pcan_init_filter is_hw_set e s conf loader_not_hw_set rfl (fun _ _ => rfl)
        (fun _ _ => rfl), if_neg (fun h => hcfg h.2), List.append_nil]

theorem C15_bitrate_zero_or_table_witness :
    ((pcan_init env0 state0 conf_ext).2.trace.filter is_hw_set =
        state0.trace.filter is_hw_set ∧
      (pcan_init env0 state0 conf_ext).1 ≠ some err_bitrate) ∧
    (pcan_init env0 state0 conf1).2.trace.filter is_hw_set =
      state0.trace.filter is_hw_set ++
        [Event.CAN_SetHwParam (env0.CAN_GetNetParam_NETHW state0.nGetNetParam_NETHW).2
          CAN_PARAM_BAUDRATE (Int.toNat CAN_BAUD_500K)] :=
  ⟨(C15_bitrate_zero_or_table env0 state0 conf_ext).1 rfl,
   (C15_bitrate_zero_or_table env0 state0 conf1).2.1 CAN_BAUD_500K (by decide) (by decide)
     (by decide) (by decide)⟩

/-- Claim C16 fails: on a net without hardware (handle 0) whose driver rejects
a parameter set on handle 0, setup with the supported bitrate 500 fails with
the bitrate error. -/
theorem C16_virtual_net_counterexample :
    (env_nohw.CAN_GetNetParam_NETHW state0.nGetNetParam_NETHW).2 = 0 ∧
    (conf1.pcanbitrate, (CAN_BAUD_500K : Int)) ∈ bitrates ∧
    (pcan_init env_nohw state0 conf1).1 = some err_bitrate := by
  decide

/-- Claim C16 as amended.  When the hardware handle of the net is 0 and a rate
of the table is requested, the bitrate step is not skipped: setup (once it
gets as far as that step) calls `CAN_SetHwParam` on handle 0 with the table
code, and it fails with the bitrate error iff the driver does not answer
`CAN_ERR_OK` to that call. -/
theorem C16_bitrate_on_virtual_net (e : Env) (s : State) (conf : Conf) (code : Int)
    (hrate : (conf.pcanbitrate, code) ∈ bitrates)
    (hhw : (e.CAN_GetNetParam_NETHW s.nGetNetParam_NETHW).2 = 0)
    (hdll : (canapi2_init e (init_alloc s)).1 = 0)
    (hcfg : (pcan_get_config PCAN_zero conf).1 = 0) (hreach : reaches_bitrate e s conf) :
    (pcan_init e s conf).2.trace.filter is_hw_set =
      s.trace.filter is_hw_set ++ [Event.CAN_SetHwParam 0 CAN_PARAM_BAUDRATE code.toNat] ∧
    ((pcan_init e s conf).1 = some err_bitrate ↔
      e.CAN_SetHwParam s.nSetHwParam ≠ CAN_ERR_OK) := by
  obtain ⟨hcode, hpos, hcpos⟩ := bitrate_lookup_table _ _ hrate
  refine ⟨?_, ?_⟩
  · rw [pcan_init_table_rate e s conf code hrate hdll hcfg hreach, hhw]
  · obtain ⟨l, _, herr, _⟩ := pcan_init_runs e s conf hdll hcfg
    rw [herr, (configured_steps_peel e s conf hcfg hreach).1]
    have h1 : ¬ conf.pcanbitrate ≤ 0 := by omega
    have h2 : ¬ code ≤ 0 := by omega
    have hne : err_thread ≠ err_bitrate := by decide
    have hfail : (step_bitrate (e.CAN_GetNetParam_NETHW s.nGetNetParam_NETHW).2
        conf.pcanbitrate (e.CAN_SetHwParam s.nSetHwParam)).failure =
        if e.CAN_SetHwParam s.nSetHwParam = CAN_ERR_OK then none else some err_bitrate := by
      simp only [step_bitrate, hcode, if_neg h1, if_neg h2]
    by_cases hok : e.CAN_SetHwParam s.nSetHwParam = CAN_ERR_OK
    · rw [if_pos hok] at hfail
      rw [run_steps_skip_err _ _ hfail, run_steps_skip_err _ _ rfl]
      constructor
      · intro h
        obtain ⟨st, hst, hf⟩ := run_steps_msg _ _ h
        simp only [List.mem_cons, List.mem_singleton, List.not_mem_nil, or_false] at hst
        rcases hst with h3 | h3 <;> rw [h3] at hf
        · simp only [step_poller] at hf
          split at hf
          · cases hf
          · exact absurd (Option.some.inj hf) hne
        · cases hf
      · intro h
        exact absurd hok h
    · rw [if_neg hok] at hfail
      simp only [run_steps, hfail]
      exact ⟨fun _ => hok, fun _ => trivial⟩

theorem C16_bitrate_on_virtual_net_witness :
    (pcan_init env_nohw state0 conf1).2.trace.filter is_hw_set =
      state0.trace.filter is_hw_set ++
        [Event.CAN_SetHwParam 0 CAN_PARAM_BAUDRATE (Int.toNat CAN_BAUD_500K)] ∧
    ((pcan_init env_nohw state0 conf1).1 = some err_bitrate ↔
      env_nohw.CAN_SetHwParam state0.nSetHwParam ≠ CAN_ERR_OK) :=
  C16_bitrate_on_virtual_net env_nohw state0 conf1 CAN_BAUD_500K (by decide) (by decide)
    (by decide) (by decide) (by decide)

/-! ### Claims about teardown -/

/-- The session struct after `pcan_terminate`: only the flag and the thread
handle change. -/
theorem terminate_pcan (e : Env) (s : State) :
    (pcan_terminate e s).pcan =
      { s.pcan with rxthread_running := false, rxthread := 0 } := by
  unfold pcan_terminate
  by_cases h : s.pcan.rxthread = 0
  · simp [store_rxthread_running, call_WaitForSingleObject, call_CloseHandle,
      call_CAN_DisconnectFromNet, call_CAN_RemoveClient, h]
  · simp [store_rxthread_running, call_WaitForSingleObject, call_CloseHandle,
      call_CAN_DisconnectFromNet, call_CAN_RemoveClient, h]

/-- The calls of `pcan_terminate`. -/
theorem terminate_trace (e : Env) (s : State) :
    (pcan_terminate e s).trace =
      s.trace ++ [Event.store_rxthread_running false] ++
        (if s.pcan.rxthread ≠ 0 then [Event.WaitForSingleObject s.pcan.rxthread INFINITE]
         else []) ++
        [Event.CloseHandle s.pcan.rxevent,
         Event.CAN_DisconnectFromNet s.pcan.client s.pcan.net,
         Event.CAN_RemoveClient s.pcan.client] := by
  unfold pcan_terminate
  by_cases h : s.pcan.rxthread = 0
  · simp [store_rxthread_running, call_WaitForSingleObject, call_CloseHandle,
      call_CAN_DisconnectFromNet, call_CAN_RemoveClient, h]
  · simp [store_rxthread_running, call_WaitForSingleObject, call_CloseHandle,
      call_CAN_DisconnectFromNet, call_CAN_RemoveClient, h]

/-- Claim C17. Teardown ordering: for a session with a poller thread
(`rxthread` not `NULL`), `pcan_terminate` makes exactly these five effects in
this order: clear the poller-running flag, wait without timeout for the poller
thread, close the wake event, disconnect the client from the net, remove the
client; without a poller thread there is nothing to wait for and the other
four effects are made in the same order.  The sequence is the same whatever the
outside answers to any of the calls, so no later step is skipped. -/
theorem C17_teardown_order (e : Env) (s : State) :
    (s.pcan.rxthread ≠ 0 →
      (pcan_terminate e s).trace = s.trace ++
        [Event.store_rxthread_running false,
         Event.WaitForSingleObject s.pcan.rxthread INFINITE,
         Event.CloseHandle s.pcan.rxevent,
         Event.CAN_DisconnectFromNet s.pcan.client s.pcan.net,
         Event.CAN_RemoveClient s.pcan.client]) ∧
    (s.pcan.rxthread = 0 →
      (pcan_terminate e s).trace = s.trace ++
        [Event.store_rxthread_running false,
         Event.CloseHandle s.pcan.rxevent,
         Event.CAN_DisconnectFromNet s.pcan.client s.pcan.net,
         Event.CAN_RemoveClient s.pcan.client]) ∧
    (pcan_terminate e s).pcan.rxthread_running = false ∧
    (∀ e2 : Env, (pcan_terminate e2 s).trace = (pcan_terminate e s).trace) := by
  refine ⟨?_, ?_, ?_, ?_⟩
  · intro h
    rw [terminate_trace, if_pos h]
    simp
  · intro h
    rw [terminate_trace, if_neg (not_not.2 h)]
    simp
  · rw [terminate_pcan]
  · intro e2
    rw [terminate_trace, terminate_trace]

theorem C17_teardown_order_witness :
    (pcan_terminate env0 (pcan_init env0 state0 conf1).2).trace =
      (pcan_init env0 state0 conf1).2.trace ++
        [Event.store_rxthread_running false,
         Event.WaitForSingleObject (pcan_init env0 state0 conf1).2.pcan.rxthread INFINITE,
         Event.CloseHandle (pcan_init env0 state0 conf1).2.pcan.rxevent,
         Event.CAN_DisconnectFromNet (pcan_init env0 state0 conf1).2.pcan.client
           (pcan_init env0 state0 conf1).2.pcan.net,
         Event.CAN_RemoveClient (pcan_init env0 state0 conf1).2.pcan.client] :=
  (C17_teardown_order env0 (pcan_init env0 state0 conf1).2).1 (by decide)

/-- Claim C18 fails: on the session a successful setup leaves, a second
`pcan_terminate` calls `CloseHandle` on the wake event, `CAN_DisconnectFromNet`
and `CAN_RemoveClient` again. -/
theorem C18_second_call_counterexample :
    (pcan_init env0 state0 conf1).1 = none ∧
    (pcan_terminate env0 (pcan_terminate env0 (pcan_init env0 state0 conf1).2)).trace =
      (pcan_terminate env0 (pcan_init env0 state0 conf1).2).trace ++
        [Event.store_rxthread_running false, Event.CloseHandle 0x200,
         Event.CAN_DisconnectFromNet 1 7, Event.CAN_RemoveClient 1] := by
  decide

/-- Claim C18 as amended.  One `pcan_terminate` disconnects and removes the
client exactly once, and leaves `rxthread` `NULL` and the wake event, client
and net handles as they were in the session struct.  A second
`pcan_terminate` on the same struct therefore does not wait on the poller
thread, but it clears the flag again and calls `CloseHandle` on the wake event,
`CAN_DisconnectFromNet` and `CAN_RemoveClient` a second time, with the same
handles as the first call: only the wait is guarded. -/
theorem C18_teardown_repeated (e : Env) (s : State) :
    (pcan_terminate e s).trace.filter is_release =
      s.trace.filter is_release ++
        [Event.CAN_DisconnectFromNet s.pcan.client s.pcan.net,
         Event.CAN_RemoveClient s.pcan.client] ∧
    (pcan_terminate e s).pcan.rxthread = 0 ∧
    (pcan_terminate e s).pcan.rxevent = s.pcan.rxevent ∧
    (pcan_terminate e s).pcan.client = s.pcan.client ∧
    (pcan_terminate e s).pcan.net = s.pcan.net ∧
    (pcan_terminate e (pcan_terminate e s)).trace =
      (pcan_terminate e s).trace ++
        [Event.store_rxthread_running false,
         Event.CloseHandle s.pcan.rxevent,
         Event.CAN_DisconnectFromNet s.pcan.client s.pcan.net,
         Event.CAN_RemoveClient s.pcan.client] ∧
    (pcan_terminate e (pcan_terminate e s)).trace.filter is_release =
      s.trace.filter is_release ++
        [Event.CAN_DisconnectFromNet s.pcan.client s.pcan.net,
         Event.CAN_RemoveClient s.pcan.client,
         Event.CAN_DisconnectFromNet s.pcan.client s.pcan.net,
         Event.CAN_RemoveClient s.pcan.client] := by
  have h1 : (pcan_terminate e s).trace.filter is_release =
      s.trace.filter is_release ++
        [Event.CAN_DisconnectFromNet s.pcan.client s.pcan.net,
         Event.CAN_RemoveClient s.pcan.client] := by
    rw [terminate_trace]
    by_cases h : s.pcan.rxthread = 0
    · simp [List.filter_append, List.filter_cons, is_release, h]
    · simp [List.filter_append, List.filter_cons, is_release, h]
  have h2 : (pcan_terminate e (pcan_terminate e s)).trace =
      (pcan_terminate e s).trace ++
        [Event.store_rxthread_running false,
         Event.CloseHandle s.pcan.rxevent,
         Event.CAN_DisconnectFromNet s.pcan.client s.pcan.net,
         Event.CAN_RemoveClient s.pcan.client] := by
    rw [terminate_trace e (pcan_terminate e s), terminate_pcan]
    simp
  refine ⟨h1, ?_, ?_, ?_, ?_, h2, ?_⟩
  · rw [terminate_pcan]
  · rw [terminate_pcan]
  · rw [terminate_pcan]
  · rw [terminate_pcan]
  · rw [h2, List.filter_append, h1]
    simp [List.filter_cons, is_release]

/-! ### Claims about bus-off status frames -/

theorem and16_add (a k : Nat) : (a + 256 * k) &&& 16 = a &&& 16 := by
  have h : (16 : Nat) = 2 ^ 4 := by norm_num
  rw [h, Nat.and_two_pow, Nat.and_two_pow, Nat.testBit_to_div_mod, Nat.testBit_to_div_mod]
  have : (a + 256 * k) / 2 ^ 4 % 2 = a / 2 ^ 4 % 2 := by omega
  rw [this]

/-- The bus-off bit of the 32-bit word read at `DATA[0]` is the bit `0x10` of
payload byte 0. -/
theorem status_busoff_bit (d : List Nat) :
    status_of_DATA d &&& CAN_ERR_BUSOFF = d.getD 0 0 &&& CAN_ERR_BUSOFF := by
  have h : status_of_DATA d =
      d.getD 0 0 + 256 * (d.getD 1 0 + 256 * d.getD 2 0 + 65536 * d.getD 3 0) := by
    unfold status_of_DATA
    ring
  rw [h]
  exact and16_add _ _

/-- The word read at `DATA[0]` is the little-endian number of payload bytes 0..3. -/
theorem status_little_endian (d : List Nat) :
    status_of_DATA d = Nat.ofDigits 256 (d.take 4) := by
  unfold status_of_DATA
  rcases d with _ | ⟨a, _ | ⟨b, _ | ⟨c, _ | ⟨x, t⟩⟩⟩⟩ <;>
    simp [Nat.ofDigits] <;> ring

/-- What one `pcan_read_message` does on a queue `q`, counted in recoveries:
one for every bus-off status frame it reads. -/
theorem read_message_recoveries (e : Env) :
    ∀ (q : List TCANMsg) (fuel : Nat) (s : State) (msg : TCANMsg),
      QueueAt e s.nRead q → q.length < fuel →
      ∃ (b : Bool) (m : TCANMsg) (s1 : State),
        pcan_read_message e fuel s msg = Except.ok (b, m, s1) ∧
        ((b = false ∧ s1.nRead = s.nRead + q.length + 1 ∧
            recoveries s1.trace = recoveries s.trace + q.countP is_busoff_status) ∨
         (b = true ∧ ∃ pre rest, q = pre ++ m :: rest ∧ is_busoff_status m = false ∧
            QueueAt e s1.nRead rest ∧ s1.nRead = s.nRead + pre.length + 1 ∧
            recoveries s1.trace = recoveries s.trace + pre.countP is_busoff_status)) := by
  intro q
  induction q with
  | nil =>
    intro fuel s msg hq hfuel
    obtain ⟨n, rfl⟩ : ∃ n, fuel = n + 1 := ⟨fuel - 1, by simp at hfuel; omega⟩
    have hne : (e.CAN_Read s.nRead).1 ≠ CAN_ERR_OK := by
      have h : (e.CAN_Read s.nRead).1 = CAN_ERR_QRCVEMPTY := hq
      rw [h]; decide
    refine ⟨false, _, _, read_step_fail e n s msg hne, Or.inl ⟨rfl, rfl, ?_⟩⟩
    simp [recoveries_append, recoveries]
  | cons f q ih =>
    intro fuel s msg hq hfuel
    obtain ⟨n, rfl⟩ : ∃ n, fuel = n + 1 := ⟨fuel - 1, by simp at hfuel; omega⟩
    have hn : q.length < n := by simp at hfuel; omega
    obtain ⟨hread, hrest⟩ : e.CAN_Read s.nRead = (CAN_ERR_OK, f) ∧ QueueAt e (s.nRead + 1) q := hq
    rw [read_step_ok e n s msg f hread]
    have skip : ∀ (s1 : State) (c : Nat), s1.nRead = s.nRead + 1 →
        recoveries s1.trace = recoveries s.trace + c →
        [f].countP is_busoff_status = c →
        ∃ (b : Bool) (m : TCANMsg) (s2 : State),
          pcan_read_message e n s1 f = Except.ok (b, m, s2) ∧
          ((b = false ∧ s2.nRead = s.nRead + (f :: q).length + 1 ∧
              recoveries s2.trace = recoveries s.trace + (f :: q).countP is_busoff_status) ∨
           (b = true ∧ ∃ pre rest, f :: q = pre ++ m :: rest ∧ is_busoff_status m = false ∧
              QueueAt e s2.nRead rest ∧ s2.nRead = s.nRead + pre.length + 1 ∧
              recoveries s2.trace = recoveries s.trace + pre.countP is_busoff_status)) := by
      intro s1 c hr hrec hc
      obtain ⟨b, m, s2, hrun, hcase⟩ := ih n s1 f (by rw [hr]; exact hrest) hn
      refine ⟨b, m, s2, hrun, ?_⟩
      have hcons : ∀ l : List TCANMsg,
          (f :: l).countP is_busoff_status = c + l.countP is_busoff_status := by
        intro l
        have h := List.countP_append is_busoff_status [f] l
        rw [hc] at h
        exact h
      rcases hcase with ⟨hb, hnr, hrc⟩ | ⟨hb, pre, rest, hsplit, hm, hqr, hnr, hrc⟩
      · left
        refine ⟨hb, ?_, ?_⟩
        · rw [hnr, hr, List.length_cons]; omega
        · rw [hrc, hrec, hcons]; omega
      · right
        refine ⟨hb, f :: pre, rest, by rw [hsplit]; rfl, hm, hqr, ?_, ?_⟩
        · rw [hnr, hr, List.length_cons]; omega
        · rw [hrc, hrec, hcons]; omega
    have hstatus : ∀ b : Bool, (f.MSGTYPE = MSGTYPE_STATUS ∧
        status_of_DATA f.DATA &&& CAN_ERR_BUSOFF ≠ 0 ↔ b = true) →
        [f].countP is_busoff_status = if b then 1 else 0 := by
      intro b hb
      have : is_busoff_status f = b := by
        cases b
        · cases h : is_busoff_status f
          · rfl
          · simp only [is_busoff_status, decide_eq_true_eq, ← status_busoff_bit] at h
            exact absurd (hb.1 h) (by decide)
        · have h := hb.2 rfl
          simp only [is_busoff_status, decide_eq_true_eq, ← status_busoff_bit]
          exact h
      cases b <;> simp [List.countP_cons, this]
    by_cases hkind : f.MSGTYPE = MSGTYPE_STANDARD ∨ f.MSGTYPE = MSGTYPE_EXTENDED
    · have hnot : ¬ f.MSGTYPE = MSGTYPE_STATUS := by
        rcases hkind with h | h <;> rw [h] <;> decide
      have hcnt := hstatus false ⟨fun h => absurd h.1 hnot, fun h => by cases h⟩
      rw [if_pos hkind]
      by_cases hid : effective_id f = s.pcan.rxid
      · rw [if_pos hid]
        refine ⟨true, f, _, rfl, Or.inr ⟨rfl, [], q, rfl, ?_, hrest, rfl, ?_⟩⟩
        · simpa [List.countP_cons] using hcnt
        · simp [recoveries_append, recoveries]
      · rw [if_neg hid]
        refine skip _ 0 rfl ?_ hcnt
        simp [recoveries_append, recoveries]
    · rw [if_neg hkind]
      by_cases hst : f.MSGTYPE = MSGTYPE_STATUS
      · rw [if_pos hst]
        by_cases hbo : status_of_DATA f.DATA &&& CAN_ERR_BUSOFF ≠ 0
        · rw [if_pos hbo]
          refine skip _ 1 ?_ ?_ (hstatus true ⟨fun _ => rfl, fun _ => ⟨hst, hbo⟩⟩)
          · rw [clear_busoff_nRead]; rfl
          · rw [clear_busoff_recoveries]
            simp [call_logeventf, recoveries_append, recoveries]
        · rw [if_neg hbo]
          refine skip _ 0 rfl ?_ (hstatus false ⟨fun h => absurd h.2 hbo, fun h => by cases h⟩)
          simp [recoveries_append, recoveries]
      · rw [if_neg hst]
        refine skip _ 0 rfl ?_ (hstatus false ⟨fun h => absurd h.1 hst, fun h => by cases h⟩)
        simp [recoveries_append, recoveries]

/-- The loop of `pcan_rxevent_callback` on a queue `q`, counted in recoveries. -/
theorem rxevent_loop_recoveries (e : Env) (fuel : Nat) :
    ∀ (n : Nat) (q : List TCANMsg) (s : State) (msg : TCANMsg),
      QueueAt e s.nRead q → q.length < fuel → q.length < n →
      ∃ s1 : State,
        pcan_rxevent_loop e fuel n s msg = Except.ok s1 ∧
        s1.nRead = s.nRead + q.length + 1 ∧
        recoveries s1.trace = recoveries s.trace + q.countP is_busoff_status := by
  intro n
  induction n with
  | zero => intro q s msg _ _ hn; omega
  | succ n ih =>
    intro q s msg hq hfuel hn
    obtain ⟨b, m, s1, hrun, hcase⟩ := read_message_recoveries e q fuel s msg hq hfuel
    rcases hcase with ⟨hb, hnr, hrc⟩ | ⟨hb, pre, rest, hsplit, hm, hqr, hnr, hrc⟩
    · subst hb
      refine ⟨s1, ?_, hnr, hrc⟩
      rw [pcan_rxevent_loop, hrun]
    · subst hb
      have hlen : q.length = pre.length + rest.length + 1 := by rw [hsplit]; simp; omega
      have hcount : q.countP is_busoff_status =
          pre.countP is_busoff_status + rest.countP is_busoff_status := by
        rw [hsplit, List.countP_append, List.countP_cons, hm]; simp
      obtain ⟨s2, hs2⟩ : ∃ s2, s2 =
          (if (call_seat_stdout e s1 m.DATA m.LEN).1 > 0 then
            call_logeventf (call_seat_stdout e s1 m.DATA m.LEN).2 fmt_rejected
              [m.LEN, (call_seat_stdout e s1 m.DATA m.LEN).1]
           else (call_seat_stdout e s1 m.DATA m.LEN).2) := ⟨_, rfl⟩
      have h2r : s2.nRead = s1.nRead := by rw [hs2]; split <;> rfl
      have h2c : recoveries s2.trace = recoveries s1.trace := by
        rw [hs2]; split <;>
          simp [call_logeventf, call_seat_stdout, recoveries_append, recoveries]
      obtain ⟨s3, hrun3, hnr3, hrc3⟩ :=
        ih rest s2 m (by rw [h2r]; exact hqr) (by omega) (by omega)
      refine ⟨s3, ?_, ?_, ?_⟩
      · rw [pcan_rxevent_loop, hrun]
        simp only []
        rw [← hs2]; exact hrun3
      · rw [hnr3, h2r, hnr, hlen]; omega
      · rw [hrc3, h2c, hrc, hcount]; omega

/-- Claim C19 fails for the parameter kind: a drain that reads a frame of kind
`MSGTYPE_PARAMETER` whose payload has the bus-off bit returns without any
recovery. -/
theorem C19_parameter_frame_counterexample :
    QueueAt env_param state0.nRead [frame_param] ∧
    frame_param.MSGTYPE = MSGTYPE_PARAMETER ∧
    status_of_DATA frame_param.DATA &&& CAN_ERR_BUSOFF ≠ 0 ∧
    (∃ s1 : State, pcan_rxevent_callback env_param 2 state0 default = Except.ok s1 ∧
      s1.nRead = state0.nRead + 2 ∧ recoveries s1.trace = recoveries state0.trace) :=
  ⟨⟨rfl, rfl⟩, rfl, by decide, _, rfl, rfl, rfl⟩

/-- Claim C19 as amended.  For every frame the dispatcher reads: when its kind
is `MSGTYPE_STATUS`, the dispatcher reads payload bytes 0..3 as a 32-bit
little-endian status bitmask and, iff the bus-off bit `0x10` (of byte 0) is
set, logs the bus-off and invokes the recovery once before reading on; when its
kind is `MSGTYPE_PARAMETER` the frame is discarded without any recovery.  In
both cases the frame is not accepted by the receive filter, so nothing of it is
forwarded upstream. -/
theorem C19_status_dispatch (e : Env) (fuel : Nat) (s : State) (msg f : TCANMsg)
    (h : e.CAN_Read s.nRead = (CAN_ERR_OK, f)) :
    (f.MSGTYPE = MSGTYPE_STATUS →
      status_of_DATA f.DATA = status_word f ∧
      (status_of_DATA f.DATA &&& CAN_ERR_BUSOFF ≠ 0 ↔ busoff_bit f = true) ∧
      pcan_read_message e (fuel + 1) s msg =
        pcan_read_message e fuel
          (if busoff_bit f then
             pcan_clear_busoff e
               (call_logeventf (call_CAN_Read e s s.pcan.client).2.2 fmt_busoff [])
           else (call_CAN_Read e s s.pcan.client).2.2) f ∧
      recoveries (if busoff_bit f then
             pcan_clear_busoff e
               (call_logeventf (call_CAN_Read e s s.pcan.client).2.2 fmt_busoff [])
           else (call_CAN_Read e s s.pcan.client).2.2).trace =
        recoveries s.trace + (if busoff_bit f then 1 else 0) ∧
      upstream (if busoff_bit f then
             pcan_clear_busoff e
               (call_logeventf (call_CAN_Read e s s.pcan.client).2.2 fmt_busoff [])
           else (call_CAN_Read e s s.pcan.client).2.2).trace = upstream s.trace ∧
      accepted s.pcan.rxid f = false) ∧
    (f.MSGTYPE = MSGTYPE_PARAMETER →
      pcan_read_message e (fuel + 1) s msg =
        pcan_read_message e fuel (call_CAN_Read e s s.pcan.client).2.2 f ∧
      recoveries (call_CAN_Read e s s.pcan.client).2.2.trace = recoveries s.trace ∧
      upstream (call_CAN_Read e s s.pcan.client).2.2.trace = upstream s.trace ∧
      accepted s.pcan.rxid f = false) := by
  have hstate : (call_CAN_Read e s s.pcan.client).2.2 =
      { s with nRead := s.nRead + 1, trace := s.trace ++ [Event.CAN_Read s.pcan.client] } := rfl
  have hbit : status_of_DATA f.DATA &&& CAN_ERR_BUSOFF ≠ 0 ↔ busoff_bit f = true := by
    simp only [busoff_bit, decide_eq_true_eq, status_busoff_bit]
  have hnacc : ¬ (f.MSGTYPE = MSGTYPE_STANDARD ∨ f.MSGTYPE = MSGTYPE_EXTENDED) →
      accepted s.pcan.rxid f = false := by
    intro hk
    cases hacc : accepted s.pcan.rxid f
    · rfl
    · exact absurd ((accepted_iff _ _).1 hacc).1 hk
  refine ⟨?_, ?_⟩
  · intro hst
    have hkind : ¬ (f.MSGTYPE = MSGTYPE_STANDARD ∨ f.MSGTYPE = MSGTYPE_EXTENDED) := by
      rw [hst]; decide
    refine ⟨status_little_endian f.DATA, hbit, ?_, ?_, ?_, hnacc hkind⟩
    · rw [read_step_ok e fuel s msg f h, if_neg hkind, if_pos hst, hstate]
      by_cases hb : busoff_bit f = true
      · rw [if_pos (hbit.2 hb), if_pos hb]
      · rw [if_neg (fun hx => hb (hbit.1 hx)), if_neg hb]
    · by_cases hb : busoff_bit f = true
      · rw [if_pos hb, if_pos hb, clear_busoff_recoveries]
        simp [call_logeventf, call_CAN_Read, recoveries_append, recoveries]
      · rw [if_neg hb, if_neg hb]
        simp [call_CAN_Read, recoveries_append, recoveries]
    · by_cases hb : busoff_bit f = true
      · rw [if_pos hb, clear_busoff_upstream]
        simp [call_logeventf, call_CAN_Read, upstream_append, upstream]
      · rw [if_neg hb]
        simp [call_CAN_Read, upstream_append, upstream]
  · intro hpar
    have hkind : ¬ (f.MSGTYPE = MSGTYPE_STANDARD ∨ f.MSGTYPE = MSGTYPE_EXTENDED) := by
      rw [hpar]; decide
    have hst : ¬ f.MSGTYPE = MSGTYPE_STATUS := by rw [hpar]; decide
    refine ⟨?_, ?_, ?_, hnacc hkind⟩
    · rw [read_step_ok e fuel s msg f h, if_neg hkind, if_neg hst, hstate]
    · simp [call_CAN_Read, recoveries_append, recoveries]
    · simp [call_CAN_Read, upstream_append, upstream]

theorem C19_status_dispatch_witness :
    status_of_DATA [0x10, 0, 0, 0, 0, 0, 0, 0] =
      status_word ⟨0, MSGTYPE_STATUS, 4, [0x10, 0, 0, 0, 0, 0, 0, 0]⟩ ∧
    pcan_read_message env1 3
        { state0 with nRead := 2 } default =
      pcan_read_message env1 2
        (pcan_clear_busoff env1
          (call_logeventf
            (call_CAN_Read env1 { state0 with nRead := 2 } state0.pcan.client).2.2
            fmt_busoff []))
        ⟨0, MSGTYPE_STATUS, 4, [0x10, 0, 0, 0, 0, 0, 0, 0]⟩ :=
  ⟨((C19_status_dispatch env1 2 { state0 with nRead := 2 } default
      ⟨0, MSGTYPE_STATUS, 4, [0x10, 0, 0, 0, 0, 0, 0, 0]⟩ rfl).1 rfl).1,
   ((C19_status_dispatch env1 2 { state0 with nRead := 2 } default
      ⟨0, MSGTYPE_STATUS, 4, [0x10, 0, 0, 0, 0, 0, 0, 0]⟩ rfl).1 rfl).2.2.1⟩

/-- Claim C20. Recovery once per occurrence: when the driver receive queue
holds the frames `q` followed by "queue empty", one drain
(`pcan_rxevent_callback`, with fuel above the queue length) returns after
reading all of `q`, and the number of recoveries it invokes is the number of
bus-off status frames in `q`; a queue of `k` bus-off status frames gives
exactly `k` recoveries, and a queue without status frames gives none. -/
theorem C20_recovery_per_frame (e : Env) (s : State) (q : List TCANMsg) (fuel : Nat)
    (msg : TCANMsg) (hq : QueueAt e s.nRead q) (hfuel : q.length < fuel) :
    ∃ s1 : State,
      pcan_rxevent_callback e fuel s msg = Except.ok s1 ∧
      s1.nRead = s.nRead + q.length + 1 ∧
      recoveries s1.trace = recoveries s.trace + q.countP is_busoff_status ∧
      ((∀ f ∈ q, is_busoff_status f = true) →
        recoveries s1.trace = recoveries s.trace + q.length) ∧
      ((∀ f ∈ q, f.MSGTYPE ≠ MSGTYPE_STATUS) → recoveries s1.trace = recoveries s.trace) := by
  obtain ⟨s1, hrun, hnr, hrc⟩ := rxevent_loop_recoveries e fuel fuel q s msg hq hfuel hfuel
  refine ⟨s1, hrun, hnr, hrc, ?_, ?_⟩
  · intro hall
    rw [hrc, List.countP_eq_length.2 hall]
  · intro hnone
    have h0 : q.countP is_busoff_status = 0 := by
      rw [List.countP_eq_zero]
      intro f hf hb
      simp only [is_busoff_status, decide_eq_true_eq] at hb
      exact hnone f hf hb.1
    rw [hrc, h0]
    rfl

theorem C20_recovery_per_frame_witness :
    ∃ s1 : State,
      pcan_rxevent_callback env1 6 state0 default = Except.ok s1 ∧
      s1.nRead = state0.nRead + queue1.length + 1 ∧
      recoveries s1.trace = recoveries state0.trace + queue1.countP is_busoff_status ∧
      ((∀ f ∈ queue1, is_busoff_status f = true) →
        recoveries s1.trace = recoveries state0.trace + queue1.length) ∧
      ((∀ f ∈ queue1, f.MSGTYPE ≠ MSGTYPE_STATUS) →
        recoveries s1.trace = recoveries state0.trace) :=
  C20_recovery_per_frame env1 state0 queue1 6 default
    ⟨rfl, rfl, rfl, rfl, rfl, rfl⟩ (by decide)

/-! ## Bus-off recovery -/

/-- Claim C21. Recovery procedure: each invocation of `pcan_clear_busoff`
makes exactly one fast bus-on attempt (`CAN_SetHwParam` with `CAN_PARAM_BUSON`
and value 1) on the hardware handle, then `CAN_ResetHardware` exactly once iff
the attempt did not return `CAN_ERR_OK` (and not at all otherwise), then the
`Sleep(100)`; nothing else is called and nothing is retried. -/
theorem C21_recovery_procedure (e : Env) (s : State) :
    (pcan_clear_busoff e s).trace =
      s.trace ++ [Event.CAN_SetHwParam s.pcan.hw CAN_PARAM_BUSON 1] ++
        (if e.CAN_SetHwParam s.nSetHwParam ≠ CAN_ERR_OK then
          [Event.CAN_ResetHardware s.pcan.hw] else []) ++
        [Event.Sleep 100] ∧
    (pcan_clear_busoff e s).nSetHwParam = s.nSetHwParam + 1 ∧
    (pcan_clear_busoff e s).nResetHardware =
      s.nResetHardware + (if e.CAN_SetHwParam s.nSetHwParam ≠ CAN_ERR_OK then 1 else 0) := by
  unfold pcan_clear_busoff call_Sleep call_CAN_ResetHardware call_CAN_SetHwParam
  dsimp only
  by_cases h : e.CAN_SetHwParam s.nSetHwParam = CAN_ERR_OK
  · simp [h]
  · simp [h]

/-! ## The bitrate table -/

/-- A rate that is in no entry of the table has no code. -/
theorem calc_bitrate_none (b : Int) (h : b ∉ bitrates.map Prod.fst) :
    pcan_calc_bitrate_reg_value b = -1 := by
  apply bitrate_lookup_none
  intro x hx hb
  exact h (List.mem_map.2 ⟨x, hx, hb⟩)

/-- Claim C23. Bitrate Table lookup: the table holds the 13 rates with the
codes of the claim; `pcan_calc_bitrate_reg_value` returns for each rate of the
table the code of its entry and -1 for every other integer; every code it
returns for a rate of the table is positive (so -1 is never a code), and
distinct rates of the table have distinct codes. -/
theorem C23_bitrate_table :
    bitrates = [(5, 0x7F7F), (10, 0x672F), (20, 0x532F), (40, 0x492F), (50, 0x472F),
      (100, 0x432F), (125, 0x031C), (200, 0x815C), (250, 0x011C), (400, 0x804D),
      (500, 0x001C), (800, 0x0016), (1000, 0x0014)] ∧
    (∀ b ∈ bitrates, pcan_calc_bitrate_reg_value b.1 = b.2) ∧
    (∀ b : Int, b ∉ bitrates.map Prod.fst → pcan_calc_bitrate_reg_value b = -1) ∧
    (∀ b ∈ bitrates.map Prod.fst, 0 < pcan_calc_bitrate_reg_value b) ∧
    (∀ a ∈ bitrates.map Prod.fst, ∀ b ∈ bitrates.map Prod.fst,
      pcan_calc_bitrate_reg_value a = pcan_calc_bitrate_reg_value b → a = b) := by
  refine ⟨by decide, by decide, calc_bitrate_none, by decide, by decide⟩

theorem C23_bitrate_table_witness :
    pcan_calc_bitrate_reg_value 500 = 0x001C ∧ pcan_calc_bitrate_reg_value 300 = -1 ∧
    0 < pcan_calc_bitrate_reg_value 40 :=
  ⟨C23_bitrate_table.2.1 (500, 0x001C) (by decide),
   C23_bitrate_table.2.2.1 300 (by decide),
   C23_bitrate_table.2.2.2.1 40 (by decide)⟩

/-- Claim C28. Register codes agree with their labelled bitrates: with the
BTR0/BTR1 fields decoded as in the claim, rate times (BRP + 1) times
(1 + TSEG1 + TSEG2) is 8000 for each of the 13 entries of the table, and the four
codes defined in pcan.c decode to the values of their comments: T1 = 1 + TSEG1,
T2 = TSEG2, the sample point T1 / (T1 + T2) in percent (exactly), and SJW. -/
theorem C28_register_codes :
    bitrates.map btr_product = List.replicate 13 8000 ∧
    btr_comment PEAK2_CAN_BAUD_40 = (17, 3, 85, 2) ∧
    btr_comment PEAK2_CAN_BAUD_200 = (14, 6, 70, 3) ∧
    btr_comment PEAK2_CAN_BAUD_400 = (15, 5, 75, 3) ∧
    btr_comment PEAK2_CAN_BAUD_800 = (8, 2, 80, 1) ∧
    [PEAK2_CAN_BAUD_40, PEAK2_CAN_BAUD_200, PEAK2_CAN_BAUD_400, PEAK2_CAN_BAUD_800].map
        (fun c => 100 * (1 + btr_TSEG1 c) % (1 + btr_TSEG1 c + btr_TSEG2 c)) = [0, 0, 0, 0] ∧
    [pcan_calc_bitrate_reg_value 40, pcan_calc_bitrate_reg_value 200,
      pcan_calc_bitrate_reg_value 400, pcan_calc_bitrate_reg_value 800] =
      [(PEAK2_CAN_BAUD_40 : Int), (PEAK2_CAN_BAUD_200 : Int), (PEAK2_CAN_BAUD_400 : Int),
        (PEAK2_CAN_BAUD_800 : Int)] := by
  decide

/-! ## The driver library -/

/-- What `canapi2_init` returns and leaves in the library handle: 0 with the
library loaded, or -1 with the handle `NULL`. -/
theorem canapi2_init_result (e : Env) (s : State) :
    ((canapi2_init e s).1 = 0 ∧ (canapi2_init e s).2.dll.handle ≠ 0) ∨
    ((canapi2_init e s).1 = -1 ∧ (canapi2_init e s).2.dll.handle = 0) := by
  unfold canapi2_init
  split
  · rename_i h
    exact Or.inl ⟨rfl, h⟩
  · dsimp only
    split
    · rename_i h
      exact Or.inr ⟨rfl, h⟩
    · rename_i h
      split
      · exact Or.inr ⟨rfl, rfl⟩
      · exact Or.inl ⟨rfl, h⟩

/-- After a load that returns 0, the eighteen pointers the check of
canapi2.c 90-96 names are not `NULL`. -/
theorem canapi2_init_checked (e : Env) (s : State) (h0 : s.dll.handle = 0)
    (hr : (canapi2_init e s).1 = 0) :
    (canapi2_init e s).2.dll.PEAK_RegisterClient ≠ 0 ∧
    (canapi2_init e s).2.dll.PEAK_ConnectToNet ≠ 0 ∧
    (canapi2_init e s).2.dll.PEAK_DisconnectFromNet ≠ 0 ∧
    (canapi2_init e s).2.dll.PEAK_GetNetParam ≠ 0 ∧
    (canapi2_init e s).2.dll.PEAK_ResetHardware ≠ 0 ∧
    (canapi2_init e s).2.dll.PEAK_RegisterMsg ≠ 0 ∧
    (canapi2_init e s).2.dll.PEAK_RegisterNet ≠ 0 ∧
    (canapi2_init e s).2.dll.PEAK_GetClientParam ≠ 0 ∧
    (canapi2_init e s).2.dll.PEAK_SetClientParam ≠ 0 ∧
    (canapi2_init e s).2.dll.PEAK_SetHwParam ≠ 0 ∧
    (canapi2_init e s).2.dll.PEAK_RemoveClient ≠ 0 ∧
    (canapi2_init e s).2.dll.PEAK_Read ≠ 0 ∧
    (canapi2_init e s).2.dll.PEAK_Write ≠ 0 ∧
    (canapi2_init e s).2.dll.PEAK_GetSystemTime ≠ 0 ∧
    (canapi2_init e s).2.dll.PEAK_Status ≠ 0 ∧
    (canapi2_init e s).2.dll.PEAK_GetErrText ≠ 0 ∧
    (canapi2_init e s).2.dll.PEAK_GetHwParam ≠ 0 ∧
    (canapi2_init e s).2.dll.PEAK_GetDeviceName ≠ 0 := by
  unfold canapi2_init at hr ⊢
  rw [if_neg (not_not.2 h0)] at hr ⊢
  dsimp only at hr ⊢
  split at hr
  · exact absurd (show (-1 : Int) = 0 from hr) (by decide)
  · rename_i hh
    rw [if_neg hh]
    split at hr
    · exact absurd (show (-1 : Int) = 0 from hr) (by decide)
    · rename_i hc
      rw [if_neg hc]
      simp only [not_or] at hc
      obtain ⟨c1, c2, c3, c4, c5, c6, _, c8, c9, c10, c11, c12, c13, c14, c15, c16, c17, c18,
        c19⟩ := hc
      exact ⟨c1, c2, c19, c3, c4, c5, c6, c8, c9, c10, c11, c12, c13, c14, c15, c16, c18, c17⟩

/-- Claim C29, evaluated for a driver library that has every symbol but
`CAN_SetDeviceName`: `canapi2_init` returns 0, the library stays loaded, and
the pointer `PEAK_SetDeviceName`, which `CAN_SetDeviceName` calls through, is
`NULL`.  The other half of the claim holds for every state and all answers:
`canapi2_init` returns 0 with the library handle set or -1 with the handle
`NULL`. -/
theorem C29_setdevicename_unchecked :
    state0.dll.handle = 0 ∧
    (canapi2_init env_nosetname state0).1 = 0 ∧
    (canapi2_init env_nosetname state0).2.dll.handle ≠ 0 ∧
    (canapi2_init env_nosetname state0).2.dll.PEAK_SetDeviceName = 0 ∧
    (canapi2_init env_nosetname state0).2.trace.filter
        (fun ev => decide (ev = Event.GetProcAddress 0x10000 "CAN_SetDeviceName")) =
      [Event.GetProcAddress 0x10000 "CAN_SetDeviceName"] ∧
    (∀ (e : Env) (s : State),
      ((canapi2_init e s).1 = 0 ∧ (canapi2_init e s).2.dll.handle ≠ 0) ∨
      ((canapi2_init e s).1 = -1 ∧ (canapi2_init e s).2.dll.handle = 0)) :=
  ⟨by decide, by decide, by decide, by decide, by decide, canapi2_init_result⟩

/-! ## The poller thread -/

/-- One turn of the poller loop that finds the flag set. -/
theorem rx_thread_turn_set (e : Env) (s : State) (h : e.rxthread_running s.nFlagLoad = true) :
    pcan_rx_thread_turn e s =
      if (e.CAN_GetClientParam s.nGetClientParam).1 = CAN_ERR_OK then
        Poller.running
          { s with nFlagLoad := s.nFlagLoad + 1, nGetClientParam := s.nGetClientParam + 1,
                   trace := s.trace ++ turn_events s.pcan.client s.pcan.rxevent
                     (e.CAN_GetClientParam s.nGetClientParam).2 }
      else
        Poller.aborted
          { s with nFlagLoad := s.nFlagLoad + 1, nGetClientParam := s.nGetClientParam + 1,
                   trace := s.trace ++ [Event.load_rxthread_running true,
                     Event.CAN_GetClientParam s.pcan.client CAN_PARAM_RCVQUEUEFILL] } := by
  unfold pcan_rx_thread_turn load_rxthread_running pcan_rx_thread_body call_CAN_GetClientParam
  dsimp only
  rw [h]
  simp only [if_true]
  by_cases hc : (e.CAN_GetClientParam s.nGetClientParam).1 = CAN_ERR_OK
  · rw [if_pos hc, if_pos hc]
    by_cases hf : (e.CAN_GetClientParam s.nGetClientParam).2 % 2 ^ 32 > 0
    · have hf2 : 0 < (e.CAN_GetClientParam s.nGetClientParam).2 % 2 ^ 32 := hf
      rw [if_pos hf]
      simp only [turn_events, if_pos hf2, call_SetEvent, call_Sleep, List.append_assoc]
      rfl
    · have hf2 : ¬ 0 < (e.CAN_GetClientParam s.nGetClientParam).2 % 2 ^ 32 := hf
      rw [if_neg hf]
      simp only [turn_events, if_neg hf2, call_Sleep, List.append_assoc, List.append_nil]
      rfl
  · rw [if_neg hc, if_neg hc]
    simp only [List.append_assoc]
    rfl

/-- One turn of the poller loop that finds the flag clear. -/
theorem rx_thread_turn_clear (e : Env) (s : State)
    (h : e.rxthread_running s.nFlagLoad = false) :
    pcan_rx_thread_turn e s =
      Poller.exited 0
        { s with nFlagLoad := s.nFlagLoad + 1,
                 trace := s.trace ++ [Event.load_rxthread_running false] } := by
  unfold pcan_rx_thread_turn load_rxthread_running
  simp [h]

/-- A run of the poller thread while the flag is set and the queries succeed. -/
theorem rx_thread_run (e : Env) :
    ∀ (fills : List Nat) (fuel : Nat) (s : State),
      PollAt e s.nFlagLoad s.nGetClientParam fills → fills.length < fuel →
      ∃ s1 : State,
        pcan_rx_thread e fuel s = Except.ok (0, s1) ∧
        s1.pcan = s.pcan ∧
        s1.trace = s.trace ++
          (fills.map (turn_events s.pcan.client s.pcan.rxevent)).flatten ++
          [Event.load_rxthread_running false] := by
  intro fills
  induction fills with
  | nil =>
    intro fuel s hp hfuel
    obtain ⟨n, rfl⟩ : ∃ n, fuel = n + 1 := ⟨fuel - 1, by simp at hfuel; omega⟩
    have h : e.rxthread_running s.nFlagLoad = false := hp
    refine ⟨{ s with nFlagLoad := s.nFlagLoad + 1,
                     trace := s.trace ++ [Event.load_rxthread_running false] }, ?_, ?_, ?_⟩
    · rw [pcan_rx_thread, rx_thread_turn_clear e s h]
    · rfl
    · simp
  | cons fill t ih =>
    intro fuel s hp hfuel
    obtain ⟨n, rfl⟩ : ∃ n, fuel = n + 1 := ⟨fuel - 1, by simp at hfuel; omega⟩
    obtain ⟨hflag, hq, hrest⟩ :
        e.rxthread_running s.nFlagLoad = true ∧
        e.CAN_GetClientParam s.nGetClientParam = (CAN_ERR_OK, fill) ∧
        PollAt e (s.nFlagLoad + 1) (s.nGetClientParam + 1) t := hp
    have hturn := rx_thread_turn_set e s hflag
    rw [hq] at hturn
    simp only [if_true] at hturn
    obtain ⟨s1, hrun, hpc, htr⟩ := ih n
      { s with nFlagLoad := s.nFlagLoad + 1, nGetClientParam := s.nGetClientParam + 1,
               trace := s.trace ++ turn_events s.pcan.client s.pcan.rxevent fill }
      hrest (by simp at hfuel; omega)
    refine ⟨s1, ?_, hpc, ?_⟩
    · rw [pcan_rx_thread, hturn]
      exact hrun
    · rw [htr]
      simp

/-- The fill queries and the signals among the calls of the turns. -/
theorem turn_events_counts (client rxevent : Nat) (fills : List Nat) :
    ((fills.map (turn_events client rxevent)).flatten.filter is_rcv_query).length =
      fills.length ∧
    (fills.map (turn_events client rxevent)).flatten.filter is_signal =
      List.replicate (fills.countP (fun fill => decide (0 < fill % 2 ^ 32)))
        (Event.SetEvent rxevent) := by
  induction fills with
  | nil => exact ⟨rfl, rfl⟩
  | cons f t ih =>
    have hq : (turn_events client rxevent f).filter is_rcv_query =
        [Event.CAN_GetClientParam client CAN_PARAM_RCVQUEUEFILL] := by
      unfold turn_events
      split <;> rfl
    have hs : (turn_events client rxevent f).filter is_signal =
        if 0 < f % 2 ^ 32 then [Event.SetEvent rxevent] else [] := by
      unfold turn_events
      split <;> rfl
    refine ⟨?_, ?_⟩
    · simp only [List.map_cons, List.flatten_cons, List.filter_append, hq, List.length_append,
        ih.1, List.length_cons, List.length_nil]
      omega
    · simp only [List.map_cons, List.flatten_cons, List.filter_append, hs, ih.2,
        List.countP_cons]
      by_cases hf : 0 < f % 2 ^ 32
      · have hd : decide (0 < f % 2 ^ 32) = true := decide_eq_true hf
        simp only [hd, if_pos hf, if_true, List.replicate_succ]
        rfl
      · have hd : decide (0 < f % 2 ^ 32) = false := decide_eq_false hf
        simp only [hd, if_neg hf, List.nil_append]
        rfl

/-- Claim C24. Poller signalling.  In every turn of the loop that finds the
running flag set, the poller issues exactly one receive-queue fill query; if
the query returns `CAN_ERR_OK` it signals the wake event iff the fill count is
greater than 0, sleeps and stays in the loop; if the query returns any other
code it signals nothing and the assertion fails.  Over a run in which the flag
is found set `n` times and the queries succeed, the thread returns 0 after `n`
queries and one signal per query that reported a fill count greater than 0. -/
theorem C24_poller_signalling (e : Env) (s : State) :
    (e.rxthread_running s.nFlagLoad = true →
      pcan_rx_thread_turn e s =
        if (e.CAN_GetClientParam s.nGetClientParam).1 = CAN_ERR_OK then
          Poller.running
            { s with nFlagLoad := s.nFlagLoad + 1, nGetClientParam := s.nGetClientParam + 1,
                     trace := s.trace ++
                       [Event.load_rxthread_running true,
                        Event.CAN_GetClientParam s.pcan.client CAN_PARAM_RCVQUEUEFILL] ++
                       (if 0 < (e.CAN_GetClientParam s.nGetClientParam).2 % 2 ^ 32 then
                         [Event.SetEvent s.pcan.rxevent] else []) ++
                       [Event.Sleep 10] }
        else
          Poller.aborted
            { s with nFlagLoad := s.nFlagLoad + 1, nGetClientParam := s.nGetClientParam + 1,
                     trace := s.trace ++ [Event.load_rxthread_running true,
                       Event.CAN_GetClientParam s.pcan.client CAN_PARAM_RCVQUEUEFILL] }) ∧
    (e.rxthread_running s.nFlagLoad = true →
      ((∃ s1, pcan_rx_thread_turn e s = Poller.aborted s1) ↔
        (e.CAN_GetClientParam s.nGetClientParam).1 ≠ CAN_ERR_OK) ∧
      ((e.CAN_GetClientParam s.nGetClientParam).1 ≠ CAN_ERR_OK →
        ∀ fuel, pcan_rx_thread e (fuel + 1) s = Except.error Fault.assert_failed)) ∧
    (∀ (fills : List Nat) (fuel : Nat),
      PollAt e s.nFlagLoad s.nGetClientParam fills → fills.length < fuel →
      ∃ s1 : State,
        pcan_rx_thread e fuel s = Except.ok (0, s1) ∧
        (s1.trace.filter is_rcv_query).length =
          (s.trace.filter is_rcv_query).length + fills.length ∧
        s1.trace.filter is_signal = s.trace.filter is_signal ++
          List.replicate (fills.countP (fun fill => decide (0 < fill % 2 ^ 32)))
            (Event.SetEvent s.pcan.rxevent)) := by
  refine ⟨?_, ?_, ?_⟩
  · intro h
    rw [rx_thread_turn_set e s h]
    simp only [turn_events, List.append_assoc]
  · intro h
    refine ⟨?_, ?_⟩
    · rw [rx_thread_turn_set e s h]
      by_cases hc : (e.CAN_GetClientParam s.nGetClientParam).1 = CAN_ERR_OK
      · rw [if_pos hc]
        constructor
        · rintro ⟨s1, h1⟩
          cases h1
        · intro h2
          exact absurd hc h2
      · rw [if_neg hc]
        exact ⟨fun _ => hc, fun _ => ⟨_, rfl⟩⟩
    · intro hc fuel
      rw [pcan_rx_thread, rx_thread_turn_set e s h, if_neg hc]
  · intro fills fuel hp hfuel
    obtain ⟨s1, hrun, _, htr⟩ := rx_thread_run e fills fuel s hp hfuel
    obtain ⟨hq, hs⟩ := turn_events_counts s.pcan.client s.pcan.rxevent fills
    refine ⟨s1, hrun, ?_, ?_⟩
    · rw [htr]
      simp only [List.filter_append, List.length_append, hq]
      rfl
    · rw [htr]
      simp only [List.filter_append, hs]
      simp [is_signal]


theorem C24_poller_signalling_witness :
    (∃ s1 : State, pcan_rx_thread_turn env_poll_fail state0 = Poller.aborted s1) ∧
    (∃ s1 : State,
      pcan_rx_thread env_poll 4 state0 = Except.ok (0, s1) ∧
      (s1.trace.filter is_rcv_query).length =
        (state0.trace.filter is_rcv_query).length + [0, 2, 0].length ∧
      s1.trace.filter is_signal = state0.trace.filter is_signal ++
        List.replicate ([0, 2, 0].countP (fun fill => decide (0 < fill % 2 ^ 32)))
          (Event.SetEvent state0.pcan.rxevent)) :=
  ⟨((C24_poller_signalling env_poll_fail state0).2.1 rfl).1.2 (by decide),
   (C24_poller_signalling env_poll state0).2.2 [0, 2, 0] 4 ⟨rfl, rfl, rfl, rfl, rfl, rfl, rfl⟩
     (by decide)⟩

/-- A poller that has exited or aborted takes no step. -/
theorem poller_step_running (e : Env) (p q : Poller) (h : poller_step e p q) :
    ∃ s, p = Poller.running s := by
  obtain ⟨s, hs, _⟩ := h
  exact ⟨s, hs⟩

/-- From a poller that is not running, only the poller itself is reachable. -/
theorem poller_stopped (e : Env) (p q : Poller) (hp : ∀ s, p ≠ Poller.running s)
    (h : Relation.ReflTransGen (poller_step e) p q) : q = p := by
  induction h with
  | refl => rfl
  | tail _ hstep ih =>
    rw [ih] at hstep
    obtain ⟨s, hs⟩ := poller_step_running e _ _ hstep
    exact absurd hs (hp s)

/-- Claim C25. Poller stop: when the poller finds the running flag clear at the
top of its loop, it makes no call at all and `pcan_rx_thread` returns 0; as a
step relation, a poller that has exited takes no further step, so from a state
in which the flag is found clear every reachable state has the fill queries
and the signals of that state and no others. -/
theorem C25_poller_stop (e : Env) (s : State) (h : e.rxthread_running s.nFlagLoad = false) :
    pcan_rx_thread_turn e s =
      Poller.exited 0
        { s with nFlagLoad := s.nFlagLoad + 1,
                 trace := s.trace ++ [Event.load_rxthread_running false] } ∧
    (∀ fuel, pcan_rx_thread e (fuel + 1) s =
      Except.ok (0, { s with nFlagLoad := s.nFlagLoad + 1,
                             trace := s.trace ++ [Event.load_rxthread_running false] })) ∧
    (∀ q, Relation.ReflTransGen (poller_step e) (pcan_rx_thread_turn e s) q →
      q = pcan_rx_thread_turn e s) ∧
    (∀ q, Relation.ReflTransGen (poller_step e) (Poller.running s) q →
      q.state.trace.filter is_rcv_query = s.trace.filter is_rcv_query ∧
      q.state.trace.filter is_signal = s.trace.filter is_signal ∧
      q.state.nGetClientParam = s.nGetClientParam) := by
  have hturn := rx_thread_turn_clear e s h
  have hstop : ∀ q, Relation.ReflTransGen (poller_step e) (pcan_rx_thread_turn e s) q →
      q = pcan_rx_thread_turn e s := by
    intro q hq
    refine poller_stopped e _ q ?_ hq
    intro s1 h1
    rw [hturn] at h1
    cases h1
  refine ⟨hturn, ?_, hstop, ?_⟩
  · intro fuel
    rw [pcan_rx_thread, hturn]
  · intro q hq
    rcases Relation.ReflTransGen.cases_head hq with h0 | ⟨c, hc, hrest⟩
    · rw [← h0]
      exact ⟨rfl, rfl, rfl⟩
    · obtain ⟨s1, hs1, hc1⟩ := hc
      cases hs1
      rw [hc1] at hrest
      rw [hstop q hrest, hturn]
      simp [Poller.state, List.filter_append, is_rcv_query, is_signal]

theorem C25_poller_stop_witness :
    pcan_rx_thread env0 1 state0 =
      Except.ok (0, { state0 with nFlagLoad := state0.nFlagLoad + 1,
                                  trace := state0.trace ++ [Event.load_rxthread_running false] }) :=
  (C25_poller_stop env0 state0 rfl).2.1 0

/-! ## The reads of a drain -/

theorem clear_busoff_reads (e : Env) (s : State) :
    (pcan_clear_busoff e s).trace.filter is_read = s.trace.filter is_read := by
  unfold pcan_clear_busoff call_Sleep call_CAN_ResetHardware call_CAN_SetHwParam
  dsimp only
  split <;> simp [List.filter_append, is_read]

theorem queueAt_drainAt (e : Env) : ∀ (q : List TCANMsg) (n : Nat), QueueAt e n q → DrainAt e n q := by
  intro q
  induction q with
  | nil =>
    intro n h
    have h1 : (e.CAN_Read n).1 = CAN_ERR_QRCVEMPTY := h
    show (e.CAN_Read n).1 ≠ CAN_ERR_OK
    rw [h1]
    decide
  | cons f t ih =>
    intro n h
    exact ⟨h.1, ih (n + 1) h.2⟩

theorem drainAt_frames_from (e : Env) :
    ∀ (k n : Nat), (∀ i, i < k → (e.CAN_Read (n + i)).1 = CAN_ERR_OK) →
      (e.CAN_Read (n + k)).1 ≠ CAN_ERR_OK → DrainAt e n (frames_from e n k) := by
  intro k
  induction k with
  | zero =>
    intro n _ hstop
    exact hstop
  | succ k ih =>
    intro n hok hstop
    refine ⟨?_, ih (n + 1) ?_ ?_⟩
    · have h0 := hok 0 (Nat.succ_pos k)
      rw [Nat.add_zero] at h0
      exact Prod.ext h0 rfl
    · intro i hi
      have := hok (i + 1) (by omega)
      rw [show n + 1 + i = n + (i + 1) by omega]
      exact this
    · rw [show n + 1 + k = n + (k + 1) by omega]
      exact hstop

theorem frames_from_length (e : Env) : ∀ (k n : Nat), (frames_from e n k).length = k := by
  intro k
  induction k with
  | zero => intro n; rfl
  | succ k ih => intro n; simp [frames_from, ih]

/-- What one `pcan_read_message` reads on the answers `q` followed by a code
that is not OK. -/
theorem read_message_reads (e : Env) :
    ∀ (q : List TCANMsg) (fuel : Nat) (s : State) (msg : TCANMsg),
      DrainAt e s.nRead q → q.length < fuel →
      ∃ (b : Bool) (m : TCANMsg) (s1 : State),
        pcan_read_message e fuel s msg = Except.ok (b, m, s1) ∧
        s1.pcan = s.pcan ∧
        ((b = false ∧ s1.nRead = s.nRead + q.length + 1 ∧
            s1.trace.filter is_read = s.trace.filter is_read ++
              List.replicate (q.length + 1) (Event.CAN_Read s.pcan.client)) ∨
         (b = true ∧ ∃ pre rest, q = pre ++ m :: rest ∧
            DrainAt e s1.nRead rest ∧ s1.nRead = s.nRead + pre.length + 1 ∧
            s1.trace.filter is_read = s.trace.filter is_read ++
              List.replicate (pre.length + 1) (Event.CAN_Read s.pcan.client))) := by
  intro q
  induction q with
  | nil =>
    intro fuel s msg hq hfuel
    obtain ⟨n, rfl⟩ : ∃ n, fuel = n + 1 := ⟨fuel - 1, by simp at hfuel; omega⟩
    have hne : (e.CAN_Read s.nRead).1 ≠ CAN_ERR_OK := hq
    refine ⟨false, _, _, read_step_fail e n s msg hne, rfl, Or.inl ⟨rfl, rfl, ?_⟩⟩
    simp [List.filter_append, is_read]
  | cons f q ih =>
    intro fuel s msg hq hfuel
    obtain ⟨n, rfl⟩ : ∃ n, fuel = n + 1 := ⟨fuel - 1, by simp at hfuel; omega⟩
    have hn : q.length < n := by simp at hfuel; omega
    obtain ⟨hread, hrest⟩ : e.CAN_Read s.nRead = (CAN_ERR_OK, f) ∧ DrainAt e (s.nRead + 1) q := hq
    rw [read_step_ok e n s msg f hread]
    have hrep : ∀ (l : List Event) (k : Nat),
        l ++ [Event.CAN_Read s.pcan.client] ++ List.replicate k (Event.CAN_Read s.pcan.client) =
          l ++ List.replicate (k + 1) (Event.CAN_Read s.pcan.client) := by
      intro l k
      rw [List.append_assoc, List.replicate_succ]
      rfl
    have skip : ∀ (s1 : State), s1.pcan = s.pcan → s1.nRead = s.nRead + 1 →
        s1.trace.filter is_read = s.trace.filter is_read ++ [Event.CAN_Read s.pcan.client] →
        ∃ (b : Bool) (m : TCANMsg) (s2 : State),
          pcan_read_message e n s1 f = Except.ok (b, m, s2) ∧
          s2.pcan = s.pcan ∧
          ((b = false ∧ s2.nRead = s.nRead + (f :: q).length + 1 ∧
              s2.trace.filter is_read = s.trace.filter is_read ++
                List.replicate ((f :: q).length + 1) (Event.CAN_Read s.pcan.client)) ∨
           (b = true ∧ ∃ pre rest, f :: q = pre ++ m :: rest ∧
              DrainAt e s2.nRead rest ∧ s2.nRead = s.nRead + pre.length + 1 ∧
              s2.trace.filter is_read = s.trace.filter is_read ++
                List.replicate (pre.length + 1) (Event.CAN_Read s.pcan.client))) := by
      intro s1 hp hr htr
      obtain ⟨b, m, s2, hrun, hp2, hcase⟩ := ih n s1 f (by rw [hr]; exact hrest) hn
      refine ⟨b, m, s2, hrun, hp2.trans hp, ?_⟩
      rw [hp, htr] at hcase
      rcases hcase with ⟨hb, hnr, htr2⟩ | ⟨hb, pre, rest, hsplit, hqr, hnr, htr2⟩
      · left
        refine ⟨hb, ?_, ?_⟩
        · rw [hnr, hr, List.length_cons]; omega
        · rw [htr2, hrep]
          rfl
      · right
        refine ⟨hb, f :: pre, rest, by rw [hsplit]; rfl, hqr, ?_, ?_⟩
        · rw [hnr, hr, List.length_cons]; omega
        · rw [htr2, hrep]
          rfl
    have hone : (s.trace ++ [Event.CAN_Read s.pcan.client]).filter is_read =
        s.trace.filter is_read ++ [Event.CAN_Read s.pcan.client] := by
      simp [List.filter_append, is_read]
    by_cases hkind : f.MSGTYPE = MSGTYPE_STANDARD ∨ f.MSGTYPE = MSGTYPE_EXTENDED
    · rw [if_pos hkind]
      by_cases hid : effective_id f = s.pcan.rxid
      · rw [if_pos hid]
        exact ⟨true, f, _, rfl, rfl, Or.inr ⟨rfl, [], q, rfl, hrest, rfl, hone⟩⟩
      · rw [if_neg hid]
        exact skip _ rfl rfl hone
    · rw [if_neg hkind]
      by_cases hst : f.MSGTYPE = MSGTYPE_STATUS
      · rw [if_pos hst]
        by_cases hbo : status_of_DATA f.DATA &&& CAN_ERR_BUSOFF ≠ 0
        · rw [if_pos hbo]
          refine skip _ ?_ ?_ ?_
          · rw [clear_busoff_pcan]; rfl
          · rw [clear_busoff_nRead]; rfl
          · rw [clear_busoff_reads]
            simp [call_logeventf, List.filter_append, is_read]
        · rw [if_neg hbo]
          exact skip _ rfl rfl hone
      · rw [if_neg hst]
        exact skip _ rfl rfl hone

/-- The loop of `pcan_rxevent_callback` on the answers `q` followed by a code
that is not OK: it reads `q` and the answer after it, and nothing more. -/
theorem rxevent_loop_reads (e : Env) (fuel : Nat) :
    ∀ (n : Nat) (q : List TCANMsg) (s : State) (msg : TCANMsg),
      DrainAt e s.nRead q → q.length < fuel → q.length < n →
      ∃ s1 : State,
        pcan_rxevent_loop e fuel n s msg = Except.ok s1 ∧
        s1.pcan = s.pcan ∧
        s1.nRead = s.nRead + q.length + 1 ∧
        s1.trace.filter is_read = s.trace.filter is_read ++
          List.replicate (q.length + 1) (Event.CAN_Read s.pcan.client) := by
  intro n
  induction n with
  | zero => intro q s msg _ _ hn; omega
  | succ n ih =>
    intro q s msg hq hfuel hn
    obtain ⟨b, m, s1, hrun, hp, hcase⟩ := read_message_reads e q fuel s msg hq hfuel
    rcases hcase with ⟨hb, hnr, htr⟩ | ⟨hb, pre, rest, hsplit, hqr, hnr, htr⟩
    · subst hb
      refine ⟨s1, ?_, hp, hnr, htr⟩
      rw [pcan_rxevent_loop, hrun]
    · subst hb
      have hlen : q.length = pre.length + rest.length + 1 := by rw [hsplit]; simp; omega
      obtain ⟨s2, hs2⟩ : ∃ s2, s2 =
          (if (call_seat_stdout e s1 m.DATA m.LEN).1 > 0 then
            call_logeventf (call_seat_stdout e s1 m.DATA m.LEN).2 fmt_rejected
              [m.LEN, (call_seat_stdout e s1 m.DATA m.LEN).1]
           else (call_seat_stdout e s1 m.DATA m.LEN).2) := ⟨_, rfl⟩
      have h2p : s2.pcan = s.pcan := by
        rw [hs2]; split <;> simpa [call_logeventf, call_seat_stdout] using hp
      have h2r : s2.nRead = s1.nRead := by rw [hs2]; split <;> rfl
      have h2t : s2.trace.filter is_read = s1.trace.filter is_read := by
        rw [hs2]; split <;>
          simp [call_logeventf, call_seat_stdout, List.filter_append, is_read]
      obtain ⟨s3, hrun3, hp3, hnr3, htr3⟩ :=
        ih rest s2 m (by rw [h2r]; exact hqr) (by omega) (by omega)
      refine ⟨s3, ?_, hp3.trans h2p, ?_, ?_⟩
      · rw [pcan_rxevent_loop, hrun]
        simp only []
        rw [← hs2]; exact hrun3
      · rw [hnr3, h2r, hnr, hlen]; omega
      · rw [htr3, h2t, htr, h2p, List.append_assoc, ← List.replicate_add, hlen]
        congr 2
        omega

/-- Claim C22. Drain loop termination: when the receive queue holds `n`
frames followed by "queue empty", one drain (`pcan_rxevent_callback`, with fuel
above `n`) returns after exactly `n + 1` driver reads; and for every sequence
of driver answers, if the first read that does not return `CAN_ERR_OK` (queue
empty or any error) is the `k + 1`-st of the drain, the drain returns after
exactly `k + 1` reads, so it reads nothing after that one. -/
theorem C22_drain_termination (e : Env) (s : State) (fuel : Nat) (msg : TCANMsg) :
    (∀ q : List TCANMsg, QueueAt e s.nRead q → q.length < fuel →
      ∃ s1 : State,
        pcan_rxevent_callback e fuel s msg = Except.ok s1 ∧
        s1.nRead = s.nRead + q.length + 1 ∧
        s1.trace.filter is_read = s.trace.filter is_read ++
          List.replicate (q.length + 1) (Event.CAN_Read s.pcan.client)) ∧
    (∀ k : Nat, (∀ i, i < k → (e.CAN_Read (s.nRead + i)).1 = CAN_ERR_OK) →
      (e.CAN_Read (s.nRead + k)).1 ≠ CAN_ERR_OK → k < fuel →
      ∃ s1 : State,
        pcan_rxevent_callback e fuel s msg = Except.ok s1 ∧
        s1.nRead = s.nRead + k + 1 ∧
        s1.trace.filter is_read = s.trace.filter is_read ++
          List.replicate (k + 1) (Event.CAN_Read s.pcan.client)) := by
  refine ⟨?_, ?_⟩
  · intro q hq hfuel
    obtain ⟨s1, hrun, _, hnr, htr⟩ :=
      rxevent_loop_reads e fuel fuel q s msg (queueAt_drainAt e q _ hq) hfuel hfuel
    exact ⟨s1, hrun, hnr, htr⟩
  · intro k hok hstop hfuel
    have hlen := frames_from_length e k s.nRead
    obtain ⟨s1, hrun, _, hnr, htr⟩ :=
      rxevent_loop_reads e fuel fuel (frames_from e s.nRead k) s msg
        (drainAt_frames_from e k s.nRead hok hstop) (by rw [hlen]; exact hfuel)
        (by rw [hlen]; exact hfuel)
    rw [hlen] at hnr htr
    exact ⟨s1, hrun, hnr, htr⟩

theorem C22_drain_termination_witness :
    (∃ s1 : State,
      pcan_rxevent_callback env1 6 state0 default = Except.ok s1 ∧
      s1.nRead = state0.nRead + queue1.length + 1 ∧
      s1.trace.filter is_read = state0.trace.filter is_read ++
        List.replicate (queue1.length + 1) (Event.CAN_Read state0.pcan.client)) ∧
    (∃ s1 : State,
      pcan_rxevent_callback env_read_error 6 state0 default = Except.ok s1 ∧
      s1.nRead = state0.nRead + 1 + 1 ∧
      s1.trace.filter is_read = state0.trace.filter is_read ++
        List.replicate (1 + 1) (Event.CAN_Read state0.pcan.client)) :=
  ⟨(C22_drain_termination env1 state0 6 default).1 queue1 ⟨rfl, rfl, rfl, rfl, rfl, rfl⟩
     (by decide),
   (C22_drain_termination env_read_error state0 6 default).2 1
     (fun i hi => by
       have h0 : i = 0 := by omega
       subst h0
       rfl)
     (by decide) (by decide)⟩

/-! ## The send loop for arbitrary answers of the driver -/

/-- The loop of `pcan_send` for all answers of the driver: it returns, its
calls are the writes of well-formed frames, and when it runs at all its `err`
is non-zero iff one of these writes failed. -/
theorem send_loop_any (e : Env) (buf : List Nat) :
    ∀ (fuel : Nat) (s : State) (err : Int) (sent rest : Nat), rest ≤ fuel →
      ∃ (r : SendLoop) (frames : List TCANMsg),
        pcan_send_loop e buf fuel s err sent rest = Except.ok r ∧
        r.state = { s with nWrite := s.nWrite + frames.length,
                           trace := s.trace ++
                             frames.map (Event.CAN_Write s.pcan.client s.pcan.net) } ∧
        (∀ f ∈ frames, ∃ b n u, 1 ≤ n ∧ n ≤ 8 ∧ f = pcan_send_msg_frame s.pcan.txid b n u) ∧
        ((rest = 0 ∧ frames = [] ∧ r.err = err) ∨
         (0 < rest ∧ frames ≠ [] ∧
           (r.err ≠ 0 ↔ ∃ k, k < frames.length ∧ e.CAN_Write (s.nWrite + k) ≠ CAN_ERR_OK))) := by
  intro fuel
  induction fuel with
  | zero =>
    intro s err sent rest hfuel
    have h0 : rest = 0 := by omega
    subst h0
    refine ⟨⟨err, sent, 0, s⟩, [], ?_, ?_, ?_, Or.inl ⟨rfl, rfl, rfl⟩⟩
    · simp [pcan_send_loop]
    · simp
    · intro f hf; cases hf
  | succ fuel ih =>
    intro s err sent rest hfuel
    by_cases h0 : rest = 0
    · subst h0
      refine ⟨⟨err, sent, 0, s⟩, [], ?_, ?_, ?_, Or.inl ⟨rfl, rfl, rfl⟩⟩
      · simp [pcan_send_loop]
      · simp
      · intro f hf; cases hf
    · have hpos : rest > 0 := Nat.pos_of_ne_zero h0
      obtain ⟨now, hnow⟩ : ∃ now, now = (if rest > 8 then 8 else rest) := ⟨_, rfl⟩
      have hnow8 : now ≤ 8 := by rw [hnow]; split <;> omega
      have hnow1 : 1 ≤ now := by rw [hnow]; split <;> omega
      have hnowr : now ≤ rest := by rw [hnow]; split <;> omega
      by_cases hw : e.CAN_Write s.nWrite = CAN_ERR_OK
      · let s1 : State :=
          { s with nWrite := s.nWrite + 1,
                   trace := s.trace ++ [Event.CAN_Write s.pcan.client s.pcan.net
                     (pcan_send_msg_frame s.pcan.txid (buf.drop sent) now
                       (e.uninit_DATA s.nWrite))] }
        obtain ⟨r, frames, hr, hstate, hframes, hcase⟩ :=
          ih s1 0 (sent + now) (rest - now) (by omega)
        refine ⟨r, pcan_send_msg_frame s.pcan.txid (buf.drop sent) now (e.uninit_DATA s.nWrite)
          :: frames, ?_, ?_, ?_, Or.inr ⟨hpos, by simp, ?_⟩⟩
        · rw [pcan_send_loop, if_pos hpos]
          simp only [← hnow, pcan_send_msg_eq e s _ now hnow8, hw, if_true]
          simpa using hr
        · rw [hstate]
          simp only [s1, List.length_cons, List.map_cons, List.append_assoc,
            List.singleton_append, Nat.add_assoc, Nat.add_comm 1]
        · intro f hf
          rcases List.mem_cons.1 hf with h | h
          · exact ⟨_, now, _, hnow1, hnow8, h⟩
          · exact hframes f h
        · rcases hcase with ⟨_, hnil, herr⟩ | ⟨_, _, hiff⟩
          · subst hnil
            constructor
            · intro hne
              exact absurd herr hne
            · rintro ⟨k, hk, hkw⟩
              have hk0 : k = 0 := by simpa using hk
              subst hk0
              exact absurd hw hkw
          · rw [hiff]
            constructor
            · rintro ⟨k, hk, hkw⟩
              refine ⟨k + 1, by simpa using hk, ?_⟩
              have : s.nWrite + (k + 1) = s1.nWrite + k := by simp only [s1]; omega
              rw [this]
              exact hkw
            · rintro ⟨k, hk, hkw⟩
              cases k with
              | zero => exact absurd hw hkw
              | succ k =>
                refine ⟨k, by simpa using hk, ?_⟩
                have : s.nWrite + (k + 1) = s1.nWrite + k := by simp only [s1]; omega
                rw [← this]
                exact hkw
      · refine ⟨⟨-1, sent, rest,
            { s with nWrite := s.nWrite + 1,
                     trace := s.trace ++ [Event.CAN_Write s.pcan.client s.pcan.net
                       (pcan_send_msg_frame s.pcan.txid (buf.drop sent) now
                         (e.uninit_DATA s.nWrite))] }⟩,
          [pcan_send_msg_frame s.pcan.txid (buf.drop sent) now (e.uninit_DATA s.nWrite)],
          ?_, ?_, ?_, Or.inr ⟨hpos, by simp, ?_⟩⟩
        · rw [pcan_send_loop, if_pos hpos]
          simp only [← hnow, pcan_send_msg_eq e s _ now hnow8, if_neg hw]
          simp
        · simp
        · intro f hf
          rcases List.mem_cons.1 hf with h | h
          · exact ⟨_, now, _, hnow1, hnow8, h⟩
          · cases h
        · have hm1 : (-1 : Int) ≠ 0 := by decide
          exact ⟨fun _ => ⟨0, by simp, by simpa using hw⟩, fun _ => hm1⟩

/-- `pcan_send` for all answers of the driver: it returns, and its trace is
the old one, the writes, and the overflow message if `err` is non-zero. -/
theorem pcan_send_any (e : Env) (s : State) (buf : List Nat) :
    ∃ (s1 : State) (frames : List TCANMsg) (logs : List Event),
      pcan_send e s buf = Except.ok s1 ∧
      s1.pcan = s.pcan ∧ s1.nWrite = s.nWrite + frames.length ∧
      s1.trace = s.trace ++ frames.map (Event.CAN_Write s.pcan.client s.pcan.net) ++ logs ∧
      (∀ f ∈ frames, ∃ b n u, 1 ≤ n ∧ n ≤ 8 ∧ f = pcan_send_msg_frame s.pcan.txid b n u) ∧
      ((buf = [] ∧ frames = [] ∧
          logs = if e.uninit_err ≠ 0 then [Event.logeventf fmt_tx_overflow [0, 0]] else []) ∨
       (buf ≠ [] ∧ frames ≠ [] ∧
          ((logs = [] ∧ ∀ k, k < frames.length → e.CAN_Write (s.nWrite + k) = CAN_ERR_OK) ∨
           ((∃ sent, logs = [Event.logeventf fmt_tx_overflow [sent, buf.length]]) ∧
             ∃ k, k < frames.length ∧ e.CAN_Write (s.nWrite + k) ≠ CAN_ERR_OK)))) := by
  obtain ⟨r, frames, hr, hstate, hframes, hcase⟩ :=
    send_loop_any e buf buf.length s e.uninit_err 0 buf.length (le_refl _)
  by_cases herr : r.err ≠ 0
  · refine ⟨call_logeventf r.state fmt_tx_overflow [r.sent, buf.length], frames,
      [Event.logeventf fmt_tx_overflow [r.sent, buf.length]], ?_, ?_, ?_, ?_, hframes, ?_⟩
    · simp only [pcan_send, hr, if_pos herr]
    · simp [call_logeventf, hstate]
    · simp [call_logeventf, hstate]
    · simp [call_logeventf, hstate]
    · rcases hcase with ⟨h0, hnil, he⟩ | ⟨hpos, hne, hiff⟩
      · left
        have hb : buf = [] := List.eq_nil_of_length_eq_zero h0
        have hu : e.uninit_err ≠ 0 := by rw [← he]; exact herr
        have hsent : r.sent = 0 := by
          rw [hb] at hr
          simp [pcan_send_loop] at hr
          rw [← hr]
        refine ⟨hb, hnil, ?_⟩
        rw [if_pos hu, hsent, hb]
        rfl
      · right
        refine ⟨?_, hne, Or.inr ⟨⟨r.sent, rfl⟩, hiff.1 herr⟩⟩
        intro hb
        rw [hb] at hpos
        exact absurd hpos (by decide)
  · refine ⟨r.state, frames, [], ?_, ?_, ?_, ?_, hframes, ?_⟩
    · simp only [pcan_send, hr, if_neg herr]
    · simp [hstate]
    · simp [hstate]
    · simp [hstate]
    · rcases hcase with ⟨h0, hnil, he⟩ | ⟨hpos, hne, hiff⟩
      · left
        have hb : buf = [] := List.eq_nil_of_length_eq_zero h0
        have hu : ¬ e.uninit_err ≠ 0 := by rw [← he]; exact herr
        exact ⟨hb, hnil, by rw [if_neg hu]⟩
      · right
        refine ⟨?_, hne, Or.inl ⟨rfl, ?_⟩⟩
        · intro hb
          rw [hb] at hpos
          exact absurd hpos (by decide)
        · intro k hk
          by_contra hkw
          exact herr (hiff.2 ⟨k, hk, hkw⟩)

/-- The overflow message is no write. -/
theorem send_logs_written (e : Env) (s : State) (buf : List Nat) (frames : List TCANMsg)
    (logs : List Event)
    (h : (buf = [] ∧ frames = [] ∧
          logs = if e.uninit_err ≠ 0 then [Event.logeventf fmt_tx_overflow [0, 0]] else []) ∨
       (buf ≠ [] ∧ frames ≠ [] ∧
          ((logs = [] ∧ ∀ k, k < frames.length → e.CAN_Write (s.nWrite + k) = CAN_ERR_OK) ∨
           ((∃ sent, logs = [Event.logeventf fmt_tx_overflow [sent, buf.length]]) ∧
             ∃ k, k < frames.length ∧ e.CAN_Write (s.nWrite + k) ≠ CAN_ERR_OK)))) :
    written logs = [] := by
  rcases h with ⟨_, _, hl⟩ | ⟨_, _, ⟨hl, _⟩ | ⟨⟨sent, hl⟩, _⟩⟩
  · rw [hl]; split <;> rfl
  · rw [hl]; rfl
  · rw [hl]; rfl

/-- Claim C26 fails: with a transmit identifier that has bits 29 and 30 set,
the frame `pcan_send` submits has an identifier above `CAN_MAX_EXTENDED_ID`. -/
theorem C26_wide_txid_counterexample :
    state_wide.pcan.txid = 0x60000456 ∧
    (∃ s1 : State, pcan_send env0 state_wide [1] = Except.ok s1 ∧
      (written s1.trace).map (fun f => f.ID) = [0x60000456]) ∧
    ¬ (0x60000456 ≤ CAN_MAX_EXTENDED_ID) :=
  ⟨rfl, ⟨_, rfl, by decide⟩, by decide⟩

/-- Claim C26 as amended.  For every `txid`, every buffer and all answers of
the driver, `pcan_send` returns, and each frame it submits has the identifier
`txid` modulo `2 ^ 31` (bit 31 removed, bits 29 and 30 kept), which is below
`2 ^ 31`, and a length in 1..8.  The identifier is at most
`CAN_MAX_EXTENDED_ID` iff bits 29 and 30 of `txid` are clear, which is so
whenever `txid` is a 29-bit identifier with or without the extended flag. -/
theorem C26_send_frames (e : Env) (s : State) (buf : List Nat) :
    ∃ (s1 : State) (frames : List TCANMsg),
      pcan_send e s buf = Except.ok s1 ∧
      written s1.trace = written s.trace ++ frames ∧
      ∀ f ∈ frames,
        f.ID = s.pcan.txid % 2 ^ 31 ∧ f.ID < 2 ^ 31 ∧ 1 ≤ f.LEN ∧ f.LEN ≤ 8 ∧
        (f.ID ≤ CAN_MAX_EXTENDED_ID ↔ s.pcan.txid % 2 ^ 31 < 2 ^ 29) ∧
        (∀ n, n ≤ CAN_MAX_EXTENDED_ID →
          s.pcan.txid = n ∨ s.pcan.txid = n ||| 0x80000000 → f.ID = n) := by
  obtain ⟨s1, frames, logs, hrun, _, _, htr, hframes, hcase⟩ := pcan_send_any e s buf
  refine ⟨s1, frames, hrun, ?_, ?_⟩
  · rw [htr, written_append, written_append, written_map,
      send_logs_written e s buf frames logs hcase, List.append_nil]
  · intro f hf
    obtain ⟨b, n, u, h1, h8, rfl⟩ := hframes f hf
    have hid : (pcan_send_msg_frame s.pcan.txid b n u).ID = s.pcan.txid % 2 ^ 31 := by
      simp only [pcan_send_msg_frame]
      exact and_low31 _
    have hlt : s.pcan.txid % 2 ^ 31 < 2 ^ 31 := Nat.mod_lt _ (by decide)
    refine ⟨hid, by rw [hid]; exact hlt, ?_, ?_, ?_, ?_⟩
    · simp only [pcan_send_msg_frame]; omega
    · simp only [pcan_send_msg_frame]; omega
    · rw [hid]
      unfold CAN_MAX_EXTENDED_ID
      omega
    · intro m hm htx
      rw [hid]
      have hm31 : m < 2 ^ 31 := by unfold CAN_MAX_EXTENDED_ID at hm; omega
      rcases htx with h | h
      · rw [h]; omega
      · rw [h, or_bit31 m hm31]; omega

theorem C26_send_frames_witness :
    ∃ (s1 : State) (frames : List TCANMsg),
      pcan_send env0 state0 [1, 2, 3] = Except.ok s1 ∧
      written s1.trace = written state0.trace ++ frames ∧
      ∀ f ∈ frames,
        f.ID = state0.pcan.txid % 2 ^ 31 ∧ f.ID < 2 ^ 31 ∧ 1 ≤ f.LEN ∧ f.LEN ≤ 8 ∧
        (f.ID ≤ CAN_MAX_EXTENDED_ID ↔ state0.pcan.txid % 2 ^ 31 < 2 ^ 29) ∧
        (∀ n, n ≤ CAN_MAX_EXTENDED_ID →
          state0.pcan.txid = n ∨ state0.pcan.txid = n ||| 0x80000000 → f.ID = n) :=
  C26_send_frames env0 state0 [1, 2, 3]

/-! ## The session struct during operation -/

theorem sendbuffer_pcan (e : Env) (s : State) : (pcan_sendbuffer e s).2.pcan = s.pcan := by
  unfold pcan_sendbuffer
  dsimp only
  repeat' split
  all_goals first | rfl | exact (clear_busoff_pcan e _).trans rfl

theorem read_message_pcan (e : Env) :
    ∀ (fuel : Nat) (s : State) (msg : TCANMsg) (b : Bool) (m : TCANMsg) (s1 : State),
      pcan_read_message e fuel s msg = Except.ok (b, m, s1) → s1.pcan = s.pcan := by
  intro fuel
  induction fuel with
  | zero =>
    intro s msg b m s1 h
    simp [pcan_read_message] at h
  | succ fuel ih =>
    intro s msg b m s1 h
    rw [pcan_read_message] at h
    dsimp only at h
    split at h
    · split at h
      · split at h
        · cases h; rfl
        · have hh := ih _ _ _ _ _ h
          exact hh
      · split at h
        · split at h
          · have hh := ih _ _ _ _ _ h
            rw [hh, clear_busoff_pcan]; rfl
          · have hh := ih _ _ _ _ _ h
            exact hh
        · have hh := ih _ _ _ _ _ h
          exact hh
    · split at h <;> (cases h; rfl)

theorem rxevent_loop_pcan (e : Env) (fuel : Nat) :
    ∀ (n : Nat) (s : State) (msg : TCANMsg) (s1 : State),
      pcan_rxevent_loop e fuel n s msg = Except.ok s1 → s1.pcan = s.pcan := by
  intro n
  induction n with
  | zero =>
    intro s msg s1 h
    simp [pcan_rxevent_loop] at h
  | succ n ih =>
    intro s msg s1 h
    rw [pcan_rxevent_loop] at h
    cases hr : pcan_read_message e fuel s msg with
    | error f => rw [hr] at h; cases h
    | ok r =>
      obtain ⟨b, m, s2⟩ := r
      have hp := read_message_pcan e fuel s msg b m s2 hr
      rw [hr] at h
      cases b with
      | false =>
        simp only [] at h
        cases h
        exact hp
      | true =>
        simp only [] at h
        have := ih _ _ _ h
        rw [this]
        split <;> simpa [call_logeventf, call_seat_stdout] using hp

theorem clear_busoff_iterate_pcan (e : Env) (n : Nat) (s : State) :
    ((pcan_clear_busoff e)^[n] s).pcan = s.pcan := by
  induction n generalizing s with
  | zero => rfl
  | succ n ih => rw [Function.iterate_succ_apply, ih, clear_busoff_pcan]

/-- Claim C27. Session state is preserved by operation: bus-off recovery (once
or any number of times), `pcan_sendbuffer`, `pcan_send` (which always returns)
and a drain (whenever it returns, and it does return when the reads reach a
code that is not OK within the fuel) leave the whole session struct as it was,
in particular the client, network and hardware handles, `rxid`, `txid`, the
network name and the cached transmit-queue capacity. -/
theorem C27_session_preserved (e : Env) (s : State) :
    (pcan_clear_busoff e s).pcan = s.pcan ∧
    (∀ n : Nat, ((pcan_clear_busoff e)^[n] s).pcan = s.pcan) ∧
    (pcan_sendbuffer e s).2.pcan = s.pcan ∧
    (∀ buf : List Nat, ∃ s1 : State, pcan_send e s buf = Except.ok s1 ∧ s1.pcan = s.pcan) ∧
    (∀ (fuel : Nat) (msg : TCANMsg) (s1 : State),
      pcan_rxevent_callback e fuel s msg = Except.ok s1 → s1.pcan = s.pcan) ∧
    (∀ (q : List TCANMsg) (fuel : Nat) (msg : TCANMsg),
      DrainAt e s.nRead q → q.length < fuel →
      ∃ s1 : State, pcan_rxevent_callback e fuel s msg = Except.ok s1 ∧ s1.pcan = s.pcan ∧
        s1.pcan.client = s.pcan.client ∧ s1.pcan.net = s.pcan.net ∧ s1.pcan.hw = s.pcan.hw ∧
        s1.pcan.rxid = s.pcan.rxid ∧ s1.pcan.txid = s.pcan.txid ∧
        s1.pcan.netname = s.pcan.netname ∧ s1.pcan.xmtqueue_size = s.pcan.xmtqueue_size) := by
  refine ⟨clear_busoff_pcan e s, fun n => clear_busoff_iterate_pcan e n s, sendbuffer_pcan e s,
    ?_, ?_, ?_⟩
  · intro buf
    obtain ⟨s1, _, _, hrun, hp, _⟩ := pcan_send_any e s buf
    exact ⟨s1, hrun, hp⟩
  · intro fuel msg s1 h
    exact rxevent_loop_pcan e fuel fuel s msg s1 h
  · intro q fuel msg hq hfuel
    obtain ⟨s1, hrun, hp, _, _⟩ := rxevent_loop_reads e fuel fuel q s msg hq hfuel hfuel
    refine ⟨s1, hrun, hp, ?_⟩
    rw [hp]
    exact ⟨rfl, rfl, rfl, rfl, rfl, rfl, rfl⟩

theorem C27_session_preserved_witness :
    ∃ s1 : State, pcan_rxevent_callback env1 6 state0 default = Except.ok s1 ∧
      s1.pcan = state0.pcan ∧
      s1.pcan.client = state0.pcan.client ∧ s1.pcan.net = state0.pcan.net ∧
      s1.pcan.hw = state0.pcan.hw ∧ s1.pcan.rxid = state0.pcan.rxid ∧
      s1.pcan.txid = state0.pcan.txid ∧ s1.pcan.netname = state0.pcan.netname ∧
      s1.pcan.xmtqueue_size = state0.pcan.xmtqueue_size :=
  (C27_session_preserved env1 state0).2.2.2.2.2 queue1 6 default
    (queueAt_drainAt env1 queue1 _ ⟨rfl, rfl, rfl, rfl, rfl, rfl⟩) (by decide)

/-! ## The overflow message -/

/-- Claim C30, evaluated.  For the empty buffer `pcan_send` issues no write and
tests `err`, which nothing has assigned: with a non-zero value in that stack
slot it logs the transmit-overflow message although no write failed (first
part at such a slot, second part for every slot and state).  For every
non-empty buffer the claim holds: the message is logged, once and after the
writes, iff one of the writes issued failed. -/
theorem C30_overflow_message :
    pcan_send env_stack state0 [] =
      Except.ok { state0 with trace := state0.trace ++
        [Event.logeventf fmt_tx_overflow [0, 0]] } ∧
    (∀ (e : Env) (s : State),
      pcan_send e s [] =
        Except.ok (if e.uninit_err ≠ 0 then
          { s with trace := s.trace ++ [Event.logeventf fmt_tx_overflow [0, 0]] } else s)) ∧
    (∀ (e : Env) (s : State) (b : Nat) (buf : List Nat),
      ∃ (s1 : State) (frames : List TCANMsg) (logs : List Event),
        pcan_send e s (b :: buf) = Except.ok s1 ∧
        s1.trace = s.trace ++ frames.map (Event.CAN_Write s.pcan.client s.pcan.net) ++ logs ∧
        frames ≠ [] ∧
        ((logs = [] ∧ ∀ k, k < frames.length → e.CAN_Write (s.nWrite + k) = CAN_ERR_OK) ∨
         ((∃ sent, logs = [Event.logeventf fmt_tx_overflow [sent, (b :: buf).length]]) ∧
           ∃ k, k < frames.length ∧ e.CAN_Write (s.nWrite + k) ≠ CAN_ERR_OK))) := by
  refine ⟨rfl, ?_, ?_⟩
  · intro e s
    by_cases h : e.uninit_err = 0
    · simp [pcan_send, pcan_send_loop, h]
    · simp [pcan_send, pcan_send_loop, h, call_logeventf]
  · intro e s b buf
    obtain ⟨s1, frames, logs, hrun, _, _, htr, _, hcase⟩ := pcan_send_any e s (b :: buf)
    rcases hcase with ⟨hb, _, _⟩ | ⟨_, hne, hlog⟩
    · cases hb
    · exact ⟨s1, frames, logs, hrun, htr, hne, hlog⟩

end PCan
